import Mathlib

/-!
The vnode operations of lx_sysfs (`usr/src/uts/common/brand/lx/sysfs/lx_sysvnops.c`).

A shallow embedding of the directory model, the lookup / readdir / readlink /
getattr / access vnode operations of the Linux-compatible `/sys` file system,
and theorems about them.

Conventions of the embedding.

* C strings are `String`s (no embedded NUL); `strlen` is `String.length`.
* An `int` error return is an `Option Errno`: `none` is `0`.
* `off_t` / `ssize_t` values are `Int`; an `int` that receives an `off_t`
  expression is reduced with `int32`.
* A `VERIFY` that fails is the result `none` of the operation that owns it.
* What `lx_sysfs.h`, the node factory of `lx_syssubr.c` and the kernel supply
  (constants, macros, helper functions, foreign vnode operations) is gathered
  in the structure `Ext` and passed explicitly.
* The live interface collection is the list of its interfaces in index order;
  a walk cursor is a suffix of that list and the empty list is the NULL cursor.
* `uiomove` succeeds unless the flag `uio_fault` of the transfer descriptor
  says that the caller's buffer cannot be written.
-/

namespace LxSysfs

/-! ## Basic types -/

/-- Error numbers returned by the operations of this file. -/
inductive Errno where
  | EPERM | ENOENT | EIO | EFAULT | EACCES | ENOTDIR | EISDIR | EINVAL | EROFS
  deriving DecidableEq, Repr

/-- Vnode types (`v_type`) that occur here. -/
inductive vtype where
  | VNON | VREG | VDIR | VLNK
  deriving DecidableEq, Repr

/-- Node kinds, in the order of the dispatch tables (`LXSYS_MAXTYPE` is their count). -/
inductive lxsys_nodetype where
  | LXSYS_NONE | LXSYS_STATIC | LXSYS_CLASS_NET | LXSYS_DEVICES_NET
  deriving DecidableEq, Repr

/-- One row of a `lxsys_dirent_t` table: `{ d_idnum, d_name }`. -/
structure lxsys_dirent where
  d_idnum : Nat
  d_name : String
  deriving DecidableEq, Repr

/-- One row of `lxsys_dirlookup`; `dl_length` is `SYSDIRLISTSZ(dl_list)`. -/
structure lxsys_dirlookup_t where
  dl_instance : Nat
  dl_list : List lxsys_dirent
  deriving DecidableEq, Repr

/-- The `dl_length` member, which `SYSDLENT` fills with the length of the list. -/
def lxsys_dirlookup_t.dl_length (r : lxsys_dirlookup_t) : Nat := r.dl_list.length

/-- The private data of a vnode of this file system (`lxsys_node_t`), together
with the `v_type` of its vnode.  Vnode pointers (`lxsys_parent`, `lxsys_realvp`)
are abstract handles; `lxsys_realvp = none` is the NULL pointer. -/
structure lxsys_node where
  lxsys_type : lxsys_nodetype
  lxsys_instance : Nat
  lxsys_endpoint : Nat
  lxsys_ino : Nat
  lxsys_mode : Nat
  lxsys_uid : Nat
  lxsys_gid : Nat
  lxsys_time : Nat
  v_type : vtype
  vfs_dev : Nat
  lxsys_parent : Nat
  lxsys_realvp : Option Nat
  deriving DecidableEq, Repr

/-- A vnode as seen by a caller of lookup: either a vnode of this file system,
given with its node (`VTOLXS`), or a vnode known only by its handle. -/
inductive vnode where
  | lxs (n : lxsys_node)
  | ref (vp : Nat)
  deriving DecidableEq, Repr

/-- What the access checks observe of a credential: `crgetuid`, the groups for
which `groupmember` answers true, and whether `secpolicy_proc_access` returns 0. -/
structure cred where
  cr_uid : Nat
  cr_groups : List Nat
  cr_proc_access : Bool
  deriving DecidableEq, Repr

/-- The attribute record filled by getattr (`vattr_t`), restricted to the
members this file writes. -/
structure vattr where
  va_type : vtype
  va_mode : Nat
  va_uid : Nat
  va_gid : Nat
  va_fsid : Nat
  va_nodeid : Nat
  va_nlink : Nat
  va_size : Nat
  va_atime : Nat
  va_mtime : Nat
  va_ctime : Nat
  va_blksize : Nat
  va_nblocks : Nat
  deriving DecidableEq, Repr

/-- A directory record as handed to the caller (`dirent64_t`). -/
structure dirent64 where
  d_ino : Nat
  d_off : Int
  d_reclen : Nat
  d_name : String
  deriving DecidableEq, Repr

/-- The transfer descriptor (`uio_t`): current offset, bytes still wanted, and
the items moved to the caller so far.  `uio_fault` says that the destination is
not writable, in which case `uiomove` fails with `EFAULT`. -/
structure uio (α : Type) where
  uio_offset : Int
  uio_resid : Int
  uio_fault : Bool
  uio_data : List α
  deriving DecidableEq, Repr

/-- An interface of the live collection (`phyint_t`): name and index. -/
structure phyint where
  phyint_name : String
  phyint_ifindex : Nat
  deriving DecidableEq, Repr

/-- Direction argument of `lx_ifname_convert`. -/
inductive lx_if_action where
  | LX_IF_FROMNATIVE | LX_IF_TONATIVE
  deriving DecidableEq, Repr

/-- What the attribute files read of the network-layer state of an interface
(`ill_t`): the physical address and its length, the flag words of the ill, of
its first address (`ill_ipif->ipif_flags`) and of its phyint
(`ill_phyint->phyint_flags`), the MTU and the media type. -/
structure ill_t where
  ill_phys_addr_length : Nat
  ill_phys_addr : List Nat
  ill_flags : Nat
  ipif_flags : Nat
  phyint_flags : Nat
  ill_mtu : Nat
  ill_mactype : Nat
  deriving DecidableEq, Repr

/-- Declarations the file uses and does not define: constants and macros of
`lx_sysfs.h`, `sys/param.h`, `sys/dirent.h`, `sys/vnode.h`, `sys/file.h`,
`sys/ethernet.h` and the IP headers; the inode and node factory helpers of
`lx_syssubr.c`; the interface resolver `lxsys_find_ill`; `lx_ifname_convert` and
`lx_ifflags_convert` of the brand module; `arp_hw_type`; and the operations of
foreign (underlying) vnodes, addressed by handle. -/
structure Ext where
  LXSYS_SDSIZE : Int
  LXSNSIZ : Nat
  MAXPATHLEN : Nat
  LIFNAMSIZ : Nat
  DEV_BSIZE : Nat
  ATTR_REAL : Nat
  VREAD : Nat
  VEXEC : Nat
  DIRENT64_RECLEN : Nat → Nat
  lxsys_inode : lxsys_nodetype → Nat → Nat → Nat
  lxsys_parentinode : lxsys_node → Nat
  lxsys_getnode : lxsys_node → lxsys_nodetype → Nat → Nat → lxsys_node
  lxsys_getnode_static : lxsys_node → Nat → lxsys_node
  lx_ifname_convert : String → lx_if_action → String
  VOP_ACCESS : Nat → Nat → Nat → cred → Option Errno
  VOP_GETATTR : Nat → vattr → Nat → cred → Except Errno vattr
  VWRITE : Nat
  FWRITE : Nat
  ETHERADDRL : Nat
  LX_ARPHRD_LOOPBACK : Nat
  PHYI_LOOPBACK : Nat
  lxsys_find_ill : List phyint → Nat → Option ill_t
  lx_ifflags_convert : Nat → lx_if_action → Nat
  arp_hw_type : Nat → Nat
  VOP_OPEN : Nat → Nat → cred → Except Errno Nat

/-! ## The static tree -/

/-- Instance of `/sys`; `lx_sysfs.h` declares it, and the inode-format comment
of the file assigns instance 0 to `/sys`. -/
def LXSYS_INST_ROOT : Nat := 0
def LXSYS_INST_CLASSDIR : Nat := 1
def LXSYS_INST_DEVICESDIR : Nat := 2
def LXSYS_INST_FSDIR : Nat := 3
def LXSYS_INST_CLASS_NETDIR : Nat := 4
def LXSYS_INST_DEVICES_VIRTUALDIR : Nat := 5
def LXSYS_INST_DEVICES_SYSTEMDIR : Nat := 6
def LXSYS_INST_FS_CGROUPDIR : Nat := 7
def LXSYS_INST_DEVICES_VIRTUAL_NETDIR : Nat := 8

def dirlist_root : List lxsys_dirent :=
  [⟨LXSYS_INST_CLASSDIR, "class"⟩, ⟨LXSYS_INST_DEVICESDIR, "devices"⟩, ⟨LXSYS_INST_FSDIR, "fs"⟩]

def dirlist_empty : List lxsys_dirent := []

def dirlist_class : List lxsys_dirent := [⟨LXSYS_INST_CLASS_NETDIR, "net"⟩]

def dirlist_fs : List lxsys_dirent := [⟨LXSYS_INST_FS_CGROUPDIR, "cgroup"⟩]

def dirlist_devices : List lxsys_dirent :=
  [⟨LXSYS_INST_DEVICES_SYSTEMDIR, "system"⟩, ⟨LXSYS_INST_DEVICES_VIRTUALDIR, "virtual"⟩]

def dirlist_devices_virtual : List lxsys_dirent := [⟨LXSYS_INST_DEVICES_VIRTUAL_NETDIR, "net"⟩]

def LXSYS_ENDP_NET_ADDRESS : Nat := 1
def LXSYS_ENDP_NET_ADDRLEN : Nat := 2
def LXSYS_ENDP_NET_FLAGS : Nat := 3
def LXSYS_ENDP_NET_IFINDEX : Nat := 4
def LXSYS_ENDP_NET_MTU : Nat := 5
def LXSYS_ENDP_NET_TXQLEN : Nat := 6
def LXSYS_ENDP_NET_TYPE : Nat := 7

def dirlist_devices_virtual_net : List lxsys_dirent :=
  [⟨LXSYS_ENDP_NET_ADDRESS, "address"⟩, ⟨LXSYS_ENDP_NET_ADDRLEN, "addr_len"⟩,
   ⟨LXSYS_ENDP_NET_FLAGS, "flags"⟩, ⟨LXSYS_ENDP_NET_IFINDEX, "ifindex"⟩,
   ⟨LXSYS_ENDP_NET_MTU, "mtu"⟩, ⟨LXSYS_ENDP_NET_TXQLEN, "tx_queue_len"⟩,
   ⟨LXSYS_ENDP_NET_TYPE, "type"⟩]

def lxsys_dirlookup : List lxsys_dirlookup_t :=
  [⟨LXSYS_INST_ROOT, dirlist_root⟩,
   ⟨LXSYS_INST_CLASSDIR, dirlist_class⟩,
   ⟨LXSYS_INST_FSDIR, dirlist_fs⟩,
   ⟨LXSYS_INST_FS_CGROUPDIR, dirlist_empty⟩,
   ⟨LXSYS_INST_DEVICESDIR, dirlist_devices⟩,
   ⟨LXSYS_INST_DEVICES_SYSTEMDIR, dirlist_empty⟩,
   ⟨LXSYS_INST_DEVICES_VIRTUALDIR, dirlist_devices_virtual⟩]

/-- The scan `for (i = 0; i < SYSDIRLISTSZ(lxsys_dirlookup); i++)` that opens
`lxsys_lookup_static` and `lxsys_readdir_static`: the first row whose
`dl_instance` is the node's instance, `none` when the scan ends with
`dirent == NULL`. -/
def dirlookup_scan (inst : Nat) : List lxsys_dirlookup_t → Option lxsys_dirlookup_t
  | [] => none
  | r :: rs => if inst = r.dl_instance then some r else dirlookup_scan inst rs

/-! ## Machine integers and C library helpers -/

/-- Conversion of a wider integer to `int` (two's complement, 32 bits). -/
def int32 (x : Int) : Int := (x + 2147483648) % 4294967296 - 2147483648

/-- Conversion to `ushort_t`. -/
def uint16 (x : Nat) : Nat := x % 65536

/-- Bitwise complement of a 32-bit word. -/
def not32 (x : Nat) : Nat := 4294967295 ^^^ (x % 4294967296)

/-- The test `strncmp(a, b, n) == 0`: the strings agree on their first `n`
characters, the terminator included. -/
def strncmp_eq (a b : String) (n : Nat) : Bool := a.data.take n == b.data.take n

/-- The result of `strncpy(buf, s, n)` read back as a string: at most `n`
characters of `s`. -/
def strncpy (s : String) (n : Nat) : String := ⟨s.data.take n⟩

/-- The use of `uiomove(d, n, UIO_READ, uio)` on one directory record: `n` bytes
leave the budget and the record reaches the caller. -/
def uiomove_dirent (d : dirent64) (n : Nat) (u : uio dirent64) : Except Errno (uio dirent64) :=
  if u.uio_fault then .error Errno.EFAULT
  else .ok { u with uio_offset := u.uio_offset + n, uio_resid := u.uio_resid - n,
                    uio_data := u.uio_data ++ [d] }

/-- The use of `uiomove(buf, n, UIO_READ, uio)` on a text buffer: as many of the
first `n` characters as the budget allows are moved. -/
def uiomove_text (buf : String) (n : Nat) (u : uio Char) : Except Errno (uio Char) :=
  if u.uio_fault then .error Errno.EFAULT
  else
    let cnt := min n u.uio_resid.toNat
    .ok { u with uio_offset := u.uio_offset + cnt, uio_resid := u.uio_resid - cnt,
                 uio_data := u.uio_data ++ buf.data.take cnt }

/-! ## Access check -/

/-- Embedding of `lxsys_access`. -/
def lxsys_access (X : Ext) (lxsnp : lxsys_node) (mode flags : Nat) (cr : cred) : Option Errno :=
  match lxsnp.lxsys_realvp with
  | some rvp => X.VOP_ACCESS rvp mode flags cr
  | none =>
    if cr.cr_proc_access then none
    else
      let shift : Nat :=
        if cr.cr_uid ≠ lxsnp.lxsys_uid then
          (if lxsnp.lxsys_gid ∉ cr.cr_groups then 6 else 3)
        else 0
      let mode1 := mode &&& not32 (lxsnp.lxsys_mode <<< shift)
      if mode1 = 0 then none else some Errno.EACCES

/-! ## Directory listing -/

/-- State a readdir routine leaves behind: its return value, the transfer
descriptor, and the caller's end-of-listing word (`*eofp`). -/
structure readdir_ret where
  error : Option Errno
  uiop : uio dirent64
  eof : Int
  deriving DecidableEq, Repr

/-- Embedding of `lxsys_dirent_out`. -/
def lxsys_dirent_out (X : Ext) (d : dirent64) (n : Nat) (u : uio dirent64) :
    Except Errno (uio dirent64) :=
  let offset := u.uio_offset
  let d1 := { d with d_off := offset + X.LXSYS_SDSIZE, d_reclen := uint16 n }
  match uiomove_dirent d1 (uint16 n) u with
  | .error e => .error e
  | .ok u1 => .ok { u1 with uio_offset := offset + X.LXSYS_SDSIZE }

/-- The statement after the loop of `lxsys_readdir_common` / `lxsys_readdir_subdir`:
`*eofp = (uio_offset >= (dirtablen + 2) * LXSYS_SDSIZE) ? 1 : 0; return (0)`. -/
def readdir_tail (X : Ext) (dirtablen : Nat) (u : uio dirent64) : readdir_ret :=
  { error := none, uiop := u,
    eof := if u.uio_offset ≥ ((dirtablen : Int) + 2) * X.LXSYS_SDSIZE then 1 else 0 }

/-- The choice of the record for the current offset, made at the head of each
pass of the loop of `lxsys_readdir_common` / `lxsys_readdir_subdir`: inode and
name of the record, or `none` for the branch "Run out of table entries".
`child_ino` is the inode expression for a table entry, the one place where the
two routines differ.  `dirtablen` is the length of `dirtab`. -/
def readdir_entry (X : Ext) (lxsnp : lxsys_node) (child_ino : lxsys_dirent → Nat)
    (dirtab : List lxsys_dirent) (uoffset : Int) : Option (Nat × String) :=
  let dirindex : Int := int32 (uoffset.tdiv X.LXSYS_SDSIZE - 2)
  if uoffset = 0 then some (lxsnp.lxsys_ino, ".")
  else if uoffset = X.LXSYS_SDSIZE then some (X.lxsys_parentinode lxsnp, "..")
  else if dirindex ≥ 0 ∧ dirindex < dirtab.length then
    (dirtab.get? dirindex.toNat).map (fun e => (child_ino e, e.d_name))
  else none

/-- The loop `while ((uresid = uiop->uio_resid) > 0)` shared, line for line, by
`lxsys_readdir_common` and `lxsys_readdir_subdir`, with the statement that
follows it.  Every pass that does not leave the loop advances the offset by one
slot, so `dirtablen + 3` passes are never used up; the first argument counts
them. -/
def readdir_loop (X : Ext) (lxsnp : lxsys_node) (child_ino : lxsys_dirent → Nat)
    (dirtab : List lxsys_dirent) (oresid : Int) :
    Nat → uio dirent64 → Int → readdir_ret
  | 0, u, _ => readdir_tail X dirtab.length u
  | fuel + 1, u, eof =>
    let uresid := u.uio_resid
    if uresid > 0 then
      match readdir_entry X lxsnp child_ino dirtab u.uio_offset with
      | none => { error := none, uiop := u, eof := 1 }
      | some (ino, name) =>
        let reclen := X.DIRENT64_RECLEN name.length
        if (reclen : Int) > uresid then
          if uresid = oresid then { error := some Errno.EINVAL, uiop := u, eof := eof }
          else readdir_tail X dirtab.length u
        else
          match lxsys_dirent_out X ⟨ino, 0, 0, name⟩ reclen u with
          | .error e => { error := some e, uiop := u, eof := eof }
          | .ok u1 => readdir_loop X lxsnp child_ino dirtab oresid fuel u1 eof
    else readdir_tail X dirtab.length u

/-- Embedding of `lxsys_readdir_common`. -/
def lxsys_readdir_common (X : Ext) (lxsnp : lxsys_node) (uiop : uio dirent64) (eof : Int)
    (dirtab : List lxsys_dirent) : readdir_ret :=
  readdir_loop X lxsnp (fun e => X.lxsys_inode lxsys_nodetype.LXSYS_STATIC e.d_idnum 0)
    dirtab uiop.uio_resid (dirtab.length + 3) uiop eof

/-- Embedding of `lxsys_readdir_subdir`. -/
def lxsys_readdir_subdir (X : Ext) (lxsnp : lxsys_node) (uiop : uio dirent64) (eof : Int)
    (dirtab : List lxsys_dirent) : readdir_ret :=
  readdir_loop X lxsnp (fun e => X.lxsys_inode lxsnp.lxsys_type lxsnp.lxsys_instance e.d_idnum)
    dirtab uiop.uio_resid (dirtab.length + 3) uiop eof

/-! ## The live interface collection -/

/-- First node of the walk whose cursor is a suffix of the index-ordered
collection (`avl_first`); the empty list is the NULL cursor. -/
def avl_first (phytree : List phyint) : List phyint := phytree

/-- The step `avl_walk(phytree, phyi, AVL_AFTER)` on such a cursor. -/
def avl_walk_after (phyi : List phyint) : List phyint := phyi.tail

/-- The search `avl_find` in `phyint_list_avl_by_name`. -/
def avl_find_by_name (phytree : List phyint) (ifname : String) : Option phyint :=
  phytree.find? (fun p => p.phyint_name == ifname)

/-- The search `avl_find` in `phyint_list_avl_by_index`. -/
def avl_find_by_index (phytree : List phyint) (ifindex : Nat) : Option phyint :=
  phytree.find? (fun p => p.phyint_ifindex == ifindex)

/-- The loop `for (i = ...; i > 0; i--)` of `lxsys_readdir_ifaces`, which skips
the records the offset has already passed. -/
def ifaces_skip : Nat → List phyint → Int → List phyint × Int
  | 0, phyi, eof => (phyi, eof)
  | i + 1, phyi, eof =>
    match avl_walk_after phyi with
    | [] => ([], 1)
    | nxt => ifaces_skip i nxt eof

/-- The loop `while ((uresid = uiop->uio_resid) > 0 && phyi != NULL)` of
`lxsys_readdir_ifaces`, followed by its `return (error)`.  The cursor is
`phyi :: rest`, so `rest` is what `avl_walk(phytree, phyi, AVL_AFTER)` returns. -/
def ifaces_loop (X : Ext) (type : lxsys_nodetype) (oresid : Int) :
    List phyint → uio dirent64 → Int → readdir_ret
  | [], u, eof => { error := none, uiop := u, eof := eof }
  | phyi :: rest, u, eof =>
    let uresid := u.uio_resid
    if uresid > 0 then
      let ifindex := phyi.phyint_ifindex
      let name := X.lx_ifname_convert (strncpy phyi.phyint_name X.LIFNAMSIZ)
        lx_if_action.LX_IF_FROMNATIVE
      let ino := X.lxsys_inode type ifindex 0
      let reclen := X.DIRENT64_RECLEN name.length
      if (reclen : Int) > uresid then
        { error := if uresid = oresid then some Errno.EINVAL else none, uiop := u, eof := eof }
      else
        match lxsys_dirent_out X ⟨ino, 0, 0, name⟩ reclen u with
        | .error e => { error := some e, uiop := u, eof := eof }
        | .ok u1 =>
          if rest = [] then { error := none, uiop := u1, eof := 1 }
          else ifaces_loop X type oresid rest u1 eof
    else { error := none, uiop := u, eof := eof }

/-- Embedding of `lxsys_readdir_ifaces`; `ns` is the result of `lxsys_netstack`
(`none` for NULL), given as the index-ordered collection. -/
def lxsys_readdir_ifaces (X : Ext) (ns : Option (List phyint)) (ldp : lxsys_node)
    (uiop : uio dirent64) (eof : Int) (type : lxsys_nodetype) : readdir_ret :=
  let oresid := uiop.uio_resid
  let r := lxsys_readdir_common X ldp uiop eof []
  if r.error ≠ none ∨ r.eof = 0 then r
  else
    match ns with
    | none => { r with eof := 1 }
    | some phytree =>
      let phyi := avl_first phytree
      let eof1 : Int := if phyi = [] then 1 else r.eof
      let i := int32 (r.uiop.uio_offset.tdiv X.LXSYS_SDSIZE - 2)
      let s := ifaces_skip i.toNat phyi eof1
      ifaces_loop X type oresid s.1 r.uiop s.2

/-- Embedding of `lxsys_readdir_static`. -/
def lxsys_readdir_static (X : Ext) (_ns : Option (List phyint)) (lnp : lxsys_node)
    (uiop : uio dirent64) (eof : Int) : readdir_ret :=
  match dirlookup_scan lnp.lxsys_instance lxsys_dirlookup with
  | none => { error := some Errno.ENOTDIR, uiop := uiop, eof := eof }
  | some r => lxsys_readdir_common X lnp uiop eof r.dl_list

/-- Embedding of `lxsys_readdir_class_netdir`. -/
def lxsys_readdir_class_netdir (X : Ext) (ns : Option (List phyint)) (lnp : lxsys_node)
    (uiop : uio dirent64) (eof : Int) : readdir_ret :=
  if lnp.lxsys_type ≠ lxsys_nodetype.LXSYS_CLASS_NET ∨ lnp.lxsys_instance ≠ 0 then
    { error := some Errno.ENOTDIR, uiop := uiop, eof := eof }
  else lxsys_readdir_ifaces X ns lnp uiop eof lxsys_nodetype.LXSYS_CLASS_NET

/-- Embedding of `lxsys_readdir_devices_virtual_netdir`. -/
def lxsys_readdir_devices_virtual_netdir (X : Ext) (ns : Option (List phyint))
    (lnp : lxsys_node) (uiop : uio dirent64) (eof : Int) : readdir_ret :=
  if lnp.lxsys_instance = 0 then
    lxsys_readdir_ifaces X ns lnp uiop eof lxsys_nodetype.LXSYS_DEVICES_NET
  else if lnp.lxsys_endpoint = 0 then
    lxsys_readdir_subdir X lnp uiop eof dirlist_devices_virtual_net
  else { error := some Errno.ENOTDIR, uiop := uiop, eof := eof }

/-- The table `lxsys_readdir_function`, indexed by node kind (`none` is NULL). -/
def lxsys_readdir_function : lxsys_nodetype →
    Option (Ext → Option (List phyint) → lxsys_node → uio dirent64 → Int → readdir_ret)
  | .LXSYS_NONE => none
  | .LXSYS_STATIC => some lxsys_readdir_static
  | .LXSYS_CLASS_NET => some lxsys_readdir_class_netdir
  | .LXSYS_DEVICES_NET => some lxsys_readdir_devices_virtual_netdir

/-- Embedding of `lxsys_readdir`.  `eof` is the content of the word that
receives the end-of-listing flag (the caller's, or the local `leof` when the
caller passed NULL).  The result is `none` when the `VERIFY` on the node kind
fails.  The `ASSERT` on `v_type` is compiled only into debug kernels and is
not part of the embedding. -/
def lxsys_readdir (X : Ext) (ns : Option (List phyint)) (lxsnp : lxsys_node)
    (uiop : uio dirent64) (cr : cred) (eof : Int) : Option readdir_ret :=
  match lxsys_readdir_function lxsnp.lxsys_type with
  | none => none
  | some rdfunc =>
    match lxsys_access X lxsnp X.VREAD 0 cr with
    | some error => some { error := some error, uiop := uiop, eof := eof }
    | none =>
      let uoffset := uiop.uio_offset
      let uresid := uiop.uio_resid
      if uoffset < 0 ∨ uresid ≤ 0 then
        some { error := some Errno.EINVAL, uiop := uiop, eof := eof }
      else if uoffset.tmod X.LXSYS_SDSIZE ≠ 0 then
        some { error := some Errno.ENOENT, uiop := uiop, eof := eof }
      else some (rdfunc X ns lxsnp uiop eof)

/-! ## Lookup -/

/-- The body of the block `if (strncmp(comp, dirent[i].d_name, MAXPATHLEN) == 0)`
of `lxsys_lookup_static` for the matched entry `d`: the `switch` on `d_idnum`
and the call of the factory; the node whose vnode is returned. -/
def lookup_static_node (X : Ext) (ldp : lxsys_node) (d : lxsys_dirent) : lxsys_node :=
  let sel : lxsys_nodetype × Nat :=
    if d.d_idnum = LXSYS_INST_CLASS_NETDIR then (lxsys_nodetype.LXSYS_CLASS_NET, 0)
    else if d.d_idnum = LXSYS_INST_DEVICES_VIRTUAL_NETDIR then
      (lxsys_nodetype.LXSYS_DEVICES_NET, 0)
    else (ldp.lxsys_type, d.d_idnum)
  if sel.1 = lxsys_nodetype.LXSYS_STATIC then X.lxsys_getnode_static ldp sel.2
  else X.lxsys_getnode ldp sel.1 sel.2 0

/-- The loop `for (i = 0; i < len; i++)` of `lxsys_lookup_static` with the
`return (NULL)` that follows it. -/
def lookup_static_scan (X : Ext) (ldp : lxsys_node) (comp : String) :
    List lxsys_dirent → Option lxsys_node
  | [] => none
  | d :: ds =>
    if strncmp_eq comp d.d_name X.MAXPATHLEN then some (lookup_static_node X ldp d)
    else lookup_static_scan X ldp comp ds

/-- Embedding of `lxsys_lookup_static`; `none` is the NULL return. -/
def lxsys_lookup_static (X : Ext) (_ns : Option (List phyint)) (ldp : lxsys_node)
    (comp : String) : Option lxsys_node :=
  match dirlookup_scan ldp.lxsys_instance lxsys_dirlookup with
  | none => none
  | some r => lookup_static_scan X ldp comp r.dl_list

/-- Embedding of `lxsys_lookup_class_netdir`. -/
def lxsys_lookup_class_netdir (X : Ext) (ns : Option (List phyint)) (ldp : lxsys_node)
    (comp : String) : Option lxsys_node :=
  if ldp.lxsys_type ≠ lxsys_nodetype.LXSYS_CLASS_NET ∨ ldp.lxsys_instance ≠ 0 then none
  else
    let ifname := X.lx_ifname_convert (strncpy comp X.LIFNAMSIZ) lx_if_action.LX_IF_TONATIVE
    match ns with
    | none => none
    | some phytree =>
      match avl_find_by_name phytree ifname with
      | some phyi =>
        let lnp := X.lxsys_getnode ldp ldp.lxsys_type phyi.phyint_ifindex 0
        some { lnp with v_type := vtype.VLNK }
      | none => none

/-- The scan of `dirlist_devices_virtual_net` in
`lxsys_lookup_devices_virtual_netdir`. -/
def lookup_attr_scan (X : Ext) (ldp : lxsys_node) (comp : String) :
    List lxsys_dirent → Option lxsys_node
  | [] => none
  | dirent :: ds =>
    if strncmp_eq comp dirent.d_name X.LXSNSIZ then
      let lnp := X.lxsys_getnode ldp ldp.lxsys_type ldp.lxsys_instance dirent.d_idnum
      some { lnp with v_type := vtype.VREG, lxsys_mode := 0o444 }
    else lookup_attr_scan X ldp comp ds

/-- Embedding of `lxsys_lookup_devices_virtual_netdir`. -/
def lxsys_lookup_devices_virtual_netdir (X : Ext) (ns : Option (List phyint))
    (ldp : lxsys_node) (comp : String) : Option lxsys_node :=
  if ldp.lxsys_instance = 0 then
    let ifname := X.lx_ifname_convert (strncpy comp X.LIFNAMSIZ) lx_if_action.LX_IF_TONATIVE
    match ns with
    | none => none
    | some phytree =>
      match avl_find_by_name phytree ifname with
      | some phyi => some (X.lxsys_getnode ldp ldp.lxsys_type phyi.phyint_ifindex 0)
      | none => none
  else if ldp.lxsys_endpoint = 0 then
    lookup_attr_scan X ldp comp dirlist_devices_virtual_net
  else none

/-- The table `lxsys_lookup_function`, indexed by node kind. -/
def lxsys_lookup_function : lxsys_nodetype →
    Option (Ext → Option (List phyint) → lxsys_node → String → Option lxsys_node)
  | .LXSYS_NONE => none
  | .LXSYS_STATIC => some lxsys_lookup_static
  | .LXSYS_CLASS_NET => some lxsys_lookup_class_netdir
  | .LXSYS_DEVICES_NET => some lxsys_lookup_devices_virtual_netdir

/-- Embedding of `lxsys_lookup`: the error return, or the vnode stored through
`vpp`.  The result is `none` when one of the two `VERIFY`s fails. -/
def lxsys_lookup (X : Ext) (ns : Option (List phyint)) (lxsnp : lxsys_node) (comp : String)
    (cr : cred) : Option (Except Errno vnode) :=
  if lxsnp.v_type ≠ vtype.VDIR then none
  else
    match lxsys_lookup_function lxsnp.lxsys_type with
    | none => none
    | some lkfunc =>
      match lxsys_access X lxsnp X.VEXEC 0 cr with
      | some error => some (.error error)
      | none =>
        if comp = ".." then some (.ok (vnode.ref lxsnp.lxsys_parent))
        else if lxsnp.v_type = vtype.VDIR ∧ (comp = "" ∨ comp = ".") then
          some (.ok (vnode.lxs lxsnp))
        else
          match lkfunc X ns lxsnp comp with
          | none => some (.error Errno.ENOENT)
          | some vp => some (.ok (vnode.lxs vp))

/-! ## Readlink -/

/-- Embedding of `lxsys_readlink_class_net`: the error, or the text left in
`buf` by `snprintf(buf, len, ...)`. -/
def lxsys_readlink_class_net (X : Ext) (ns : Option (List phyint)) (lnp : lxsys_node)
    (len : Nat) : Except Errno String :=
  let ifindex := lnp.lxsys_instance
  if ifindex = 0 then .error Errno.EINVAL
  else
    match ns with
    | none => .error Errno.EINVAL
    | some phytree =>
      match avl_find_by_index phytree ifindex with
      | some phyi =>
        let ifname := X.lx_ifname_convert (strncpy phyi.phyint_name X.LIFNAMSIZ)
          lx_if_action.LX_IF_FROMNATIVE
        .ok (strncpy ("/sys/devices/virtual/net/" ++ ifname) (len - 1))
      | none => .error Errno.EINVAL

/-- The table `lxsys_readlink_function`, indexed by node kind. -/
def lxsys_readlink_function : lxsys_nodetype →
    Option (Ext → Option (List phyint) → lxsys_node → Nat → Except Errno String)
  | .LXSYS_NONE => none
  | .LXSYS_STATIC => none
  | .LXSYS_CLASS_NET => some lxsys_readlink_class_net
  | .LXSYS_DEVICES_NET => none

/-- Embedding of `lxsys_readlink`: return value and transfer descriptor; `none`
when the `VERIFY` on the node kind fails. -/
def lxsys_readlink (X : Ext) (ns : Option (List phyint)) (lnp : lxsys_node)
    (uiop : uio Char) : Option (Option Errno × uio Char) :=
  if lnp.lxsys_type = lxsys_nodetype.LXSYS_NONE then none
  else if lnp.v_type ≠ vtype.VLNK then some (some Errno.EINVAL, uiop)
  else
    match lxsys_readlink_function lnp.lxsys_type with
    | some rlfunc =>
      match rlfunc X ns lnp (X.MAXPATHLEN + 1) with
      | .ok buf =>
        match uiomove_text buf buf.length uiop with
        | .ok u1 => some (none, u1)
        | .error e => some (some e, uiop)
      | .error e => some (some e, uiop)
    | none => some (some Errno.EINVAL, uiop)

/-! ## Getattr -/

/-- The attribute record after `bzero(vap, sizeof (*vap))`. -/
def vattr_zero : vattr :=
  ⟨vtype.VNON, 0, 0, 0, 0, 0, 0, 0, 0, 0, 0, 0, 0⟩

/-- Embedding of `lxsys_getattr`: return value and the attribute record. -/
def lxsys_getattr (X : Ext) (lxsnp : lxsys_node) (vap : vattr) (flags : Nat) (cr : cred) :
    Option Errno × vattr :=
  match (if flags &&& X.ATTR_REAL ≠ 0 then lxsnp.lxsys_realvp else none) with
  | some rvp =>
    match X.VOP_ACCESS rvp 0 0 cr with
    | some error => (some error, vap)
    | none =>
      match X.VOP_GETATTR rvp vap flags cr with
      | .error error => (some error, vap)
      | .ok vap1 => (none, vap1)
  | none =>
    (none,
      { vattr_zero with
        va_atime := lxsnp.lxsys_time, va_mtime := lxsnp.lxsys_time,
        va_ctime := lxsnp.lxsys_time, va_nlink := 1, va_type := lxsnp.v_type,
        va_mode := lxsnp.lxsys_mode, va_fsid := lxsnp.vfs_dev, va_blksize := X.DEV_BSIZE,
        va_uid := lxsnp.lxsys_uid, va_gid := lxsnp.lxsys_gid, va_nodeid := lxsnp.lxsys_ino,
        va_nblocks := (vattr_zero.va_size + X.DEV_BSIZE - 1) / X.DEV_BSIZE })

/-! ## Open -/

/-- Embedding of `lxsys_open`: the return value and the vnode that `*vpp`
designates afterwards.  The handle that `VOP_OPEN` leaves in `rvp` is the
result of `X.VOP_OPEN`. -/
def lxsys_open (X : Ext) (lxsnp : lxsys_node) (flag : Nat) (cr : cred) :
    Option Errno × vnode :=
  if flag &&& X.FWRITE ≠ 0 then (some Errno.EROFS, vnode.lxs lxsnp)
  else
    match lxsnp.lxsys_realvp with
    | some rvp =>
      match X.VOP_OPEN rvp flag cr with
      | .error error => (some error, vnode.lxs lxsnp)
      | .ok rvp1 => (none, vnode.ref rvp1)
    | none => (none, vnode.lxs lxsnp)

/-! ## Read -/

/-- Modelled from the spec: the buffered-output helper of §1 ("low-level
buffered-output helpers used to format file contents"; `lxsys_uiobuf_t` of
`lx_syssubr.c`, not in this file): the transfer descriptor it was created for
and the text formatted so far. -/
structure lxsys_uiobuf where
  uiop : uio Char
  buffer : String
  deriving DecidableEq, Repr

/-- Modelled from the spec: `lxsys_uiobuf_new` (see `lxsys_uiobuf`) starts with
an empty buffer. -/
def lxsys_uiobuf_new (uiop : uio Char) : lxsys_uiobuf := ⟨uiop, ""⟩

/-- Modelled from the spec: `lxsys_uiobuf_printf` (see `lxsys_uiobuf`) appends
the formatted text; the conversions of the format are applied by the caller
with `fmt_u`, `fmt_x`, `fmt_02hhx`. -/
def lxsys_uiobuf_printf (luio : lxsys_uiobuf) (text : String) : lxsys_uiobuf :=
  { luio with buffer := luio.buffer ++ text }

/-- Modelled from the spec: `lxsys_uiobuf_flush` (see `lxsys_uiobuf`) hands the
formatted text to the caller from the read offset on, as far as the budget
allows, and returns the error of that transfer. -/
def lxsys_uiobuf_flush (luio : lxsys_uiobuf) : Option Errno × uio Char :=
  let off := luio.uiop.uio_offset
  if luio.uiop.uio_resid ≠ 0 ∧ (luio.buffer.length : Int) > off ∧ off ≥ 0 then
    match uiomove_text ⟨luio.buffer.data.drop off.toNat⟩ (luio.buffer.length - off.toNat)
        luio.uiop with
    | .ok u1 => (none, u1)
    | .error e => (some e, luio.uiop)
  else (none, luio.uiop)

/-- The conversion `%u` of an `unsigned int`. -/
def fmt_u (n : Nat) : String := toString (n % 4294967296)

/-- The conversion `%x` of an `unsigned int`. -/
def fmt_x (n : Nat) : String := ⟨Nat.toDigits 16 (n % 4294967296)⟩

/-- The conversion `%02hhx` of a byte. -/
def fmt_02hhx (n : Nat) : String :=
  let d := Nat.toDigits 16 (n % 256)
  ⟨if d.length < 2 then '0' :: d else d⟩

/-- Modelled from the spec: the loopback-ness of an interface, one of the
per-entry fields of §6; the macro `IS_LOOPBACK(ill)` of the IP headers tests
`ill->ill_phyint->phyint_flags & PHYI_LOOPBACK`. -/
def IS_LOOPBACK (X : Ext) (ill : ill_t) : Bool := ill.phyint_flags &&& X.PHYI_LOOPBACK != 0

/-- Embedding of `lxsys_read_devices_virtual_net`: the return value and the
output buffer. -/
def lxsys_read_devices_virtual_net (X : Ext) (ns : Option (List phyint)) (lnp : lxsys_node)
    (luio : lxsys_uiobuf) : Option Errno × lxsys_uiobuf :=
  let ifindex := lnp.lxsys_instance
  if ifindex = 0 ∨ lnp.lxsys_endpoint = 0 then (some Errno.EISDIR, luio)
  else
    match ns with
    | none => (some Errno.EIO, luio)
    | some phytree =>
      match X.lxsys_find_ill phytree ifindex with
      | none => (some Errno.EIO, luio)
      | some ill =>
        if lnp.lxsys_endpoint = LXSYS_ENDP_NET_ADDRESS then
          if ill.ill_phys_addr_length ≠ X.ETHERADDRL then
            (none, lxsys_uiobuf_printf luio "00:00:00:00:00:00\n")
          else
            let addr := ill.ill_phys_addr
            (none, lxsys_uiobuf_printf luio
              (fmt_02hhx (addr.getD 0 0) ++ ":" ++ fmt_02hhx (addr.getD 1 0) ++ ":" ++
               fmt_02hhx (addr.getD 2 0) ++ ":" ++ fmt_02hhx (addr.getD 3 0) ++ ":" ++
               fmt_02hhx (addr.getD 4 0) ++ ":" ++ fmt_02hhx (addr.getD 5 0) ++ "\n"))
        else if lnp.lxsys_endpoint = LXSYS_ENDP_NET_ADDRLEN then
          (none, lxsys_uiobuf_printf luio
            (fmt_u (if IS_LOOPBACK X ill then X.ETHERADDRL else ill.ill_phys_addr_length)
              ++ "\n"))
        else if lnp.lxsys_endpoint = LXSYS_ENDP_NET_FLAGS then
          let flags := (ill.ill_flags ||| ill.ipif_flags ||| ill.phyint_flags) &&& 0xffff
          let flags1 := X.lx_ifflags_convert flags lx_if_action.LX_IF_FROMNATIVE
          (none, lxsys_uiobuf_printf luio ("0x" ++ fmt_x flags1 ++ "\n"))
        else if lnp.lxsys_endpoint = LXSYS_ENDP_NET_IFINDEX then
          (none, lxsys_uiobuf_printf luio (fmt_u ifindex ++ "\n"))
        else if lnp.lxsys_endpoint = LXSYS_ENDP_NET_MTU then
          (none, lxsys_uiobuf_printf luio (fmt_u ill.ill_mtu ++ "\n"))
        else if lnp.lxsys_endpoint = LXSYS_ENDP_NET_TXQLEN then
          if IS_LOOPBACK X ill then (none, lxsys_uiobuf_printf luio "0\n")
          else (none, lxsys_uiobuf_printf luio "1\n")
        else if lnp.lxsys_endpoint = LXSYS_ENDP_NET_TYPE then
          (none, lxsys_uiobuf_printf luio
            (fmt_u (if IS_LOOPBACK X ill then X.LX_ARPHRD_LOOPBACK
                    else X.arp_hw_type ill.ill_mactype) ++ "\n"))
        else (some Errno.EIO, luio)

/-- The table `lxsys_read_function`, indexed by node kind. -/
def lxsys_read_function : lxsys_nodetype →
    Option (Ext → Option (List phyint) → lxsys_node → lxsys_uiobuf →
      Option Errno × lxsys_uiobuf)
  | .LXSYS_NONE => none
  | .LXSYS_STATIC => none
  | .LXSYS_CLASS_NET => none
  | .LXSYS_DEVICES_NET => some lxsys_read_devices_virtual_net

/-- Embedding of `lxsys_read`: return value and transfer descriptor; `none`
when the `VERIFY` on the node kind fails. -/
def lxsys_read (X : Ext) (ns : Option (List phyint)) (lnp : lxsys_node) (uiop : uio Char) :
    Option (Option Errno × uio Char) :=
  if lnp.lxsys_type = lxsys_nodetype.LXSYS_NONE then none
  else if lnp.v_type = vtype.VDIR then some (some Errno.EISDIR, uiop)
  else
    match lxsys_read_function lnp.lxsys_type with
    | some rlfunc =>
      let luio := lxsys_uiobuf_new uiop
      match rlfunc X ns lnp luio with
      | (none, luio1) => some (lxsys_uiobuf_flush luio1)
      | (some error, luio1) => some (some error, luio1.uiop)
    | none => some (some Errno.EIO, uiop)

/-! ## Vocabulary of the statements: canonical listings, callers, contracts -/

/-- A bound on the number of records the loop of `lxsys_readdir_common` can
still emit from the offset `uoffset`. -/
def readdir_left (X : Ext) (dirtablen : Nat) (uoffset : Int) : Nat :=
  if uoffset = 0 then dirtablen + 2
  else if uoffset = X.LXSYS_SDSIZE then dirtablen + 1
  else if int32 (uoffset.tdiv X.LXSYS_SDSIZE - 2) ≥ 0 ∧
      int32 (uoffset.tdiv X.LXSYS_SDSIZE - 2) < dirtablen then
    (dirtablen - int32 (uoffset.tdiv X.LXSYS_SDSIZE - 2)).toNat
  else 0

/-- Inode and name of every record of a complete listing, in canonical order. -/
def canon_entries (X : Ext) (lxsnp : lxsys_node) (child_ino : lxsys_dirent → Nat)
    (dirtab : List lxsys_dirent) : List (Nat × String) :=
  (lxsnp.lxsys_ino, ".") :: (X.lxsys_parentinode lxsnp, "..") ::
    dirtab.map (fun e => (child_ino e, e.d_name))

/-- The record emitted for the entry at position `k`. -/
def canon_record (X : Ext) (k : Nat) (p : Nat × String) : dirent64 :=
  ⟨p.1, ((k : Int) + 1) * X.LXSYS_SDSIZE, uint16 (X.DIRENT64_RECLEN p.2.length), p.2⟩

/-- The records `k, k+1, ...` for a list of entries that starts at position `k`. -/
def canon_records (X : Ext) : Nat → List (Nat × String) → List dirent64
  | _, [] => []
  | k, p :: ps => canon_record X k p :: canon_records X (k + 1) ps

/-- Bytes taken from the budget by the records of a list of entries. -/
def entries_bytes (X : Ext) (l : List (Nat × String)) : Int :=
  (l.map (fun p => (X.DIRENT64_RECLEN p.2.length : Int))).sum

/-- The complete listing of a directory: the records of all its entries. -/
def listing (X : Ext) (lxsnp : lxsys_node) (child_ino : lxsys_dirent → Nat)
    (dirtab : List lxsys_dirent) : List dirent64 :=
  canon_records X 0 (canon_entries X lxsnp child_ino dirtab)

/-- A caller that pages through a directory: it calls `lxsys_readdir` with the
budget of the turn, at offset 0 first and then at the offset the previous call
left, collects what each call emits, and stops at the first call that reports
end of listing.  `none` when a call fails or panics, or when `calls` calls did
not reach the end. -/
def readdir_pages (X : Ext) (ns : Option (List phyint)) (lxsnp : lxsys_node) (cr : cred)
    (budget : Nat → Int) : Nat → Nat → Int → List dirent64 → Option (List dirent64)
  | 0, _, _, _ => none
  | calls + 1, i, off, acc =>
    match lxsys_readdir X ns lxsnp ⟨off, budget i, false, []⟩ cr 0 with
    | none => none
    | some r =>
      if r.error ≠ none then none
      else if r.eof = 1 then some (acc ++ r.uiop.uio_data)
      else readdir_pages X ns lxsnp cr budget calls (i + 1) r.uiop.uio_offset
        (acc ++ r.uiop.uio_data)

/-- Inode and name of the record that `lxsys_readdir_ifaces` builds for an
interface when it lists a directory of kind `type`. -/
def iface_entry (X : Ext) (type : lxsys_nodetype) (p : phyint) : Nat × String :=
  (X.lxsys_inode type p.phyint_ifindex 0,
    X.lx_ifname_convert (strncpy p.phyint_name X.LIFNAMSIZ) lx_if_action.LX_IF_FROMNATIVE)

/-- Inode and name of every record of a complete interface listing. -/
def ifaces_entries (X : Ext) (ldp : lxsys_node) (type : lxsys_nodetype) (l : List phyint) :
    List (Nat × String) :=
  (ldp.lxsys_ino, ".") :: (X.lxsys_parentinode ldp, "..") :: l.map (iface_entry X type)

/-- The canonical entries of the directory behind a node, following the
dispatch of `lxsys_readdir`: a row of `lxsys_dirlookup` for a static node, the
live collection for the two interface-listing roots, the attribute table for an
interface directory; `none` for every other node. -/
def dir_entries (X : Ext) (ns : Option (List phyint)) (lxsnp : lxsys_node) :
    Option (List (Nat × String)) :=
  match lxsnp.lxsys_type with
  | .LXSYS_NONE => none
  | .LXSYS_STATIC =>
    (dirlookup_scan lxsnp.lxsys_instance lxsys_dirlookup).map (fun r =>
      canon_entries X lxsnp (fun e => X.lxsys_inode lxsys_nodetype.LXSYS_STATIC e.d_idnum 0)
        r.dl_list)
  | .LXSYS_CLASS_NET =>
    if lxsnp.lxsys_instance = 0 then
      ns.map (ifaces_entries X lxsnp lxsys_nodetype.LXSYS_CLASS_NET)
    else none
  | .LXSYS_DEVICES_NET =>
    if lxsnp.lxsys_instance = 0 then
      ns.map (ifaces_entries X lxsnp lxsys_nodetype.LXSYS_DEVICES_NET)
    else if lxsnp.lxsys_endpoint = 0 then
      some (canon_entries X lxsnp
        (fun e => X.lxsys_inode lxsnp.lxsys_type lxsnp.lxsys_instance e.d_idnum)
        dirlist_devices_virtual_net)
    else none

/-- Modelled from the spec: the contract of the node factory
`get_or_create(parent, kind, instance, endpoint)` of §6 (`lxsys_getnode` lives in
`lx_syssubr.c`, outside this file): the node it hands out wraps the requested
identity. -/
def factory_ok (X : Ext) : Prop :=
  ∀ (p : lxsys_node) (t : lxsys_nodetype) (i e : Nat),
    (X.lxsys_getnode p t i e).lxsys_type = t ∧
    (X.lxsys_getnode p t i e).lxsys_instance = i ∧
    (X.lxsys_getnode p t i e).lxsys_endpoint = e

/-- The invariant of the two AVL trees that hold the live collection, one keyed
by name and one by index: no two interfaces share a name or an index. -/
def phyint_list_ok (l : List phyint) : Prop :=
  (l.map (fun p => p.phyint_name)).Nodup ∧ (l.map (fun p => p.phyint_ifindex)).Nodup

/-- Modelled from the spec: the contract of the interface resolver of §4.4
("resolve `interface_index` against the live collection; if absent, fail";
`lxsys_find_ill` is defined outside this file): it finds nothing for an index
that no interface of the collection carries. -/
def find_ill_ok (X : Ext) : Prop :=
  ∀ (phytree : List phyint) (ifindex : Nat),
    (∀ p ∈ phytree, p.phyint_ifindex ≠ ifindex) → X.lxsys_find_ill phytree ifindex = none

/-- The tier of the stored mode bits that `lxsys_access` applies to a caller:
0 for the owner, 1 for a member of the node's group, 2 for everyone else. -/
def access_tier (lxsnp : lxsys_node) (cr : cred) : Nat :=
  if cr.cr_uid = lxsnp.lxsys_uid then 0
  else if lxsnp.lxsys_gid ∈ cr.cr_groups then 1
  else 2

/-- Modelled from the spec: the contract of the node factory for static nodes
(`lxsys_getnode_static` lives in `lx_syssubr.c`, outside this file): the node it
hands out is the static node of the requested instance. -/
def factory_static_ok (X : Ext) : Prop :=
  ∀ (p : lxsys_node) (i : Nat),
    (X.lxsys_getnode_static p i).lxsys_type = lxsys_nodetype.LXSYS_STATIC ∧
    (X.lxsys_getnode_static p i).lxsys_instance = i ∧
    (X.lxsys_getnode_static p i).lxsys_endpoint = 0

/-- A walk down the static tree: from a node, one `lxsys_lookup_static` step per
component name, each taken on a node of kind STATIC; `none` as soon as a step
fails or would start from a node that is not static. -/
def lookup_static_path (X : Ext) (ns : Option (List phyint)) :
    lxsys_node → List String → Option lxsys_node
  | n, [] => some n
  | n, comp :: rest =>
    if n.lxsys_type = lxsys_nodetype.LXSYS_STATIC then
      match lxsys_lookup_static X ns n comp with
      | some n1 => lookup_static_path X ns n1 rest
      | none => none
    else none

/-! ## A concrete environment -/

/-- Position of a node kind in the dispatch tables. -/
def nodetype_index : lxsys_nodetype → Nat
  | .LXSYS_NONE => 0
  | .LXSYS_STATIC => 1
  | .LXSYS_CLASS_NET => 2
  | .LXSYS_DEVICES_NET => 3

/-- An instance of `Ext`: the header values of an amd64 illumos kernel, the
inode layout `0000AABBBBCC` of the comment in the file, a factory that builds a
directory node with mode 0555 for the requested identity, the loopback renaming
`lo` / `lo0`, an underlying file that grants access and reports mode 0644, and
a resolver that gives `lo0` the state of a loopback interface without physical
address and every other interface that of an Ethernet one.
It serves to instantiate the theorems below. -/
def illumos : Ext where
  LXSYS_SDSIZE := 16
  LXSNSIZ := 256
  MAXPATHLEN := 1024
  LIFNAMSIZ := 32
  DEV_BSIZE := 512
  ATTR_REAL := 16
  VREAD := 256
  VEXEC := 64
  DIRENT64_RECLEN := fun namelen => (18 + 1 + namelen + 7) / 8 * 8
  lxsys_inode := fun t i e => nodetype_index t * 16777216 + i * 256 + e
  lxsys_parentinode := fun n => n.lxsys_parent
  lxsys_getnode := fun p t i e =>
    ⟨t, i, e, nodetype_index t * 16777216 + i * 256 + e, 0o555, 0, 0, p.lxsys_time,
      vtype.VDIR, p.vfs_dev, p.lxsys_ino, none⟩
  lxsys_getnode_static := fun p i =>
    ⟨lxsys_nodetype.LXSYS_STATIC, i, 0, 16777216 + i * 256, 0o555, 0, 0, p.lxsys_time,
      vtype.VDIR, p.vfs_dev, p.lxsys_ino, none⟩
  lx_ifname_convert := fun s act =>
    match act with
    | .LX_IF_TONATIVE => if s = "lo" then "lo0" else s
    | .LX_IF_FROMNATIVE => if s = "lo0" then "lo" else s
  VOP_ACCESS := fun _ _ _ _ => none
  VOP_GETATTR := fun _ vap _ _ => .ok { vap with va_mode := 0o644 }
  VWRITE := 128
  FWRITE := 2
  ETHERADDRL := 6
  LX_ARPHRD_LOOPBACK := 772
  PHYI_LOOPBACK := 8
  lxsys_find_ill := fun phytree ifindex =>
    (phytree.find? (fun p => p.phyint_ifindex == ifindex)).map (fun p =>
      if p.phyint_name = "lo0" then ⟨0, [], 8, 0, 8, 8232, 0⟩
      else ⟨6, [2, 8, 32, 171, 205, 16 + p.phyint_ifindex], 0, 0, 0, 1500, 4⟩)
  lx_ifflags_convert := fun flags _ => flags
  arp_hw_type := fun mactype => if mactype = 4 then 1 else 0
  VOP_OPEN := fun rvp _ _ => .ok rvp

/-- The node of `/sys` in that environment. -/
def sys_root : lxsys_node :=
  ⟨lxsys_nodetype.LXSYS_STATIC, LXSYS_INST_ROOT, 0, 16777216, 0o555, 0, 0, 0, vtype.VDIR, 0,
    16777216, none⟩

/-- The node of `/sys/class/net` in that environment. -/
def sys_class_net : lxsys_node :=
  ⟨lxsys_nodetype.LXSYS_CLASS_NET, 0, 0, 33554432, 0o555, 0, 0, 0, vtype.VDIR, 0,
    16777472, none⟩

/-- A privileged caller. -/
def kcred : cred := ⟨0, [0], true⟩

/-- A live collection of three interfaces, in index order. -/
def three_ifaces : List phyint := [⟨"lo0", 1⟩, ⟨"net0", 2⟩, ⟨"net1", 3⟩]

/-- A passthrough node: a synthetic node with mode 0777 placed over the
underlying file with handle 7. -/
def passthrough_node : lxsys_node :=
  ⟨lxsys_nodetype.LXSYS_STATIC, LXSYS_INST_FS_CGROUPDIR, 0, 16779008, 0o777, 0, 0, 0,
    vtype.VDIR, 0, 16777984, some 7⟩

/-- A caller without privilege who is neither owner nor group member. -/
def nobody : cred := ⟨60001, [60001], false⟩

/-- A node of `/sys` with mode 0700, which grants nothing to other users. -/
def private_root : lxsys_node :=
  ⟨lxsys_nodetype.LXSYS_STATIC, LXSYS_INST_ROOT, 0, 16777216, 0o700, 0, 0, 0, vtype.VDIR, 0,
    16777216, none⟩

/-- The directory of the interface with index 2 under `/sys/devices/virtual/net`. -/
def sys_net0_dir : lxsys_node :=
  ⟨lxsys_nodetype.LXSYS_DEVICES_NET, 2, 0, 50332160, 0o555, 0, 0, 0, vtype.VDIR, 0,
    50331648, none⟩

/-- The attribute file `address` of the interface with index 1 (`lo0`). -/
def sys_lo0_address : lxsys_node :=
  ⟨lxsys_nodetype.LXSYS_DEVICES_NET, 1, LXSYS_ENDP_NET_ADDRESS, 50331905, 0o444, 0, 0, 0,
    vtype.VREG, 0, 50331904, none⟩

/-- The attribute file `tx_queue_len` of the interface with index 2 (`net0`). -/
def sys_net0_txqlen : lxsys_node :=
  ⟨lxsys_nodetype.LXSYS_DEVICES_NET, 2, LXSYS_ENDP_NET_TXQLEN, 50332166, 0o444, 0, 0, 0,
    vtype.VREG, 0, 50332160, none⟩

/-- The attribute file `mtu` of an interface with index 9, which the collection
`three_ifaces` does not hold. -/
def sys_gone_mtu : lxsys_node :=
  ⟨lxsys_nodetype.LXSYS_DEVICES_NET, 9, LXSYS_ENDP_NET_MTU, 50333957, 0o444, 0, 0, 0,
    vtype.VREG, 0, 50333952, none⟩

/-- The symlink of the interface with index 2 under `/sys/class/net`. -/
def sys_class_net0 : lxsys_node :=
  ⟨lxsys_nodetype.LXSYS_CLASS_NET, 2, 0, 33554944, 0o555, 0, 0, 0, vtype.VLNK, 0,
    33554432, none⟩

/-- A node of `/sys` owned by uid 100 and gid 10 with mode 0750. -/
def owned_root : lxsys_node :=
  ⟨lxsys_nodetype.LXSYS_STATIC, LXSYS_INST_ROOT, 0, 16777216, 0o750, 100, 10, 0, vtype.VDIR, 0,
    16777216, none⟩

/-- An unprivileged caller with uid 200 who is a member of group 10. -/
def group_member : cred := ⟨200, [10, 20], false⟩

/-- The node of `/sys/class` in the environment `illumos`. -/
def sys_class : lxsys_node :=
  ⟨lxsys_nodetype.LXSYS_STATIC, LXSYS_INST_CLASSDIR, 0, 16777472, 0o555, 0, 0, 0, vtype.VDIR, 0,
    16777216, none⟩

/-- The node of `/sys/devices/virtual` in the environment `illumos`. -/
def sys_devices_virtual : lxsys_node :=
  ⟨lxsys_nodetype.LXSYS_STATIC, LXSYS_INST_DEVICES_VIRTUALDIR, 0, 16778496, 0o555, 0, 0, 0,
    vtype.VDIR, 0, 16777728, none⟩

/-- The node of `/sys/devices/virtual/net` in the environment `illumos`. -/
def sys_devices_virtual_net : lxsys_node :=
  ⟨lxsys_nodetype.LXSYS_DEVICES_NET, 0, 0, 50331648, 0o555, 0, 0, 0, vtype.VDIR, 0,
    16778496, none⟩

/-! ## The inode layout -/

/-- The node kind at a position of the dispatch tables. -/
def nodetype_of_index : Nat → lxsys_nodetype
  | 1 => lxsys_nodetype.LXSYS_STATIC
  | 2 => lxsys_nodetype.LXSYS_CLASS_NET
  | 3 => lxsys_nodetype.LXSYS_DEVICES_NET
  | _ => lxsys_nodetype.LXSYS_NONE

/-- Modelled from the spec: `encode(kind, instance, endpoint)` of the Identity
Codec of §4.1, with the layout that the comment "Sysfs Inode format" of the file
documents (`lxsys_inode` itself lives in `lx_syssubr.c`): of the hex digits
`0000AABBBBCC`, AA holds the TYPE, BBBB the INSTANCE and CC the ENDPOINT. -/
def lxsys_inode_encode (type : lxsys_nodetype) (inst endpoint : Nat) : Nat :=
  (nodetype_index type % 256) * 16777216 + (inst % 65536) * 256 + endpoint % 256

/-- Modelled from the spec: `decode(Identity)` of the Identity Codec of §4.1 for
the same layout: the three fields read back from their hex digits. -/
def lxsys_inode_decode (ino : Nat) : lxsys_nodetype × Nat × Nat :=
  (nodetype_of_index (ino / 16777216 % 256), ino / 256 % 65536, ino % 256)

/-! # Theorems -/

/-! ## Lemmas on the listing loop -/

theorem int32_id (x : Int) (h1 : -2147483648 ≤ x) (h2 : x < 2147483648) : int32 x = x := by
  unfold int32; omega

theorem slot_tdiv (X : Ext) (hsd : 0 < X.LXSYS_SDSIZE) (k : Nat) :
    ((k : Int) * X.LXSYS_SDSIZE).tdiv X.LXSYS_SDSIZE = k :=
  Int.mul_tdiv_cancel _ (ne_of_gt hsd)

theorem readdir_entry_at (X : Ext) (lxsnp : lxsys_node) (child_ino : lxsys_dirent → Nat)
    (dirtab : List lxsys_dirent) (hsd : 0 < X.LXSYS_SDSIZE) (k : Nat)
    (hk : (k : Int) < 2147483650) :
    readdir_entry X lxsnp child_ino dirtab ((k : Int) * X.LXSYS_SDSIZE)
      = (canon_entries X lxsnp child_ino dirtab)[k]? := by
  unfold readdir_entry canon_entries
  rw [slot_tdiv X hsd]
  match k, hk with
  | 0, _ => simp
  | 1, _ => simp [ne_of_gt hsd]
  | k + 2, hk =>
    have h0 : ((k + 2 : Nat) : Int) * X.LXSYS_SDSIZE ≠ 0 := by
      have : (0:Int) < ((k + 2 : Nat) : Int) := by omega
      exact ne_of_gt (Int.mul_pos this hsd)
    have h1 : ((k + 2 : Nat) : Int) * X.LXSYS_SDSIZE ≠ X.LXSYS_SDSIZE := by
      intro h
      have : ((k + 2 : Nat) : Int) * X.LXSYS_SDSIZE = 1 * X.LXSYS_SDSIZE := by simpa using h
      have := Int.eq_of_mul_eq_mul_right (ne_of_gt hsd) this
      omega
    have h2 : int32 (((k + 2 : Nat) : Int) - 2) = (k : Int) := by
      rw [int32_id] <;> push_cast at * <;> omega
    simp only [h0, h1, h2, if_false]
    by_cases hlt : k < dirtab.length
    · simp [hlt]
    · have : ¬ ((k:Int) ≥ 0 ∧ (k:Int) < dirtab.length) := by omega
      simp [this]
      intro h
      rw [List.getElem?_eq_none h]
      rfl

theorem lxsys_dirent_out_ok (X : Ext) (d : dirent64) (n : Nat) (u : uio dirent64)
    (hf : u.uio_fault = false) :
    lxsys_dirent_out X d n u = .ok
      { uio_offset := u.uio_offset + X.LXSYS_SDSIZE, uio_resid := u.uio_resid - uint16 n,
        uio_fault := false,
        uio_data := u.uio_data ++
          [{ d with d_off := u.uio_offset + X.LXSYS_SDSIZE, d_reclen := uint16 n }] } := by
  simp [lxsys_dirent_out, uiomove_dirent, hf]

theorem slot_le_iff (X : Ext) (hsd : 0 < X.LXSYS_SDSIZE) (a b : Int) :
    a * X.LXSYS_SDSIZE ≤ b * X.LXSYS_SDSIZE ↔ a ≤ b :=
  ⟨fun h => le_of_mul_le_mul_right h hsd, fun h => Int.mul_le_mul_of_nonneg_right h (le_of_lt hsd)⟩

theorem readdir_tail_at (X : Ext) (hsd : 0 < X.LXSYS_SDSIZE) (n k : Nat) (u : uio dirent64)
    (hoff : u.uio_offset = (k : Int) * X.LXSYS_SDSIZE) (hk : k ≤ n + 2) :
    readdir_tail X n u = { error := none, uiop := u, eof := if k = n + 2 then 1 else 0 } := by
  unfold readdir_tail
  rw [hoff]
  have h := slot_le_iff X hsd ((n : Int) + 2) (k : Int)
  by_cases hkn : k = n + 2
  · have : ((n : Int) + 2) * X.LXSYS_SDSIZE ≤ (k : Int) * X.LXSYS_SDSIZE := h.2 (by omega)
    simp [hkn, this, ge_iff_le]
  · have : ¬ ((n : Int) + 2) * X.LXSYS_SDSIZE ≤ (k : Int) * X.LXSYS_SDSIZE := by
      rw [h]; omega
    simp [hkn, this, ge_iff_le]

theorem canon_entries_length (X : Ext) (lxsnp : lxsys_node) (child_ino : lxsys_dirent → Nat)
    (dirtab : List lxsys_dirent) :
    (canon_entries X lxsnp child_ino dirtab).length = dirtab.length + 2 := by
  simp [canon_entries]

theorem readdir_loop_stop (X : Ext) (lxsnp : lxsys_node) (child_ino : lxsys_dirent → Nat)
    (dirtab : List lxsys_dirent) (oresid : Int) (fuel : Nat) (u : uio dirent64) (eof : Int)
    (hpos : ¬ u.uio_resid > 0) :
    readdir_loop X lxsnp child_ino dirtab oresid fuel u eof = readdir_tail X dirtab.length u := by
  cases fuel with
  | zero => rfl
  | succ n => simp only [readdir_loop, hpos, if_false]

theorem readdir_loop_end (X : Ext) (lxsnp : lxsys_node) (child_ino : lxsys_dirent → Nat)
    (dirtab : List lxsys_dirent) (oresid : Int) (fuel : Nat) (u : uio dirent64) (eof : Int)
    (hpos : u.uio_resid > 0)
    (hent : readdir_entry X lxsnp child_ino dirtab u.uio_offset = none) :
    readdir_loop X lxsnp child_ino dirtab oresid (fuel + 1) u eof
      = { error := none, uiop := u, eof := 1 } := by
  simp only [readdir_loop, hpos, if_true, hent]

theorem readdir_loop_einval (X : Ext) (lxsnp : lxsys_node) (child_ino : lxsys_dirent → Nat)
    (dirtab : List lxsys_dirent) (oresid : Int) (fuel : Nat) (u : uio dirent64) (eof : Int)
    (ino : Nat) (name : String)
    (hpos : u.uio_resid > 0)
    (hent : readdir_entry X lxsnp child_ino dirtab u.uio_offset = some (ino, name))
    (hbig : (X.DIRENT64_RECLEN name.length : Int) > u.uio_resid)
    (heq : u.uio_resid = oresid) :
    readdir_loop X lxsnp child_ino dirtab oresid (fuel + 1) u eof
      = { error := some Errno.EINVAL, uiop := u, eof := eof } := by
  simp only [readdir_loop, hpos, if_true, hent, hbig]
  exact if_pos heq

theorem readdir_loop_break (X : Ext) (lxsnp : lxsys_node) (child_ino : lxsys_dirent → Nat)
    (dirtab : List lxsys_dirent) (oresid : Int) (fuel : Nat) (u : uio dirent64) (eof : Int)
    (ino : Nat) (name : String)
    (hpos : u.uio_resid > 0)
    (hent : readdir_entry X lxsnp child_ino dirtab u.uio_offset = some (ino, name))
    (hbig : (X.DIRENT64_RECLEN name.length : Int) > u.uio_resid)
    (hne : u.uio_resid ≠ oresid) :
    readdir_loop X lxsnp child_ino dirtab oresid (fuel + 1) u eof
      = readdir_tail X dirtab.length u := by
  simp only [readdir_loop, hpos, if_true, hent, hbig, hne, if_false]

theorem readdir_loop_emit (X : Ext) (lxsnp : lxsys_node) (child_ino : lxsys_dirent → Nat)
    (dirtab : List lxsys_dirent) (oresid : Int) (fuel : Nat) (u : uio dirent64) (eof : Int)
    (ino : Nat) (name : String)
    (hpos : u.uio_resid > 0)
    (hent : readdir_entry X lxsnp child_ino dirtab u.uio_offset = some (ino, name))
    (hfit : ¬ (X.DIRENT64_RECLEN name.length : Int) > u.uio_resid)
    (hfault : u.uio_fault = false) :
    readdir_loop X lxsnp child_ino dirtab oresid (fuel + 1) u eof
      = readdir_loop X lxsnp child_ino dirtab oresid fuel
          { uio_offset := u.uio_offset + X.LXSYS_SDSIZE,
            uio_resid := u.uio_resid - uint16 (X.DIRENT64_RECLEN name.length),
            uio_fault := false,
            uio_data := u.uio_data ++
              [⟨ino, u.uio_offset + X.LXSYS_SDSIZE, uint16 (X.DIRENT64_RECLEN name.length),
                name⟩] } eof := by
  simp only [readdir_loop, hpos, if_true, hent, hfit, if_false,
    lxsys_dirent_out_ok X _ _ u hfault]

@[simp] theorem canon_records_nil (X : Ext) (k : Nat) : canon_records X k [] = [] := rfl

@[simp] theorem entries_bytes_nil (X : Ext) : entries_bytes X [] = 0 := rfl

@[simp] theorem entries_bytes_cons (X : Ext) (p : Nat × String) (l : List (Nat × String)) :
    entries_bytes X (p :: l) = (X.DIRENT64_RECLEN p.2.length : Int) + entries_bytes X l := by
  simp [entries_bytes]

/-- What one run of the loop does from the slot `k`: it emits `m` consecutive
records of the canonical listing and either succeeds, with the end-of-listing
word set exactly when the listing is complete, or fails with `EINVAL` having
emitted nothing. -/
theorem readdir_loop_spec (X : Ext) (lxsnp : lxsys_node) (child_ino : lxsys_dirent → Nat)
    (dirtab : List lxsys_dirent) (oresid : Int)
    (hsd : 0 < X.LXSYS_SDSIZE)
    (hlen : (dirtab.length : Int) + 2 < 2147483650)
    (hrec : ∀ p ∈ canon_entries X lxsnp child_ino dirtab,
      0 < X.DIRENT64_RECLEN p.2.length ∧ X.DIRENT64_RECLEN p.2.length < 65536) :
    ∀ (fuel k : Nat) (u : uio dirent64) (eof : Int),
      u.uio_offset = (k : Int) * X.LXSYS_SDSIZE → u.uio_fault = false →
      k ≤ dirtab.length + 2 → dirtab.length + 3 ≤ fuel + k → u.uio_resid ≤ oresid →
      ∃ (m : Nat) (r : readdir_ret),
        readdir_loop X lxsnp child_ino dirtab oresid fuel u eof = r ∧
        k + m ≤ dirtab.length + 2 ∧
        r.uiop.uio_offset = ((k + m : Nat) : Int) * X.LXSYS_SDSIZE ∧
        r.uiop.uio_fault = false ∧
        r.uiop.uio_data = u.uio_data ++ canon_records X k
              (((canon_entries X lxsnp child_ino dirtab).drop k).take m) ∧
        r.uiop.uio_resid ≤ u.uio_resid ∧
        (0 < m → r.uiop.uio_resid < u.uio_resid ∧ 0 ≤ r.uiop.uio_resid) ∧
        (m = 0 → r.uiop = u) ∧
        r.uiop.uio_resid = u.uio_resid - entries_bytes X
              (((canon_entries X lxsnp child_ino dirtab).drop k).take m) ∧
        ((r.error = none ∧
          r.eof = (if k + m = dirtab.length + 2 then 1 else 0) ∧
          (k + m < dirtab.length + 2 →
            r.uiop.uio_resid ≤ 0 ∨
            ∃ p, (canon_entries X lxsnp child_ino dirtab)[k + m]? = some p ∧
              r.uiop.uio_resid < X.DIRENT64_RECLEN p.2.length ∧
              r.uiop.uio_resid ≠ oresid)) ∨
         (r.error = some Errno.EINVAL ∧ m = 0 ∧ r.eof = eof ∧
          0 < u.uio_resid ∧ u.uio_resid = oresid ∧
          ∃ p, (canon_entries X lxsnp child_ino dirtab)[k]? = some p ∧
            u.uio_resid < X.DIRENT64_RECLEN p.2.length)) := by
  intro fuel
  induction fuel with
  | zero => intro k u eof _ _ hk hf _; omega
  | succ fuel ih =>
    intro k u eof hoff hfault hk hfuel hres
    have htail := readdir_tail_at X hsd dirtab.length k u hoff hk
    have hE := canon_entries_length X lxsnp child_ino dirtab
    by_cases hpos : u.uio_resid > 0
    · have hent := readdir_entry_at X lxsnp child_ino dirtab hsd k (by omega)
      rw [← hoff] at hent
      cases hget : (canon_entries X lxsnp child_ino dirtab)[k]? with
      | none =>
        have hkn : k = dirtab.length + 2 := by
          have := List.getElem?_eq_none_iff.1 hget
          omega
        rw [hget] at hent
        refine ⟨0, _, readdir_loop_end X lxsnp child_ino dirtab oresid fuel u eof hpos hent,
          by omega, ?_⟩
        simp [hoff, hfault, hkn]
      | some p =>
        obtain ⟨ino, name⟩ := p
        rw [hget] at hent
        have hklt : k < dirtab.length + 2 := by
          have := List.getElem?_eq_some.1 hget
          obtain ⟨h, _⟩ := this
          omega
        have hmem : (ino, name) ∈ canon_entries X lxsnp child_ino dirtab := by
          have := List.getElem?_eq_some.1 hget
          obtain ⟨h, hh⟩ := this
          rw [← hh]; exact List.getElem_mem _
        have hr := hrec _ hmem
        simp only at hr
        by_cases hbig : (X.DIRENT64_RECLEN name.length : Int) > u.uio_resid
        · by_cases heq : u.uio_resid = oresid
          · refine ⟨0, _, readdir_loop_einval X lxsnp child_ino dirtab oresid fuel u eof
              ino name hpos hent hbig heq, by omega, ?_⟩
            simp [hoff, hfault, hget]
            exact ⟨hpos, heq, hbig⟩
          · refine ⟨0, _, readdir_loop_break X lxsnp child_ino dirtab oresid fuel u eof
              ino name hpos hent hbig heq, by omega, ?_⟩
            rw [htail]
            simp [hoff, hfault, hget]
            intro _
            right
            exact ⟨hbig, heq⟩
        · have hu16 : uint16 (X.DIRENT64_RECLEN name.length) = X.DIRENT64_RECLEN name.length := by
            unfold uint16; omega
          obtain ⟨m, r, hrun, hm, h1, h2, h3, h4, h5, h0, h7, h6⟩ := ih (k + 1)
            { uio_offset := u.uio_offset + X.LXSYS_SDSIZE,
              uio_resid := u.uio_resid - uint16 (X.DIRENT64_RECLEN name.length),
              uio_fault := false,
              uio_data := u.uio_data ++
                [⟨ino, u.uio_offset + X.LXSYS_SDSIZE, uint16 (X.DIRENT64_RECLEN name.length),
                  name⟩] } eof
            (by simp [hoff]; ring) rfl (by omega) (by omega) (by simp [hu16]; omega)
          have hstep := readdir_loop_emit X lxsnp child_ino dirtab oresid fuel u eof
              ino name hpos hent hbig hfault
          rw [hrun] at hstep
          simp only [hu16] at h3 h4 h5 h6 h7
          have hdrop : (canon_entries X lxsnp child_ino dirtab).drop k
              = (ino, name) :: (canon_entries X lxsnp child_ino dirtab).drop (k + 1) := by
            rw [List.drop_eq_getElem_cons (by omega)]
            congr 1
            have := List.getElem?_eq_some.1 hget
            obtain ⟨h, hh⟩ := this
            exact hh
          refine ⟨m + 1, r, hstep, by omega, ?_, h2, ?_, ?_, ?_, by omega, ?_, ?_⟩
          · rw [h1]
            have hadd : k + 1 + m = k + (m + 1) := by omega
            rw [hadd]
          · rw [h3]
            rw [hdrop]
            simp [canon_records, canon_record, hoff, hu16]
            ring
          · omega
          · intro _
            by_cases hm0 : m = 0
            · have := h0 hm0
              rw [this]
              simp only [hu16]
              omega
            · have := h5 (by omega)
              omega
          · rw [h7, hdrop]
            simp
            omega
          · rcases h6 with ⟨e1, e2, e3⟩ | ⟨e1, e2, e3, e4, e5, e6⟩
            · left
              refine ⟨e1, ?_, ?_⟩
              · rw [e2]
                have : (k + 1 + m = dirtab.length + 2) ↔ (k + (m + 1) = dirtab.length + 2) := by
                  omega
                simp [this]
              · intro hlt
                have := e3 (by omega)
                have hadd : k + 1 + m = k + (m + 1) := by omega
                rw [hadd] at this
                exact this
            · exfalso
              omega
    · refine ⟨0, _, readdir_loop_stop X lxsnp child_ino dirtab oresid (fuel + 1) u eof hpos,
        by omega, ?_⟩
      rw [htail]
      simp [hoff, hfault]
      intro _; left; omega

theorem canon_records_append (X : Ext) (l1 l2 : List (Nat × String)) :
    ∀ j, canon_records X j (l1 ++ l2)
      = canon_records X j l1 ++ canon_records X (j + l1.length) l2 := by
  induction l1 with
  | nil => intro j; simp
  | cons p ps ih =>
    intro j
    have h : j + 1 + ps.length = j + (ps.length + 1) := by omega
    have := ih (j + 1)
    rw [h] at this
    simp [canon_records, this]

theorem canon_records_names (X : Ext) (l : List (Nat × String)) :
    ∀ j, (canon_records X j l).map (fun d => d.d_name) = l.map (fun p => p.2) := by
  induction l with
  | nil => intro j; rfl
  | cons p ps ih => intro j; simp [canon_records, canon_record, ih (j + 1)]

theorem dirlookup_scan_row :
    ∀ row ∈ lxsys_dirlookup, dirlookup_scan row.dl_instance lxsys_dirlookup = some row := by
  decide

theorem lxsys_readdir_static_call (X : Ext) (ns : Option (List phyint)) (lxsnp : lxsys_node)
    (cr : cred) (row : lxsys_dirlookup_t) (u : uio dirent64) (eof : Int) (k : Nat)
    (hrow : row ∈ lxsys_dirlookup)
    (htype : lxsnp.lxsys_type = lxsys_nodetype.LXSYS_STATIC)
    (hinst : lxsnp.lxsys_instance = row.dl_instance)
    (hacc : lxsys_access X lxsnp X.VREAD 0 cr = none)
    (hsd : 0 < X.LXSYS_SDSIZE)
    (hoff : u.uio_offset = (k : Int) * X.LXSYS_SDSIZE) (hres : 0 < u.uio_resid) :
    lxsys_readdir X ns lxsnp u cr eof
      = some (lxsys_readdir_common X lxsnp u eof row.dl_list) := by
  have h1 : ¬ (u.uio_offset < 0 ∨ u.uio_resid ≤ 0) := by
    have : 0 ≤ (k : Int) * X.LXSYS_SDSIZE := Int.mul_nonneg (by omega) (le_of_lt hsd)
    rw [hoff]; omega
  have h2 : u.uio_offset.tmod X.LXSYS_SDSIZE = 0 := by
    rw [hoff]; exact Int.mul_tmod_left _ _
  simp only [lxsys_readdir, htype, lxsys_readdir_function, hacc, h1, h2, if_false,
    lxsys_readdir_static, hinst, dirlookup_scan_row row hrow, ne_eq, not_true_eq_false]

theorem dirlookup_row_length :
    ∀ row ∈ lxsys_dirlookup, row.dl_list.length ≤ 3 := by
  decide

theorem readdir_pages_from (X : Ext) (ns : Option (List phyint)) (lxsnp : lxsys_node)
    (cr : cred) (row : lxsys_dirlookup_t) (budget : Nat → Int)
    (hsd : 0 < X.LXSYS_SDSIZE)
    (hrow : row ∈ lxsys_dirlookup)
    (htype : lxsnp.lxsys_type = lxsys_nodetype.LXSYS_STATIC)
    (hinst : lxsnp.lxsys_instance = row.dl_instance)
    (hacc : lxsys_access X lxsnp X.VREAD 0 cr = none)
    (hrec : ∀ p ∈ canon_entries X lxsnp
        (fun e => X.lxsys_inode lxsys_nodetype.LXSYS_STATIC e.d_idnum 0) row.dl_list,
      0 < X.DIRENT64_RECLEN p.2.length ∧ X.DIRENT64_RECLEN p.2.length < 65536 ∧
      ∀ i, (X.DIRENT64_RECLEN p.2.length : Int) ≤ budget i) :
    ∀ (calls k i : Nat), k < row.dl_list.length + 2 → row.dl_list.length + 2 ≤ calls + k →
      readdir_pages X ns lxsnp cr budget calls i ((k : Int) * X.LXSYS_SDSIZE)
        (canon_records X 0 ((canon_entries X lxsnp
          (fun e => X.lxsys_inode lxsys_nodetype.LXSYS_STATIC e.d_idnum 0)
          row.dl_list).take k))
      = some (listing X lxsnp
          (fun e => X.lxsys_inode lxsys_nodetype.LXSYS_STATIC e.d_idnum 0) row.dl_list) := by
  intro calls
  induction calls with
  | zero => intro k i hk hc; omega
  | succ calls ih =>
    intro k i hk hc
    have hE := canon_entries_length X lxsnp
      (fun e => X.lxsys_inode lxsys_nodetype.LXSYS_STATIC e.d_idnum 0) row.dl_list
    have hl3 := dirlookup_row_length row hrow
    have hbpos : 0 < budget i := by
      have h := hrec (lxsnp.lxsys_ino, ".") (by simp [canon_entries])
      have h2 := h.2.2 i
      omega
    have hcall := lxsys_readdir_static_call X ns lxsnp cr row
      ⟨(k : Int) * X.LXSYS_SDSIZE, budget i, false, []⟩ 0 k hrow htype hinst hacc hsd rfl hbpos
    obtain ⟨m, r, hrun, hm, h1, _, h3, _, _, h0, _, h6⟩ :=
      readdir_loop_spec X lxsnp (fun e => X.lxsys_inode lxsys_nodetype.LXSYS_STATIC e.d_idnum 0)
        row.dl_list (budget i) hsd (by omega) (fun p hp => ⟨(hrec p hp).1, (hrec p hp).2.1⟩)
        (row.dl_list.length + 3) k ⟨(k : Int) * X.LXSYS_SDSIZE, budget i, false, []⟩ 0
        rfl rfl (by omega) (by omega) (le_refl _)
    have hcommon : lxsys_readdir_common X lxsnp
        ⟨(k : Int) * X.LXSYS_SDSIZE, budget i, false, []⟩ 0 row.dl_list = r := hrun
    rw [hcommon] at hcall
    simp only [readdir_pages, hcall]
    rcases h6 with ⟨e1, e2, e3⟩ | ⟨_, _, _, _, _, p, hp, hlt⟩
    · have hmpos : 0 < m := by
        by_contra hm0
        have hm0 : m = 0 := by omega
        have hu := h0 hm0
        subst hm0
        rcases e3 (by omega) with hle | ⟨p, hp, hlt, _⟩
        · rw [hu] at hle; simp at hle; omega
        · have hmem : p ∈ canon_entries X lxsnp
              (fun e => X.lxsys_inode lxsys_nodetype.LXSYS_STATIC e.d_idnum 0) row.dl_list := by
            have := List.getElem?_eq_some.1 hp
            obtain ⟨h, hh⟩ := this
            rw [← hh]; exact List.getElem_mem _
          have := (hrec p hmem).2.2 i
          rw [hu] at hlt; simp at hlt; omega
      have hacc2 : canon_records X 0 ((canon_entries X lxsnp
            (fun e => X.lxsys_inode lxsys_nodetype.LXSYS_STATIC e.d_idnum 0)
            row.dl_list).take k) ++ r.uiop.uio_data
          = canon_records X 0 ((canon_entries X lxsnp
            (fun e => X.lxsys_inode lxsys_nodetype.LXSYS_STATIC e.d_idnum 0)
            row.dl_list).take (k + m)) := by
        rw [h3, List.take_add, canon_records_append]
        simp [List.length_take, hE]
        have : min k (row.dl_list.length + 2) = k := by omega
        rw [this]
      rw [hacc2]
      by_cases hend : k + m = row.dl_list.length + 2
      · simp [e1, e2, hend, listing]
        rw [List.take_of_length_le (by omega)]
      · simp only [e1, e2, hend, if_false, ne_eq, not_true_eq_false, h1]
        exact ih (k + m) (i + 1) (by omega) (by omega)
    · exfalso
      have hmem : p ∈ canon_entries X lxsnp
          (fun e => X.lxsys_inode lxsys_nodetype.LXSYS_STATIC e.d_idnum 0) row.dl_list := by
        have := List.getElem?_eq_some.1 hp
        obtain ⟨h, hh⟩ := this
        rw [← hh]; exact List.getElem_mem _
      have := (hrec p hmem).2.2 i
      simp at hlt; omega

/-! ## The pass counter of the listing loop -/

theorem readdir_left_le (X : Ext) (n : Nat) (off : Int) : readdir_left X n off ≤ n + 2 := by
  unfold readdir_left
  split
  · omega
  · split
    · omega
    · split <;> omega

theorem readdir_entry_none (X : Ext) (lxsnp : lxsys_node) (child_ino : lxsys_dirent → Nat)
    (dirtab : List lxsys_dirent) (off : Int)
    (h : readdir_left X dirtab.length off = 0) :
    readdir_entry X lxsnp child_ino dirtab off = none := by
  unfold readdir_left at h
  unfold readdir_entry
  by_cases h0 : off = 0
  · simp [h0] at h
  · by_cases h1 : off = X.LXSYS_SDSIZE
    · rw [if_neg h0, if_pos h1] at h; omega
    · rw [if_neg h0, if_neg h1] at h
      by_cases h2 : int32 (off.tdiv X.LXSYS_SDSIZE - 2) ≥ 0 ∧
          int32 (off.tdiv X.LXSYS_SDSIZE - 2) < dirtab.length
      · rw [if_pos h2] at h; omega
      · simp only [h0, h1, h2, if_false]

theorem readdir_left_step (X : Ext) (n : Nat) (off : Int)
    (hsd : 0 < X.LXSYS_SDSIZE) (hoff : 0 ≤ off) (hpos : 0 < readdir_left X n off) :
    readdir_left X n (off + X.LXSYS_SDSIZE) + 1 ≤ readdir_left X n off := by
  have hq : (off + X.LXSYS_SDSIZE).tdiv X.LXSYS_SDSIZE = off.tdiv X.LXSYS_SDSIZE + 1 := by
    rw [Int.tdiv_eq_ediv (by omega) (le_of_lt hsd), Int.tdiv_eq_ediv hoff (le_of_lt hsd)]
    have := Int.add_mul_ediv_right off 1 (ne_of_gt hsd)
    simpa using this
  by_cases h0 : off = 0
  · subst h0
    have h1 : X.LXSYS_SDSIZE ≠ 0 := by omega
    simp [readdir_left, h1]
  · by_cases h1 : off = X.LXSYS_SDSIZE
    · subst h1
      have ha : X.LXSYS_SDSIZE + X.LXSYS_SDSIZE ≠ 0 := by omega
      have hb : X.LXSYS_SDSIZE + X.LXSYS_SDSIZE ≠ X.LXSYS_SDSIZE := by omega
      have hc : (X.LXSYS_SDSIZE + X.LXSYS_SDSIZE).tdiv X.LXSYS_SDSIZE = 2 := by
        rw [hq, Int.tdiv_self (ne_of_gt hsd)]; rfl
      have hd : int32 (2 - 2) = 0 := by decide
      simp only [readdir_left, ha, hb, hc, hd, h0, if_false, if_true]
      split <;> omega
    · have ha : off + X.LXSYS_SDSIZE ≠ 0 := by omega
      have hb : off + X.LXSYS_SDSIZE ≠ X.LXSYS_SDSIZE := by omega
      simp only [readdir_left, h0, h1, ha, hb, hq, if_false] at hpos ⊢
      generalize off.tdiv X.LXSYS_SDSIZE = q at hpos ⊢
      unfold int32 at hpos ⊢
      split at hpos
      · split <;> omega
      · omega

/-- The pass counter is never used up: with as many passes allowed as records
can still be emitted, and one more, the loop does what it does with any larger
allowance. -/
theorem readdir_loop_fuel (X : Ext) (lxsnp : lxsys_node) (child_ino : lxsys_dirent → Nat)
    (dirtab : List lxsys_dirent) (oresid : Int) (hsd : 0 < X.LXSYS_SDSIZE) :
    ∀ (fuel1 fuel2 : Nat) (u : uio dirent64) (eof : Int), 0 ≤ u.uio_offset →
      readdir_left X dirtab.length u.uio_offset < fuel1 →
      readdir_left X dirtab.length u.uio_offset < fuel2 →
      readdir_loop X lxsnp child_ino dirtab oresid fuel1 u eof
        = readdir_loop X lxsnp child_ino dirtab oresid fuel2 u eof := by
  intro fuel1
  induction fuel1 with
  | zero => intro fuel2 u eof _ h _; omega
  | succ f1 ih =>
    intro fuel2 u eof hoff h1 h2
    cases fuel2 with
    | zero => omega
    | succ f2 =>
      by_cases hpos : u.uio_resid > 0
      · cases hent : readdir_entry X lxsnp child_ino dirtab u.uio_offset with
        | none => simp only [readdir_loop, hpos, if_true, hent]
        | some p =>
          obtain ⟨ino, name⟩ := p
          have hleft : 0 < readdir_left X dirtab.length u.uio_offset := by
            by_contra hz
            have := readdir_entry_none X lxsnp child_ino dirtab u.uio_offset (by omega)
            rw [this] at hent
            cases hent
          by_cases hbig : (X.DIRENT64_RECLEN name.length : Int) > u.uio_resid
          · simp only [readdir_loop, hpos, if_true, hent, hbig]
          · cases hout : lxsys_dirent_out X ⟨ino, 0, 0, name⟩
                (X.DIRENT64_RECLEN name.length) u with
            | error e => simp only [readdir_loop, hpos, if_true, hent, hbig, if_false, hout]
            | ok u1 =>
              have hu1 : u1.uio_offset = u.uio_offset + X.LXSYS_SDSIZE := by
                simp only [lxsys_dirent_out, uiomove_dirent] at hout
                split at hout
                · cases hout
                · cases hout; rfl
              have hstep := readdir_left_step X dirtab.length u.uio_offset hsd hoff hleft
              rw [← hu1] at hstep
              simp only [readdir_loop, hpos, if_true, hent, hbig, if_false, hout]
              exact ih f2 u1 eof (by omega) (by omega) (by omega)
      · simp only [readdir_loop, hpos, if_false]

/-- The allowance `dirtablen + 3` built into `lxsys_readdir_common` and
`lxsys_readdir_subdir` is as good as any larger one. -/
theorem readdir_loop_fuel_common (X : Ext) (lxsnp : lxsys_node)
    (child_ino : lxsys_dirent → Nat) (dirtab : List lxsys_dirent) (oresid : Int)
    (hsd : 0 < X.LXSYS_SDSIZE) (fuel : Nat) (u : uio dirent64) (eof : Int)
    (hoff : 0 ≤ u.uio_offset) (hfuel : dirtab.length + 3 ≤ fuel) :
    readdir_loop X lxsnp child_ino dirtab oresid fuel u eof
      = readdir_loop X lxsnp child_ino dirtab oresid (dirtab.length + 3) u eof := by
  have h := readdir_left_le X dirtab.length u.uio_offset
  exact readdir_loop_fuel X lxsnp child_ino dirtab oresid hsd fuel (dirtab.length + 3) u eof
    hoff (by omega) (by omega)


/-! ## C1: paging through a static directory -/

/-- C1: for every row of `lxsys_dirlookup` (a static directory with N children),
a caller with read access, and every sequence of byte budgets each of which
holds any single record of that directory, calling `lxsys_readdir` at offset 0
and then at the offset each call leaves, until a call reports end of listing,
succeeds within N+2 calls; the records collected over the calls are exactly the
complete listing, whose names are `.`, `..` and the children in table order,
each once; the call that ends the paging is the one that reports `eof = 1`. -/
theorem C1_static_paged_listing (X : Ext) (ns : Option (List phyint)) (lxsnp : lxsys_node)
    (cr : cred) (row : lxsys_dirlookup_t) (budget : Nat → Int) (calls : Nat)
    (hsd : 0 < X.LXSYS_SDSIZE)
    (hrow : row ∈ lxsys_dirlookup)
    (htype : lxsnp.lxsys_type = lxsys_nodetype.LXSYS_STATIC)
    (hinst : lxsnp.lxsys_instance = row.dl_instance)
    (hacc : lxsys_access X lxsnp X.VREAD 0 cr = none)
    (hrec : ∀ p ∈ canon_entries X lxsnp
        (fun e => X.lxsys_inode lxsys_nodetype.LXSYS_STATIC e.d_idnum 0) row.dl_list,
      0 < X.DIRENT64_RECLEN p.2.length ∧ X.DIRENT64_RECLEN p.2.length < 65536 ∧
      ∀ i, (X.DIRENT64_RECLEN p.2.length : Int) ≤ budget i)
    (hcalls : row.dl_list.length + 2 ≤ calls) :
    readdir_pages X ns lxsnp cr budget calls 0 0 []
      = some (listing X lxsnp
          (fun e => X.lxsys_inode lxsys_nodetype.LXSYS_STATIC e.d_idnum 0) row.dl_list) ∧
    (listing X lxsnp (fun e => X.lxsys_inode lxsys_nodetype.LXSYS_STATIC e.d_idnum 0)
        row.dl_list).map (fun d => d.d_name)
      = "." :: ".." :: row.dl_list.map (fun e => e.d_name) ∧
    (listing X lxsnp (fun e => X.lxsys_inode lxsys_nodetype.LXSYS_STATIC e.d_idnum 0)
        row.dl_list).length = row.dl_list.length + 2 := by
  refine ⟨?_, ?_, ?_⟩
  · have h := readdir_pages_from X ns lxsnp cr row budget hsd hrow htype hinst hacc hrec
      calls 0 0 (by omega) (by omega)
    simpa using h
  · simp [listing, canon_records_names, canon_entries]
  · have h := congrArg List.length (canon_records_names X (canon_entries X lxsnp
      (fun e => X.lxsys_inode lxsys_nodetype.LXSYS_STATIC e.d_idnum 0) row.dl_list) 0)
    simp only [List.length_map] at h
    rw [listing, h, canon_entries_length]

/-- Instance of C1: `/sys` paged with a budget of 32 bytes per call. -/
theorem C1_static_paged_listing_witness :
    readdir_pages illumos none sys_root kcred (fun _ => 32) 5 0 0 []
      = some (listing illumos sys_root
          (fun e => illumos.lxsys_inode lxsys_nodetype.LXSYS_STATIC e.d_idnum 0) dirlist_root) ∧
    (listing illumos sys_root
        (fun e => illumos.lxsys_inode lxsys_nodetype.LXSYS_STATIC e.d_idnum 0)
        dirlist_root).map (fun d => d.d_name)
      = [".", "..", "class", "devices", "fs"] ∧
    (listing illumos sys_root
        (fun e => illumos.lxsys_inode lxsys_nodetype.LXSYS_STATIC e.d_idnum 0)
        dirlist_root).length = 5 :=
  C1_static_paged_listing illumos none sys_root kcred ⟨LXSYS_INST_ROOT, dirlist_root⟩
    (fun _ => 32) 5 (by decide) (by decide) rfl rfl rfl
    (by
      intro p hp
      simp only [canon_entries, dirlist_root, List.map, List.mem_cons, List.mem_singleton,
        List.not_mem_nil, or_false] at hp
      rcases hp with h | h | h | h | h <;> subst h <;>
        exact ⟨by decide, by decide, fun _ => by dsimp only; decide⟩)
    (by decide)

/-! ## C2: end of listing on the interface directories -/

/-- C2 (defect): listing `/sys/class/net` over a collection of three interfaces
from slot 2 with a budget of 24 bytes emits the one record `lo`, which uses the
budget up, and reports `eof = 1` although two interfaces remain unemitted. -/
theorem C2_ifaces_eof_with_interfaces_left :
    lxsys_readdir illumos (some three_ifaces) sys_class_net ⟨32, 24, false, []⟩ kcred 0
      = some ⟨none, ⟨48, 0, false, [⟨33554688, 48, 24, "lo"⟩]⟩, 1⟩ ∧
    three_ifaces.drop 1 = [⟨"net0", 2⟩, ⟨"net1", 3⟩] := by
  decide

/-! ## C3: offsets that are not aligned -/

/-- C3 (as stated, refuted): listing `/sys` at the unaligned offset 5 with a
budget of 100 bytes does not fail with `EINVAL`; it fails with `ENOENT`. -/
theorem C3_unaligned_not_einval :
    (lxsys_readdir illumos none sys_root ⟨5, 100, false, []⟩ kcred 0).map (fun r => r.error)
      = some (some Errno.ENOENT) ∧
    (lxsys_readdir illumos none sys_root ⟨5, 100, false, []⟩ kcred 0).map (fun r => r.error)
      ≠ some (some Errno.EINVAL) := by
  decide

/-- C3 (amended): for every node of a valid kind whose caller passes the
read-access check, every non-negative start offset that is not a multiple of
`LXSYS_SDSIZE` and every positive byte budget, `lxsys_readdir` fails with
`ENOENT`, emits nothing and leaves offset, budget and end-of-listing word as
they were. -/
theorem C3_unaligned_offset_enoent (X : Ext) (ns : Option (List phyint)) (lxsnp : lxsys_node)
    (uiop : uio dirent64) (cr : cred) (eof : Int)
    (htype : lxsnp.lxsys_type ≠ lxsys_nodetype.LXSYS_NONE)
    (hacc : lxsys_access X lxsnp X.VREAD 0 cr = none)
    (hoff : 0 ≤ uiop.uio_offset)
    (hun : ¬ X.LXSYS_SDSIZE ∣ uiop.uio_offset)
    (hres : 0 < uiop.uio_resid) :
    lxsys_readdir X ns lxsnp uiop cr eof
      = some { error := some Errno.ENOENT, uiop := uiop, eof := eof } := by
  have h1 : ¬ (uiop.uio_offset < 0 ∨ uiop.uio_resid ≤ 0) := by omega
  have h2 : uiop.uio_offset.tmod X.LXSYS_SDSIZE ≠ 0 :=
    fun h => hun (Int.dvd_of_tmod_eq_zero h)
  cases ht : lxsnp.lxsys_type with
  | LXSYS_NONE => exact absurd ht htype
  | LXSYS_STATIC => simp [lxsys_readdir, ht, lxsys_readdir_function, hacc, h1, h2]
  | LXSYS_CLASS_NET => simp [lxsys_readdir, ht, lxsys_readdir_function, hacc, h1, h2]
  | LXSYS_DEVICES_NET => simp [lxsys_readdir, ht, lxsys_readdir_function, hacc, h1, h2]

/-- Instance of C3 (amended): `/sys/class/net` at offset 17. -/
theorem C3_unaligned_offset_enoent_witness :
    lxsys_readdir illumos (some three_ifaces) sys_class_net ⟨17, 100, false, []⟩ kcred 0
      = some { error := some Errno.ENOENT, uiop := ⟨17, 100, false, []⟩, eof := 0 } :=
  C3_unaligned_offset_enoent illumos (some three_ifaces) sys_class_net ⟨17, 100, false, []⟩
    kcred 0 (by decide) rfl (by decide) (by decide) (by decide)

/-! ## C4: the root directory in one call -/

theorem entries_bytes_append (X : Ext) (l1 l2 : List (Nat × String)) :
    entries_bytes X (l1 ++ l2) = entries_bytes X l1 + entries_bytes X l2 := by
  simp [entries_bytes]

theorem entries_bytes_nonneg (X : Ext) (l : List (Nat × String)) : 0 ≤ entries_bytes X l := by
  induction l with
  | nil => simp
  | cons p ps ih => rw [entries_bytes_cons]; omega

theorem entries_bytes_drop_ge (X : Ext) (l : List (Nat × String)) (j : Nat) (p : Nat × String)
    (h : l[j]? = some p) :
    (X.DIRENT64_RECLEN p.2.length : Int) ≤ entries_bytes X (l.drop j) := by
  obtain ⟨hj, hh⟩ := List.getElem?_eq_some.1 h
  rw [List.drop_eq_getElem_cons hj, entries_bytes_cons, hh]
  have := entries_bytes_nonneg X (l.drop (j + 1))
  omega

/-- A budget that holds every remaining record makes the loop emit them all
and report end of listing. -/
theorem readdir_loop_all (X : Ext) (lxsnp : lxsys_node) (child_ino : lxsys_dirent → Nat)
    (dirtab : List lxsys_dirent) (oresid : Int)
    (hsd : 0 < X.LXSYS_SDSIZE)
    (hlen : (dirtab.length : Int) + 2 < 2147483650)
    (hrec : ∀ p ∈ canon_entries X lxsnp child_ino dirtab,
      0 < X.DIRENT64_RECLEN p.2.length ∧ X.DIRENT64_RECLEN p.2.length < 65536)
    (fuel k : Nat) (u : uio dirent64) (eof : Int)
    (hoff : u.uio_offset = (k : Int) * X.LXSYS_SDSIZE) (hfault : u.uio_fault = false)
    (hk : k ≤ dirtab.length + 2) (hfuel : dirtab.length + 3 ≤ fuel + k)
    (hres : u.uio_resid ≤ oresid)
    (hbud : entries_bytes X ((canon_entries X lxsnp child_ino dirtab).drop k) ≤ u.uio_resid) :
    readdir_loop X lxsnp child_ino dirtab oresid fuel u eof
      = { error := none,
          uiop := { uio_offset := ((dirtab.length + 2 : Nat) : Int) * X.LXSYS_SDSIZE,
                    uio_resid := u.uio_resid
                      - entries_bytes X ((canon_entries X lxsnp child_ino dirtab).drop k),
                    uio_fault := false,
                    uio_data := u.uio_data ++ canon_records X k
                      ((canon_entries X lxsnp child_ino dirtab).drop k) },
          eof := 1 } := by
  obtain ⟨m, r, hrun, hm, h1, h2, h3, h4, h5, h0, h7, h6⟩ :=
    readdir_loop_spec X lxsnp child_ino dirtab oresid hsd hlen hrec fuel k u eof
      hoff hfault hk hfuel hres
  have hE := canon_entries_length X lxsnp child_ino dirtab
  have hsplit : entries_bytes X ((canon_entries X lxsnp child_ino dirtab).drop k)
      = entries_bytes X (((canon_entries X lxsnp child_ino dirtab).drop k).take m)
        + entries_bytes X ((canon_entries X lxsnp child_ino dirtab).drop (k + m)) := by
    rw [← entries_bytes_append, ← List.drop_drop, List.take_append_drop]
  rw [hrun]
  rcases h6 with ⟨e1, e2, e3⟩ | ⟨_, _, _, _, _, p, hp, hlt⟩
  · have hend : k + m = dirtab.length + 2 := by
      by_contra hne
      have hlt : k + m < dirtab.length + 2 := by omega
      cases hex : (canon_entries X lxsnp child_ino dirtab)[k + m]? with
      | none =>
        have := List.getElem?_eq_none_iff.1 hex
        omega
      | some p =>
        have hge := entries_bytes_drop_ge X _ _ _ hex
        have hmem : p ∈ canon_entries X lxsnp child_ino dirtab := by
          obtain ⟨h, hh⟩ := List.getElem?_eq_some.1 hex
          rw [← hh]; exact List.getElem_mem _
        have hposr := (hrec p hmem).1
        rcases e3 hlt with hle | ⟨q, hq, hq2, _⟩
        · omega
        · rw [hex] at hq
          cases hq
          omega
    have htake : ((canon_entries X lxsnp child_ino dirtab).drop k).take m
        = (canon_entries X lxsnp child_ino dirtab).drop k :=
      List.take_of_length_le (by simp [hE]; omega)
    rw [htake] at h3 h7
    rw [hend] at h1
    rw [if_pos hend] at e2
    obtain ⟨re, ru, reof⟩ := r
    obtain ⟨a, b, c, d⟩ := ru
    simp only at e1 e2 h1 h2 h3 h7
    subst e1 e2 h1 h2 h3 h7
    rfl
  · exfalso
    have := entries_bytes_drop_ge X _ _ _ hp
    omega

/-- C4: listing the root directory (kind STATIC, instance `LXSYS_INST_ROOT`) at
offset 0, with read access and a byte budget that holds all five records,
succeeds, emits exactly the records named `.`, `..`, `class`, `devices`, `fs`
in that order, leaves the offset at `5 * LXSYS_SDSIZE` and reports `eof = 1`. -/
theorem C4_root_listing (X : Ext) (ns : Option (List phyint)) (lxsnp : lxsys_node)
    (cr : cred) (budget eof : Int)
    (hsd : 0 < X.LXSYS_SDSIZE)
    (htype : lxsnp.lxsys_type = lxsys_nodetype.LXSYS_STATIC)
    (hinst : lxsnp.lxsys_instance = LXSYS_INST_ROOT)
    (hacc : lxsys_access X lxsnp X.VREAD 0 cr = none)
    (hrec : ∀ n ∈ [1, 2, 5, 7], 0 < X.DIRENT64_RECLEN n ∧ X.DIRENT64_RECLEN n < 65536)
    (hbud : (X.DIRENT64_RECLEN 1 : Int) + X.DIRENT64_RECLEN 2 + X.DIRENT64_RECLEN 5
      + X.DIRENT64_RECLEN 7 + X.DIRENT64_RECLEN 2 ≤ budget) :
    ∃ r, lxsys_readdir X ns lxsnp ⟨0, budget, false, []⟩ cr eof = some r ∧
      r.error = none ∧
      r.uiop.uio_data.map (fun d => d.d_name) = [".", "..", "class", "devices", "fs"] ∧
      r.uiop.uio_data.map (fun d => d.d_ino)
        = [lxsnp.lxsys_ino, X.lxsys_parentinode lxsnp,
           X.lxsys_inode lxsys_nodetype.LXSYS_STATIC LXSYS_INST_CLASSDIR 0,
           X.lxsys_inode lxsys_nodetype.LXSYS_STATIC LXSYS_INST_DEVICESDIR 0,
           X.lxsys_inode lxsys_nodetype.LXSYS_STATIC LXSYS_INST_FSDIR 0] ∧
      r.uiop.uio_offset = 5 * X.LXSYS_SDSIZE ∧
      r.eof = 1 := by
  have h1 := hrec 1 (by simp)
  have h2 := hrec 2 (by simp)
  have h5 := hrec 5 (by simp)
  have h7 := hrec 7 (by simp)
  have hl1 : (".".length : Nat) = 1 := by decide
  have hl2 : ("..".length : Nat) = 2 := by decide
  have hl3 : ("class".length : Nat) = 5 := by decide
  have hl4 : ("devices".length : Nat) = 7 := by decide
  have hl5 : ("fs".length : Nat) = 2 := by decide
  have hcall := lxsys_readdir_static_call X ns lxsnp cr ⟨LXSYS_INST_ROOT, dirlist_root⟩
    ⟨0, budget, false, []⟩ eof 0 (by decide) htype hinst hacc hsd (by simp) (by simp; omega)
  have hall := readdir_loop_all X lxsnp
    (fun e => X.lxsys_inode lxsys_nodetype.LXSYS_STATIC e.d_idnum 0) dirlist_root budget hsd
    (by simp [dirlist_root])
    (by
      intro p hp
      simp only [canon_entries, dirlist_root, List.map, List.mem_cons, List.mem_singleton,
        List.not_mem_nil, or_false] at hp
      rcases hp with h | h | h | h | h <;> subst h <;> simp only [hl1, hl2, hl3, hl4, hl5] <;>
        assumption)
    (dirlist_root.length + 3) 0 ⟨0, budget, false, []⟩ eof (by simp) rfl (by omega) (by omega)
    (le_refl _)
    (by
      simp only [canon_entries, dirlist_root, List.map, List.drop, entries_bytes_cons,
        entries_bytes_nil, hl1, hl2, hl3, hl4, hl5]
      omega)
  refine ⟨_, hcall, ?_⟩
  simp only at hall ⊢
  rw [lxsys_readdir_common, hall]
  simp [canon_entries, dirlist_root, canon_records, canon_record]

/-- Instance of C4: `/sys` listed with a budget of 1000 bytes. -/
theorem C4_root_listing_witness :
    ∃ r, lxsys_readdir illumos none sys_root ⟨0, 1000, false, []⟩ kcred 0 = some r ∧
      r.error = none ∧
      r.uiop.uio_data.map (fun d => d.d_name) = [".", "..", "class", "devices", "fs"] ∧
      r.uiop.uio_data.map (fun d => d.d_ino)
        = [sys_root.lxsys_ino, illumos.lxsys_parentinode sys_root,
           illumos.lxsys_inode lxsys_nodetype.LXSYS_STATIC LXSYS_INST_CLASSDIR 0,
           illumos.lxsys_inode lxsys_nodetype.LXSYS_STATIC LXSYS_INST_DEVICESDIR 0,
           illumos.lxsys_inode lxsys_nodetype.LXSYS_STATIC LXSYS_INST_FSDIR 0] ∧
      r.uiop.uio_offset = 5 * illumos.LXSYS_SDSIZE ∧
      r.eof = 1 :=
  C4_root_listing illumos none sys_root kcred 1000 0 (by decide) rfl rfl rfl (by decide)
    (by decide)

/-! ## C5: the byte budget -/

theorem ifaces_skip_lt : ∀ (i : Nat) (l : List phyint) (eof : Int), i < l.length →
    ifaces_skip i l eof = (l.drop i, eof) := by
  intro i
  induction i with
  | zero => intro l eof _; rfl
  | succ i ih =>
    intro l eof h
    match l, h with
    | p :: q :: qs, h =>
      simp only [ifaces_skip, avl_walk_after, List.tail_cons, List.drop_succ_cons]
      exact ih (q :: qs) eof (by simpa using h)
    | [p], h => simp at h

theorem ifaces_loop_spec (X : Ext) (type : lxsys_nodetype) (oresid : Int) :
    ∀ (l : List phyint) (j : Nat) (u : uio dirent64) (eof : Int),
      u.uio_offset = ((j + 2 : Nat) : Int) * X.LXSYS_SDSIZE → u.uio_fault = false →
      u.uio_resid ≤ oresid →
      (∀ p ∈ l, 0 < X.DIRENT64_RECLEN (iface_entry X type p).2.length ∧
        X.DIRENT64_RECLEN (iface_entry X type p).2.length < 65536) →
      ∃ (m : Nat) (r : readdir_ret),
        ifaces_loop X type oresid l u eof = r ∧ m ≤ l.length ∧
        r.uiop.uio_offset = ((j + 2 + m : Nat) : Int) * X.LXSYS_SDSIZE ∧
        r.uiop.uio_fault = false ∧
        r.uiop.uio_data = u.uio_data ++ canon_records X (j + 2)
          ((l.take m).map (iface_entry X type)) ∧
        r.uiop.uio_resid = u.uio_resid
          - entries_bytes X ((l.take m).map (iface_entry X type)) ∧
        (0 < m → 0 ≤ r.uiop.uio_resid) ∧
        (m = 0 → r.uiop = u) ∧
        ((r.error = none ∧
          (m < l.length → r.eof = eof ∧ (r.uiop.uio_resid ≤ 0 ∨
            ∃ p, l[m]? = some p ∧
              r.uiop.uio_resid < X.DIRENT64_RECLEN (iface_entry X type p).2.length ∧
              r.uiop.uio_resid ≠ oresid)) ∧
          (m = l.length → 0 < m → r.eof = 1) ∧
          (l = [] → r.eof = eof)) ∨
         (r.error = some Errno.EINVAL ∧ m = 0 ∧ r.eof = eof ∧ 0 < u.uio_resid ∧
          u.uio_resid = oresid ∧
          ∃ p, l[0]? = some p ∧
            u.uio_resid < X.DIRENT64_RECLEN (iface_entry X type p).2.length)) := by
  intro l
  induction l with
  | nil =>
    intro j u eof hoff hfault _ _
    refine ⟨0, _, rfl, le_refl _, ?_⟩
    simp [ifaces_loop, hoff, hfault]
  | cons p rest ih =>
    intro j u eof hoff hfault hres hrec
    have hr := hrec p (by simp)
    by_cases hpos : u.uio_resid > 0
    · by_cases hbig : (X.DIRENT64_RECLEN (iface_entry X type p).2.length : Int) > u.uio_resid
      · have hstep : ifaces_loop X type oresid (p :: rest) u eof
            = { error := if u.uio_resid = oresid then some Errno.EINVAL else none,
                uiop := u, eof := eof } := by
          simp only [iface_entry] at hbig
          simp only [ifaces_loop, hpos, if_true, hbig]
        refine ⟨0, _, hstep, by simp, ?_⟩
        by_cases heq : u.uio_resid = oresid
        · simp [hoff, hfault, heq]
          rw [← heq]; exact ⟨hpos, hbig⟩
        · simp [hoff, hfault, heq]
          right; exact hbig
      · have hu16 : uint16 (X.DIRENT64_RECLEN (iface_entry X type p).2.length)
            = X.DIRENT64_RECLEN (iface_entry X type p).2.length := by
          unfold uint16; omega
        have hout := lxsys_dirent_out_ok X ⟨(iface_entry X type p).1, 0, 0,
          (iface_entry X type p).2⟩ (X.DIRENT64_RECLEN (iface_entry X type p).2.length) u hfault
        rw [hu16] at hout
        by_cases hrest : rest = []
        · have hstep : ifaces_loop X type oresid (p :: rest) u eof
              = { error := none,
                  uiop := { uio_offset := u.uio_offset + X.LXSYS_SDSIZE,
                            uio_resid := u.uio_resid
                              - X.DIRENT64_RECLEN (iface_entry X type p).2.length,
                            uio_fault := false,
                            uio_data := u.uio_data ++
                              [⟨(iface_entry X type p).1, u.uio_offset + X.LXSYS_SDSIZE,
                                X.DIRENT64_RECLEN (iface_entry X type p).2.length,
                                (iface_entry X type p).2⟩] },
                  eof := 1 } := by
            simp only [iface_entry] at hbig hout
            simp only [ifaces_loop, hpos, if_true, hbig, if_false, hout, hrest, iface_entry]
          refine ⟨1, _, hstep, by simp, ?_⟩
          subst hrest
          simp [hoff, canon_records, canon_record, hu16]
          exact ⟨by ring, by omega⟩
        · obtain ⟨m, r, hrun, hm, h1, h2, h3, h4, h5, h0, h6⟩ := ih (j + 1)
            { uio_offset := u.uio_offset + X.LXSYS_SDSIZE,
              uio_resid := u.uio_resid - X.DIRENT64_RECLEN (iface_entry X type p).2.length,
              uio_fault := false,
              uio_data := u.uio_data ++
                [⟨(iface_entry X type p).1, u.uio_offset + X.LXSYS_SDSIZE,
                  X.DIRENT64_RECLEN (iface_entry X type p).2.length,
                  (iface_entry X type p).2⟩] } eof
            (by simp [hoff]; ring) rfl (by simp; omega)
            (fun q hq => hrec q (by simp [hq]))
          have hstep : ifaces_loop X type oresid (p :: rest) u eof = r := by
            rw [← hrun]
            simp only [iface_entry] at hbig hout
            simp only [ifaces_loop, hpos, if_true, hbig, if_false, hout, hrest, iface_entry]
          have hlen : 0 < rest.length := List.length_pos.2 hrest
          refine ⟨m + 1, r, hstep, by simp; omega, ?_, h2, ?_, ?_, ?_, by omega, ?_⟩
          · rw [h1]
            have : j + 1 + 2 + m = j + 2 + (m + 1) := by omega
            rw [this]
          · rw [h3]
            simp [canon_records, canon_record, hoff, hu16]
            ring
          · rw [h4]
            simp
            omega
          · intro _
            by_cases hm0 : m = 0
            · rw [h0 hm0]; simp; omega
            · exact h5 (by omega)
          · rcases h6 with ⟨e1, e2, e3, e4⟩ | ⟨_, _, _, _, e5, _⟩
            · left
              refine ⟨e1, ?_, ?_, by simp⟩
              · intro hlt
                have := e2 (by simpa using hlt)
                simpa using this
              · intro hml _
                have hml2 : m = rest.length := by simpa using hml
                exact e3 hml2 (by omega)
            · exfalso
              simp at e5
              omega
    · have hstep : ifaces_loop X type oresid (p :: rest) u eof
          = { error := none, uiop := u, eof := eof } := by
        simp only [ifaces_loop, hpos, if_false]
      refine ⟨0, _, hstep, by simp, ?_⟩
      simp [hoff, hfault]
      left; omega

theorem entries_bytes_take_ge (X : Ext) (l : List (Nat × String)) (m : Nat) (p : Nat × String)
    (h : l[0]? = some p) (hm : 0 < m) :
    (X.DIRENT64_RECLEN p.2.length : Int) ≤ entries_bytes X (l.take m) := by
  match l, m, h, hm with
  | q :: qs, m + 1, h, _ =>
    simp at h
    subst h
    rw [List.take_succ_cons, entries_bytes_cons]
    have := entries_bytes_nonneg X (qs.take m)
    omega

/-- The budget rule for the loop of `lxsys_readdir_common` / `lxsys_readdir_subdir`
started at a slot that holds an entry. -/
theorem readdir_loop_budget_rule (X : Ext) (lxsnp : lxsys_node)
    (child_ino : lxsys_dirent → Nat) (dirtab : List lxsys_dirent)
    (hsd : 0 < X.LXSYS_SDSIZE)
    (hlen : (dirtab.length : Int) + 2 < 2147483650)
    (hrec : ∀ p ∈ canon_entries X lxsnp child_ino dirtab,
      0 < X.DIRENT64_RECLEN p.2.length ∧ X.DIRENT64_RECLEN p.2.length < 65536)
    (k : Nat) (u : uio dirent64) (eof : Int) (p : Nat × String)
    (hoff : u.uio_offset = (k : Int) * X.LXSYS_SDSIZE) (hfault : u.uio_fault = false)
    (hp : (canon_entries X lxsnp child_ino dirtab)[k]? = some p)
    (hres : 0 < u.uio_resid) :
    ∃ r, readdir_loop X lxsnp child_ino dirtab u.uio_resid (dirtab.length + 3) u eof = r ∧
      (u.uio_resid < X.DIRENT64_RECLEN p.2.length →
        r.error = some Errno.EINVAL ∧ r.uiop = u ∧ r.eof = eof) ∧
      (X.DIRENT64_RECLEN p.2.length ≤ u.uio_resid →
        r.error = none ∧ ∃ m, 1 ≤ m ∧
          k + m ≤ (canon_entries X lxsnp child_ino dirtab).length ∧
          r.uiop.uio_data = u.uio_data ++ canon_records X k
            (((canon_entries X lxsnp child_ino dirtab).drop k).take m) ∧
          r.uiop.uio_offset = ((k + m : Nat) : Int) * X.LXSYS_SDSIZE) := by
  have hE := canon_entries_length X lxsnp child_ino dirtab
  have hk : k < dirtab.length + 2 := by
    obtain ⟨h, _⟩ := List.getElem?_eq_some.1 hp
    omega
  obtain ⟨m, r, hrun, hm, h1, h2, h3, h4, h5, h0, h7, h6⟩ :=
    readdir_loop_spec X lxsnp child_ino dirtab u.uio_resid hsd hlen hrec
      (dirtab.length + 3) k u eof hoff hfault (by omega) (by omega) (le_refl _)
  refine ⟨r, hrun, ?_, ?_⟩
  · intro hsmall
    rcases h6 with ⟨e1, e2, e3⟩ | ⟨e1, e2, e3, _⟩
    · exfalso
      by_cases hm0 : m = 0
      · have hu := h0 hm0
        subst hm0
        rcases e3 (by omega) with hle | ⟨q, _, _, hne⟩
        · rw [hu] at hle; omega
        · rw [hu] at hne; exact hne rfl
      · have hnn := (h5 (by omega)).2
        have hdrop0 : ((canon_entries X lxsnp child_ino dirtab).drop k)[0]? = some p := by
          rw [List.getElem?_drop]; simpa using hp
        have := entries_bytes_take_ge X _ m p hdrop0 (by omega)
        omega
    · exact ⟨e1, h0 e2, e3⟩
  · intro hfit
    rcases h6 with ⟨e1, e2, e3⟩ | ⟨_, _, _, _, _, q, hq, hlt⟩
    · refine ⟨e1, m, ?_, by omega, h3, h1⟩
      by_contra hm0
      have hm0 : m = 0 := by omega
      have hu := h0 hm0
      subst hm0
      rcases e3 (by omega) with hle | ⟨q, hq, hq2, hne⟩
      · rw [hu] at hle; omega
      · rw [hu] at hne; exact hne rfl
    · exfalso
      rw [hp] at hq
      cases hq
      omega

theorem ifaces_entries_eq (X : Ext) (ldp : lxsys_node) (type : lxsys_nodetype)
    (child_ino : lxsys_dirent → Nat) (l : List phyint) :
    ifaces_entries X ldp type l
      = canon_entries X ldp child_ino [] ++ l.map (iface_entry X type) := rfl

/-- The part of `lxsys_readdir_ifaces` that follows a successful
`lxsys_readdir_common` which left `*eofp` set, for a present netstack. -/
theorem lxsys_readdir_ifaces_tail (X : Ext) (l : List phyint) (ldp : lxsys_node)
    (u : uio dirent64) (eof : Int) (type : lxsys_nodetype) (r0 : readdir_ret)
    (h0 : lxsys_readdir_common X ldp u eof [] = r0) (he : r0.error = none) (hf : r0.eof = 1) :
    lxsys_readdir_ifaces X (some l) ldp u eof type
      = ifaces_loop X type u.uio_resid
          (ifaces_skip (int32 (r0.uiop.uio_offset.tdiv X.LXSYS_SDSIZE - 2)).toNat l 1).1
          r0.uiop
          (ifaces_skip (int32 (r0.uiop.uio_offset.tdiv X.LXSYS_SDSIZE - 2)).toNat l 1).2 := by
  simp only [lxsys_readdir_ifaces, h0, he, hf, avl_first]
  simp

/-- The budget rule for `lxsys_readdir_ifaces` started at a slot that holds an
entry. -/
theorem readdir_ifaces_budget_rule (X : Ext) (ldp : lxsys_node) (type : lxsys_nodetype)
    (l : List phyint)
    (hsd : 0 < X.LXSYS_SDSIZE)
    (hlen : (l.length : Int) + 2 < 2147483650)
    (hrec : ∀ p ∈ ifaces_entries X ldp type l,
      0 < X.DIRENT64_RECLEN p.2.length ∧ X.DIRENT64_RECLEN p.2.length < 65536)
    (k : Nat) (u : uio dirent64) (eof : Int) (p : Nat × String)
    (hoff : u.uio_offset = (k : Int) * X.LXSYS_SDSIZE) (hfault : u.uio_fault = false)
    (hp : (ifaces_entries X ldp type l)[k]? = some p)
    (hres : 0 < u.uio_resid) :
    ∃ r, lxsys_readdir_ifaces X (some l) ldp u eof type = r ∧
      (u.uio_resid < X.DIRENT64_RECLEN p.2.length →
        r.error = some Errno.EINVAL ∧ r.uiop = u) ∧
      (X.DIRENT64_RECLEN p.2.length ≤ u.uio_resid →
        r.error = none ∧ ∃ m, 1 ≤ m ∧
          k + m ≤ (ifaces_entries X ldp type l).length ∧
          r.uiop.uio_data = u.uio_data ++ canon_records X k
            (((ifaces_entries X ldp type l).drop k).take m) ∧
          r.uiop.uio_offset = ((k + m : Nat) : Int) * X.LXSYS_SDSIZE) := by
  have hEl : (ifaces_entries X ldp type l).length = l.length + 2 := by
    simp [ifaces_entries]
  have hk : k < l.length + 2 := by
    obtain ⟨h, _⟩ := List.getElem?_eq_some.1 hp
    omega
  have hrecl : ∀ q ∈ l, 0 < X.DIRENT64_RECLEN (iface_entry X type q).2.length ∧
      X.DIRENT64_RECLEN (iface_entry X type q).2.length < 65536 := by
    intro q hq
    exact hrec _ (by simp [ifaces_entries]; right; right; exact ⟨q, hq, rfl⟩)
  by_cases hk2 : 2 ≤ k
  · -- the start slot is an interface
    obtain ⟨j, rfl⟩ : ∃ j, k = j + 2 := ⟨k - 2, by omega⟩
    have hent : readdir_entry X ldp
        (fun e => X.lxsys_inode lxsys_nodetype.LXSYS_STATIC e.d_idnum 0) [] u.uio_offset
        = none := by
      rw [hoff, readdir_entry_at X ldp _ [] hsd (j + 2) (by push_cast; omega)]
      simp [canon_entries]
    have hcommon : lxsys_readdir_common X ldp u eof [] = ⟨none, u, 1⟩ := by
      rw [lxsys_readdir_common]
      exact readdir_loop_end X ldp _ [] u.uio_resid 2 u eof hres hent
    have htail := lxsys_readdir_ifaces_tail X l ldp u eof type _ hcommon rfl rfl
    have hi : (int32 (u.uio_offset.tdiv X.LXSYS_SDSIZE - 2)).toNat = j := by
      rw [hoff, slot_tdiv X hsd, int32_id] <;> push_cast <;> omega
    simp only [hi] at htail
    rw [ifaces_skip_lt j l 1 (by omega)] at htail
    obtain ⟨m, r, hrun, hm, h1, h2, h3, h4, h5, h0, h6⟩ :=
      ifaces_loop_spec X type u.uio_resid (l.drop j) j u 1 hoff hfault (le_refl _)
        (fun q hq => hrecl q (List.mem_of_mem_drop hq))
    rw [hrun] at htail
    have hpj : (l.drop j)[0]? = l[j]? := by rw [List.getElem?_drop]; simp
    have hpl : (l[j]?).map (iface_entry X type) = some p := by
      simpa [ifaces_entries] using hp
    have hdropE : (ifaces_entries X ldp type l).drop (j + 2)
        = (l.drop j).map (iface_entry X type) := by
      simp [ifaces_entries, List.map_drop]
    refine ⟨r, htail, ?_, ?_⟩
    · intro hsmall
      rcases h6 with ⟨e1, e2, e3, e4⟩ | ⟨e1, e2, e3, _⟩
      · exfalso
        by_cases hm0 : m = 0
        · have hu := h0 hm0
          subst hm0
          have := (e2 (by simp; omega)).2
          rcases this with hle | ⟨q, _, _, hne⟩
          · rw [hu] at hle; omega
          · rw [hu] at hne; exact hne rfl
        · have hnn := h5 (by omega)
          have hge := entries_bytes_take_ge X ((l.drop j).map (iface_entry X type)) m p
            (by rw [List.getElem?_map, hpj]; exact hpl) (by omega)
          rw [← List.map_take] at hge
          omega
      · exact ⟨e1, h0 e2⟩
    · intro hfit
      rcases h6 with ⟨e1, e2, e3, e4⟩ | ⟨_, _, _, _, _, q, hq, hlt⟩
      · refine ⟨e1, m, ?_, ?_, ?_, ?_⟩
        · by_contra hm0
          have hm0 : m = 0 := by omega
          have hu := h0 hm0
          subst hm0
          have := (e2 (by simp; omega)).2
          rcases this with hle | ⟨q, hq, hq2, hne⟩
          · rw [hu] at hle; omega
          · rw [hu] at hne; exact hne rfl
        · simp at hm; omega
        · rw [h3, hdropE, List.map_take]
        · rw [h1]
      · exfalso
        rw [hpj] at hq
        rw [hq] at hpl
        simp at hpl
        rw [hpl] at hlt
        omega
  · -- the start slot is `.` or `..`
    have hE2 : (canon_entries X ldp
        (fun e => X.lxsys_inode lxsys_nodetype.LXSYS_STATIC e.d_idnum 0) [])[k]? = some p := by
      have : k = 0 ∨ k = 1 := by omega
      rcases this with rfl | rfl <;> simpa [ifaces_entries, canon_entries] using hp
    have hrec2 : ∀ q ∈ canon_entries X ldp
        (fun e => X.lxsys_inode lxsys_nodetype.LXSYS_STATIC e.d_idnum 0) [],
        0 < X.DIRENT64_RECLEN q.2.length ∧ X.DIRENT64_RECLEN q.2.length < 65536 := by
      intro q hq
      apply hrec
      rw [ifaces_entries_eq X ldp type
        (fun e => X.lxsys_inode lxsys_nodetype.LXSYS_STATIC e.d_idnum 0)]
      exact List.mem_append_left _ hq
    obtain ⟨m1, r0, hrun, hm, h1, h2, h3, h4, h5, h0, h7, h6⟩ :=
      readdir_loop_spec X ldp (fun e => X.lxsys_inode lxsys_nodetype.LXSYS_STATIC e.d_idnum 0)
        [] u.uio_resid hsd (by simp) hrec2 3 k u eof hoff hfault (by simp; omega) (by simp)
        (le_refl _)
    have hcommon : lxsys_readdir_common X ldp u eof [] = r0 := hrun
    simp only [List.length_nil, Nat.zero_add] at hm h6
    rcases h6 with ⟨e1, e2, e3⟩ | ⟨e1, e2, e3, _, _, q, hq, hlt⟩
    · -- `lxsys_readdir_common` succeeded
      have hm1 : 1 ≤ m1 ∧ (X.DIRENT64_RECLEN p.2.length : Int) ≤ u.uio_resid := by
        by_cases hm0 : m1 = 0
        · exfalso
          have hu := h0 hm0
          subst hm0
          rcases e3 (by omega) with hle | ⟨q, _, _, hne⟩
          · rw [hu] at hle; omega
          · rw [hu] at hne; exact hne rfl
        · refine ⟨by omega, ?_⟩
          have hnn := (h5 (by omega)).2
          have hdrop0 : ((canon_entries X ldp
              (fun e => X.lxsys_inode lxsys_nodetype.LXSYS_STATIC e.d_idnum 0) []).drop k)[0]?
              = some p := by
            rw [List.getElem?_drop]; simpa using hE2
          have := entries_bytes_take_ge X _ m1 p hdrop0 (by omega)
          omega
      have htakeE : ((canon_entries X ldp
            (fun e => X.lxsys_inode lxsys_nodetype.LXSYS_STATIC e.d_idnum 0) []).drop k).take m1
          = ((ifaces_entries X ldp type l).drop k).take m1 := by
        have hk01 : k = 0 ∨ k = 1 := by omega
        have hm12 : m1 = 1 ∨ m1 = 2 := by omega
        rcases hk01 with rfl | rfl <;> rcases hm12 with rfl | rfl <;>
          first
          | (exfalso; omega)
          | simp [ifaces_entries, canon_entries]
      by_cases hend : k + m1 = 2
      · -- both `.` and `..` are out: the interfaces follow
        rw [if_pos hend] at e2
        have htail := lxsys_readdir_ifaces_tail X l ldp u eof type r0 hcommon e1 e2
        have hi : (int32 (r0.uiop.uio_offset.tdiv X.LXSYS_SDSIZE - 2)).toNat = 0 := by
          rw [h1, slot_tdiv X hsd, hend]; decide
        simp only [hi, ifaces_skip] at htail
        obtain ⟨m2, r, hrun2, hm2, g1, g2, g3, g4, g5, g0, g6⟩ :=
          ifaces_loop_spec X type u.uio_resid l 0 r0.uiop 1 (by rw [h1, hend])
            h2 (by omega) hrecl
        rw [hrun2] at htail
        refine ⟨r, htail, ?_, ?_⟩
        · intro hsmall; omega
        · intro _
          rcases g6 with ⟨f1, _⟩ | ⟨_, _, _, _, f5, _⟩
          · refine ⟨f1, m1 + m2, by omega, by omega, ?_, ?_⟩
            · rw [g3, h3, htakeE, List.append_assoc]
              congr 1
              have hsplit : ((ifaces_entries X ldp type l).drop k).take (m1 + m2)
                  = ((ifaces_entries X ldp type l).drop k).take m1
                    ++ (l.take m2).map (iface_entry X type) := by
                rw [List.take_add, List.drop_drop, hend]
                congr 1
                simp [ifaces_entries, List.map_take]
              rw [hsplit, canon_records_append]
              congr 2
              rw [List.length_take, List.length_drop, hEl]
              omega
            · rw [g1]
              congr 2
              omega
          · exfalso
            have := (h5 (by omega)).1
            omega
      · -- the budget ran out before `..`
        rw [if_neg hend] at e2
        have hret : lxsys_readdir_ifaces X (some l) ldp u eof type = r0 := by
          simp only [lxsys_readdir_ifaces, hcommon, e2]
          simp
        refine ⟨r0, hret, ?_, ?_⟩
        · intro hsmall; omega
        · intro _
          exact ⟨e1, m1, hm1.1, by omega, by rw [h3, htakeE], h1⟩
    · -- `lxsys_readdir_common` failed with EINVAL
      have hret : lxsys_readdir_ifaces X (some l) ldp u eof type = r0 := by
        simp only [lxsys_readdir_ifaces, hcommon, e1]
        simp
      rw [hE2] at hq
      cases hq
      refine ⟨r0, hret, ?_, ?_⟩
      · intro _; exact ⟨e1, h0 e2⟩
      · intro hfit; omega

theorem canon_records_length (X : Ext) (l : List (Nat × String)) (j : Nat) :
    (canon_records X j l).length = l.length := by
  have h := congrArg List.length (canon_records_names X l j)
  simpa using h

theorem lxsys_readdir_dispatch (X : Ext) (ns : Option (List phyint)) (lxsnp : lxsys_node)
    (cr : cred) (u : uio dirent64) (eof : Int) (k : Nat)
    (hacc : lxsys_access X lxsnp X.VREAD 0 cr = none)
    (hsd : 0 < X.LXSYS_SDSIZE)
    (hoff : u.uio_offset = (k : Int) * X.LXSYS_SDSIZE) (hres : 0 < u.uio_resid) :
    lxsys_readdir X ns lxsnp u cr eof
      = (lxsys_readdir_function lxsnp.lxsys_type).map (fun f => f X ns lxsnp u eof) := by
  have h1 : ¬ (u.uio_offset < 0 ∨ u.uio_resid ≤ 0) := by
    have : 0 ≤ (k : Int) * X.LXSYS_SDSIZE := Int.mul_nonneg (by omega) (le_of_lt hsd)
    rw [hoff]; omega
  have h2 : u.uio_offset.tmod X.LXSYS_SDSIZE = 0 := by
    rw [hoff]; exact Int.mul_tmod_left _ _
  cases ht : lxsys_readdir_function lxsnp.lxsys_type with
  | none => simp [lxsys_readdir, ht]
  | some f => simp [lxsys_readdir, ht, hacc, h1, h2]

/-- C5: for every directory served by `lxsys_readdir` (static, interface
listing, or interface directory), a caller with read access, and a call with a
positive byte budget at the aligned offset of an existing entry: if the record at
the start offset does not fit in the budget the call fails with `EINVAL`, having
emitted nothing and left offset and budget unchanged; if it fits the call
succeeds and what it emitted is a run of at least one consecutive record of the
canonical listing from that offset on, at whose end the offset stands; so the
call is an error exactly when it emitted no record. -/
theorem C5_budget_rule (X : Ext) (ns : Option (List phyint)) (lxsnp : lxsys_node) (cr : cred)
    (u : uio dirent64) (eof : Int) (E : List (Nat × String)) (k : Nat) (p : Nat × String)
    (hsd : 0 < X.LXSYS_SDSIZE)
    (hE : dir_entries X ns lxsnp = some E)
    (hsize : (E.length : Int) < 2147483650)
    (hrec : ∀ q ∈ E, 0 < X.DIRENT64_RECLEN q.2.length ∧ X.DIRENT64_RECLEN q.2.length < 65536)
    (hacc : lxsys_access X lxsnp X.VREAD 0 cr = none)
    (hoff : u.uio_offset = (k : Int) * X.LXSYS_SDSIZE) (hfault : u.uio_fault = false)
    (hp : E[k]? = some p)
    (hres : 0 < u.uio_resid) :
    ∃ r, lxsys_readdir X ns lxsnp u cr eof = some r ∧
      (u.uio_resid < X.DIRENT64_RECLEN p.2.length →
        r.error = some Errno.EINVAL ∧ r.uiop = u) ∧
      (X.DIRENT64_RECLEN p.2.length ≤ u.uio_resid →
        r.error = none ∧ ∃ m, 1 ≤ m ∧ k + m ≤ E.length ∧
          r.uiop.uio_data = u.uio_data ++ canon_records X k ((E.drop k).take m) ∧
          r.uiop.uio_offset = ((k + m : Nat) : Int) * X.LXSYS_SDSIZE) ∧
      (r.error ≠ none ↔ r.uiop.uio_data = u.uio_data) := by
  have hdisp := lxsys_readdir_dispatch X ns lxsnp cr u eof k hacc hsd hoff hres
  -- the two budget clauses, for the routine the dispatch selects
  have key : ∃ r, lxsys_readdir X ns lxsnp u cr eof = some r ∧
      (u.uio_resid < X.DIRENT64_RECLEN p.2.length →
        r.error = some Errno.EINVAL ∧ r.uiop = u) ∧
      (X.DIRENT64_RECLEN p.2.length ≤ u.uio_resid →
        r.error = none ∧ ∃ m, 1 ≤ m ∧ k + m ≤ E.length ∧
          r.uiop.uio_data = u.uio_data ++ canon_records X k ((E.drop k).take m) ∧
          r.uiop.uio_offset = ((k + m : Nat) : Int) * X.LXSYS_SDSIZE) := by
    cases ht : lxsnp.lxsys_type with
    | LXSYS_NONE => simp [dir_entries, ht] at hE
    | LXSYS_STATIC =>
      simp only [dir_entries, ht] at hE
      cases hrow : dirlookup_scan lxsnp.lxsys_instance lxsys_dirlookup with
      | none => simp [hrow] at hE
      | some row =>
        simp only [hrow, Option.map_some', Option.some.injEq] at hE
        subst hE
        have hlen : (row.dl_list.length : Int) + 2 < 2147483650 := by
          simp [canon_entries] at hsize; omega
        obtain ⟨r, hr, ha, hb⟩ := readdir_loop_budget_rule X lxsnp _ row.dl_list hsd hlen hrec
          k u eof p hoff hfault hp hres
        refine ⟨r, ?_, fun h => ⟨(ha h).1, (ha h).2.1⟩, hb⟩
        rw [hdisp, ht]
        simp only [lxsys_readdir_function, Option.map_some', lxsys_readdir_static, hrow,
          lxsys_readdir_common]
        rw [hr]
    | LXSYS_CLASS_NET =>
      simp only [dir_entries, ht] at hE
      by_cases hi : lxsnp.lxsys_instance = 0
      · rw [if_pos hi] at hE
        cases hns : ns with
        | none => simp [hns] at hE
        | some l =>
          subst hns
          simp only [Option.map_some', Option.some.injEq] at hE
          subst hE
          have hlen : (l.length : Int) + 2 < 2147483650 := by
            simp [ifaces_entries] at hsize; omega
          obtain ⟨r, hr, ha, hb⟩ := readdir_ifaces_budget_rule X lxsnp
            lxsys_nodetype.LXSYS_CLASS_NET l hsd hlen hrec k u eof p hoff hfault hp hres
          refine ⟨r, ?_, ha, hb⟩
          rw [hdisp, ht]
          simp only [lxsys_readdir_function, Option.map_some', lxsys_readdir_class_netdir, ht, hi]
          simp [hr]
      · rw [if_neg hi] at hE
        cases hE
    | LXSYS_DEVICES_NET =>
      simp only [dir_entries, ht] at hE
      by_cases hi : lxsnp.lxsys_instance = 0
      · rw [if_pos hi] at hE
        cases hns : ns with
        | none => simp [hns] at hE
        | some l =>
          subst hns
          simp only [Option.map_some', Option.some.injEq] at hE
          subst hE
          have hlen : (l.length : Int) + 2 < 2147483650 := by
            simp [ifaces_entries] at hsize; omega
          obtain ⟨r, hr, ha, hb⟩ := readdir_ifaces_budget_rule X lxsnp
            lxsys_nodetype.LXSYS_DEVICES_NET l hsd hlen hrec k u eof p hoff hfault hp hres
          refine ⟨r, ?_, ha, hb⟩
          rw [hdisp, ht]
          simp only [lxsys_readdir_function, Option.map_some',
            lxsys_readdir_devices_virtual_netdir, hi]
          simp [hr]
      · rw [if_neg hi] at hE
        by_cases he : lxsnp.lxsys_endpoint = 0
        · rw [if_pos he] at hE
          simp only [Option.some.injEq] at hE
          subst hE
          obtain ⟨r, hr, ha, hb⟩ := readdir_loop_budget_rule X lxsnp _
            dirlist_devices_virtual_net hsd (by decide) hrec k u eof p hoff hfault hp hres
          refine ⟨r, ?_, fun h => ⟨(ha h).1, (ha h).2.1⟩, hb⟩
          rw [hdisp, ht]
          simp only [lxsys_readdir_function, Option.map_some',
            lxsys_readdir_devices_virtual_netdir, hi, he, lxsys_readdir_subdir]
          simp only [if_false, if_true, ht] at hr ⊢
          rw [hr]
        · rw [if_neg he] at hE
          cases hE
  obtain ⟨r, hr, ha, hb⟩ := key
  refine ⟨r, hr, ha, hb, ?_⟩
  by_cases hfit : (X.DIRENT64_RECLEN p.2.length : Int) ≤ u.uio_resid
  · obtain ⟨e1, m, hm1, hm2, hdata, _⟩ := hb hfit
    constructor
    · intro h; exact absurd e1 h
    · intro h
      exfalso
      rw [hdata] at h
      have hl := congrArg List.length h
      rw [List.length_append, canon_records_length, List.length_take, List.length_drop] at hl
      omega
  · obtain ⟨e1, e2⟩ := ha (by omega)
    constructor
    · intro _; rw [e2]
    · intro _; rw [e1]; simp

/-- Instance of C5: `/sys/class/net` from slot 2 with a budget of 24 bytes. -/
theorem C5_budget_rule_witness :
    ∃ r, lxsys_readdir illumos (some three_ifaces) sys_class_net ⟨32, 24, false, []⟩ kcred 0
        = some r ∧
      ((24 : Int) < illumos.DIRENT64_RECLEN "lo".length →
        r.error = some Errno.EINVAL ∧ r.uiop = ⟨32, 24, false, []⟩) ∧
      ((illumos.DIRENT64_RECLEN "lo".length : Int) ≤ 24 →
        r.error = none ∧ ∃ m, 1 ≤ m ∧
          2 + m ≤ (ifaces_entries illumos sys_class_net lxsys_nodetype.LXSYS_CLASS_NET
            three_ifaces).length ∧
          r.uiop.uio_data = [] ++ canon_records illumos 2
            (((ifaces_entries illumos sys_class_net lxsys_nodetype.LXSYS_CLASS_NET
              three_ifaces).drop 2).take m) ∧
          r.uiop.uio_offset = ((2 + m : Nat) : Int) * illumos.LXSYS_SDSIZE) ∧
      (r.error ≠ none ↔ r.uiop.uio_data = []) :=
  C5_budget_rule illumos (some three_ifaces) sys_class_net kcred ⟨32, 24, false, []⟩ 0
    (ifaces_entries illumos sys_class_net lxsys_nodetype.LXSYS_CLASS_NET three_ifaces) 2
    (33554688, "lo") (by decide) rfl (by decide)
    (by
      intro q hq
      simp only [ifaces_entries, three_ifaces, iface_entry, List.map, List.mem_cons,
        List.mem_singleton, List.not_mem_nil, or_false] at hq
      rcases hq with h | h | h | h | h <;> subst h <;> exact ⟨by decide, by decide⟩)
    rfl (by decide) rfl (by decide) (by decide)

/-! ## C6: lookup in a static directory -/

theorem strncmp_eq_refl (a : String) (n : Nat) : strncmp_eq a a n = true := by
  simp [strncmp_eq]

theorem strncmp_eq_head (a b : String) (n : Nat) (hn : 0 < n) (h : strncmp_eq a b n = true) :
    a.data.head? = b.data.head? := by
  obtain ⟨n, rfl⟩ : ∃ n', n = n' + 1 := ⟨n - 1, by omega⟩
  simp only [strncmp_eq, beq_iff_eq] at h
  cases ha : a.data with
  | nil =>
    cases hb : b.data with
    | nil => rfl
    | cons y ys => rw [ha, hb] at h; simp at h
  | cons x xs =>
    cases hb : b.data with
    | nil => rw [ha, hb] at h; simp at h
    | cons y ys =>
      rw [ha, hb] at h
      simp only [List.take_succ_cons, List.cons.injEq] at h
      simp [h.1]

theorem dirlookup_names_distinct :
    ∀ row ∈ lxsys_dirlookup, ∀ e1 ∈ row.dl_list, ∀ e2 ∈ row.dl_list,
      e1.d_name.data.head? = e2.d_name.data.head? → e1 = e2 := by
  decide

theorem dirlookup_names_plain :
    ∀ row ∈ lxsys_dirlookup, ∀ e ∈ row.dl_list,
      e.d_name ≠ ".." ∧ e.d_name ≠ "" ∧ e.d_name ≠ "." := by
  decide

/-- The scan of `lxsys_lookup_static` stops at the entry whose name is looked up. -/
theorem lookup_static_scan_mem (X : Ext) (ldp : lxsys_node) (d : lxsys_dirent)
    (hmax : 0 < X.MAXPATHLEN) :
    ∀ (l : List lxsys_dirent), d ∈ l →
      (∀ e ∈ l, e.d_name.data.head? = d.d_name.data.head? → e = d) →
      lookup_static_scan X ldp d.d_name l = some (lookup_static_node X ldp d) := by
  intro l
  induction l with
  | nil => intro h; simp at h
  | cons e es ih =>
    intro hmem hdist
    by_cases hcmp : strncmp_eq d.d_name e.d_name X.MAXPATHLEN = true
    · have hhead := strncmp_eq_head _ _ _ hmax hcmp
      have hed : e = d := hdist e (by simp) hhead.symm
      subst hed
      simp only [lookup_static_scan, hcmp, if_true]
    · have hne : d ≠ e := by
        intro h; subst h; exact hcmp (strncmp_eq_refl _ _)
      have hmem2 : d ∈ es := by
        rcases List.mem_cons.1 hmem with h | h
        · exact absurd h hne
        · exact h
      simp only [lookup_static_scan, hcmp]
      exact ih hmem2 (fun e' he' => hdist e' (List.mem_cons_of_mem _ he'))

/-- C6: for every static directory node (a node of kind STATIC whose instance
owns the row `row` of `lxsys_dirlookup`), a caller with search access and every
entry `d` of the row's child table, `lxsys_lookup` of the entry's name succeeds
and returns the node obtained from the factory for (CLASS_NET, 0, 0) when the
entry's id is the class-net directory id, for (DEVICES_NET, 0, 0) when it is the
devices-virtual-net directory id, and from the static factory call for the
entry's own id in every other case. -/
theorem C6_lookup_static_child (X : Ext) (ns : Option (List phyint)) (lxsnp : lxsys_node)
    (cr : cred) (row : lxsys_dirlookup_t) (d : lxsys_dirent)
    (hmax : 0 < X.MAXPATHLEN)
    (hvd : lxsnp.v_type = vtype.VDIR)
    (htype : lxsnp.lxsys_type = lxsys_nodetype.LXSYS_STATIC)
    (hrow : row ∈ lxsys_dirlookup)
    (hinst : lxsnp.lxsys_instance = row.dl_instance)
    (hd : d ∈ row.dl_list)
    (hacc : lxsys_access X lxsnp X.VEXEC 0 cr = none) :
    lxsys_lookup X ns lxsnp d.d_name cr
      = some (.ok (vnode.lxs
          (if d.d_idnum = LXSYS_INST_CLASS_NETDIR then
            X.lxsys_getnode lxsnp lxsys_nodetype.LXSYS_CLASS_NET 0 0
          else if d.d_idnum = LXSYS_INST_DEVICES_VIRTUAL_NETDIR then
            X.lxsys_getnode lxsnp lxsys_nodetype.LXSYS_DEVICES_NET 0 0
          else X.lxsys_getnode_static lxsnp d.d_idnum))) := by
  obtain ⟨n1, n2, n3⟩ := dirlookup_names_plain row hrow d hd
  have hscan := lookup_static_scan_mem X lxsnp d hmax row.dl_list hd
    (fun e he h => dirlookup_names_distinct row hrow e he d hd h)
  simp only [lxsys_lookup, hvd, htype, lxsys_lookup_function, hacc, n1, n2, n3,
    lxsys_lookup_static, hinst, dirlookup_scan_row row hrow, hscan, ne_eq, not_true_eq_false,
    if_false, or_self, and_false]
  by_cases h1 : d.d_idnum = LXSYS_INST_CLASS_NETDIR
  · simp [lookup_static_node, h1]
  · by_cases h2 : d.d_idnum = LXSYS_INST_DEVICES_VIRTUAL_NETDIR
    · have hne : LXSYS_INST_DEVICES_VIRTUAL_NETDIR ≠ LXSYS_INST_CLASS_NETDIR := by decide
      simp [lookup_static_node, h2, hne]
    · simp [lookup_static_node, h1, h2, htype]

/-- Instance of C6: `class` under `/sys`. -/
theorem C6_lookup_static_child_witness :
    lxsys_lookup illumos none sys_root "class" kcred
      = some (.ok (vnode.lxs (illumos.lxsys_getnode_static sys_root LXSYS_INST_CLASSDIR))) :=
  C6_lookup_static_child illumos none sys_root kcred ⟨LXSYS_INST_ROOT, dirlist_root⟩
    ⟨LXSYS_INST_CLASSDIR, "class"⟩ (by decide) rfl rfl (by decide) rfl (by decide) rfl

/-! ## C7: the symlinks of /sys/class/net -/

theorem find_of_nodup_key {κ : Type} [DecidableEq κ] (f : phyint → κ) :
    ∀ (l : List phyint) (p : phyint), (l.map f).Nodup → p ∈ l →
      l.find? (fun q => f q == f p) = some p := by
  intro l
  induction l with
  | nil => intro p _ h; simp at h
  | cons q qs ih =>
    intro p hnd hmem
    simp only [List.map_cons, List.nodup_cons] at hnd
    rcases List.mem_cons.1 hmem with h | h
    · subst h; simp
    · have hne : f q ≠ f p := by
        intro heq
        exact hnd.1 (heq ▸ List.mem_map_of_mem f h)
      have hb : (f q == f p) = false := by simp [hne]
      rw [List.find?_cons, hb]
      exact ih p hnd.2 h

theorem strncpy_short (s : String) (n : Nat) (h : s.length ≤ n) : strncpy s n = s := by
  cases s with
  | mk d =>
    simp only [strncpy]
    congr 1
    exact List.take_of_length_le h

/-- C7: for every interface of a well-formed live collection (no two interfaces
share a name or an index) whose index is not 0, and the name under which Linux
sees it (the name that `lx_ifname_convert` maps to and from the interface's
native name), `lxsys_lookup` of that name under the class-net root (kind
CLASS_NET, instance 0) with search access returns a node of type `VLNK` whose
instance is the interface's index, and `lxsys_readlink` on that node over the
same collection, with room for the text, produces exactly
`/sys/devices/virtual/net/<name>`. -/
theorem C7_class_net_symlink (X : Ext) (l : List phyint) (lxsnp : lxsys_node) (cr : cred)
    (name : String) (phyi : phyint) (u : uio Char)
    (hvd : lxsnp.v_type = vtype.VDIR)
    (htype : lxsnp.lxsys_type = lxsys_nodetype.LXSYS_CLASS_NET)
    (hinst : lxsnp.lxsys_instance = 0)
    (hacc : lxsys_access X lxsnp X.VEXEC 0 cr = none)
    (hfac : factory_ok X)
    (hl : phyint_list_ok l) (hmem : phyi ∈ l) (hidx : phyi.phyint_ifindex ≠ 0)
    (hname : name ≠ ".." ∧ name ≠ "" ∧ name ≠ ".")
    (hto : X.lx_ifname_convert (strncpy name X.LIFNAMSIZ) lx_if_action.LX_IF_TONATIVE
      = phyi.phyint_name)
    (hfrom : X.lx_ifname_convert (strncpy phyi.phyint_name X.LIFNAMSIZ)
      lx_if_action.LX_IF_FROMNATIVE = name)
    (hbuf : ("/sys/devices/virtual/net/" ++ name).length ≤ X.MAXPATHLEN)
    (hres : (("/sys/devices/virtual/net/" ++ name).length : Int) ≤ u.uio_resid)
    (hfault : u.uio_fault = false) :
    ∃ vp, lxsys_lookup X (some l) lxsnp name cr = some (.ok (vnode.lxs vp)) ∧
      vp.v_type = vtype.VLNK ∧
      vp.lxsys_type = lxsys_nodetype.LXSYS_CLASS_NET ∧
      vp.lxsys_instance = phyi.phyint_ifindex ∧
      ∃ u1, lxsys_readlink X (some l) vp u = some (none, u1) ∧
        u1.uio_data = u.uio_data ++ ("/sys/devices/virtual/net/" ++ name).data := by
  obtain ⟨n1, n2, n3⟩ := hname
  obtain ⟨f1, f2, f3⟩ := hfac lxsnp lxsys_nodetype.LXSYS_CLASS_NET phyi.phyint_ifindex 0
  have hfn : avl_find_by_name l phyi.phyint_name = some phyi :=
    find_of_nodup_key (fun p => p.phyint_name) l phyi hl.1 hmem
  have hfi : avl_find_by_index l phyi.phyint_ifindex = some phyi :=
    find_of_nodup_key (fun p => p.phyint_ifindex) l phyi hl.2 hmem
  refine ⟨{ X.lxsys_getnode lxsnp lxsys_nodetype.LXSYS_CLASS_NET phyi.phyint_ifindex 0 with
            v_type := vtype.VLNK }, ?_, rfl, f1, f2, ?_⟩
  · simp only [lxsys_lookup, hvd, htype, lxsys_lookup_function, hacc, n1, n2, n3,
      lxsys_lookup_class_netdir, hinst, hto, hfn, ne_eq, not_true_eq_false, if_false, or_self,
      and_false]
  · have hcnt : min ("/sys/devices/virtual/net/" ++ name).length u.uio_resid.toNat
        = ("/sys/devices/virtual/net/" ++ name).length := by omega
    refine ⟨{ u with
        uio_offset := u.uio_offset + (("/sys/devices/virtual/net/" ++ name).length : Nat),
        uio_resid := u.uio_resid - (("/sys/devices/virtual/net/" ++ name).length : Nat),
        uio_data := u.uio_data ++ ("/sys/devices/virtual/net/" ++ name).data }, ?_, rfl⟩
    have htake : List.take ("/sys/devices/virtual/net/" ++ name).length
        ("/sys/devices/virtual/net/" ++ name).data
        = ("/sys/devices/virtual/net/" ++ name).data :=
      List.take_of_length_le (le_refl _)
    simp only [lxsys_readlink, f1, f2, lxsys_readlink_function, lxsys_readlink_class_net,
      hidx, hfi, hfrom, Nat.add_sub_cancel, strncpy_short _ _ hbuf, uiomove_text, hfault,
      hcnt, htake, ne_eq, not_true_eq_false, if_false]
    simp

/-- Instance of C7: `net0` in a collection of three interfaces. -/
theorem C7_class_net_symlink_witness :
    ∃ vp, lxsys_lookup illumos (some three_ifaces) sys_class_net "net0" kcred
        = some (.ok (vnode.lxs vp)) ∧
      vp.v_type = vtype.VLNK ∧
      vp.lxsys_type = lxsys_nodetype.LXSYS_CLASS_NET ∧
      vp.lxsys_instance = 2 ∧
      ∃ u1, lxsys_readlink illumos (some three_ifaces) vp ⟨0, 1024, false, []⟩ = some (none, u1) ∧
        u1.uio_data = [] ++ ("/sys/devices/virtual/net/" ++ "net0").data :=
  C7_class_net_symlink illumos three_ifaces sys_class_net kcred "net0" ⟨"net0", 2⟩
    ⟨0, 1024, false, []⟩ rfl rfl rfl rfl (fun _ _ _ _ => ⟨rfl, rfl, rfl⟩)
    ⟨by decide, by decide⟩ (by decide) (by decide) (by decide) (by decide) (by decide)
    (by decide) (by decide) rfl

/-! ## C8: the attribute files of an interface directory -/

theorem strncmp_eq_iff (a b : String) (n : Nat) (hb : b.length < n) :
    strncmp_eq a b n = true ↔ a = b := by
  constructor
  · intro h
    cases a with
    | mk da =>
      cases b with
      | mk db =>
        simp only [strncmp_eq, beq_iff_eq] at h
        simp only [String.length] at hb
        rw [List.take_of_length_le (le_of_lt hb)] at h
        have hlen := congrArg List.length h
        rw [List.length_take] at hlen
        have : da.length ≤ n := by omega
        rw [List.take_of_length_le this] at h
        rw [h]
  · intro h; subst h; exact strncmp_eq_refl _ _

theorem attr_names_short : ∀ d ∈ dirlist_devices_virtual_net, d.d_name.length ≤ 12 := by
  decide

theorem attr_names_find :
    ∀ d ∈ dirlist_devices_virtual_net,
      dirlist_devices_virtual_net.find? (fun e => decide (d.d_name = e.d_name)) = some d := by
  decide

theorem lookup_attr_scan_eq (X : Ext) (ldp : lxsys_node) (comp : String) :
    ∀ (l : List lxsys_dirent), (∀ d ∈ l, d.d_name.length < X.LXSNSIZ) →
      lookup_attr_scan X ldp comp l
        = (l.find? (fun e => decide (comp = e.d_name))).map (fun d =>
            { X.lxsys_getnode ldp ldp.lxsys_type ldp.lxsys_instance d.d_idnum with
              v_type := vtype.VREG, lxsys_mode := 0o444 }) := by
  intro l
  induction l with
  | nil => intro _; rfl
  | cons e es ih =>
    intro hshort
    have hiff := strncmp_eq_iff comp e.d_name X.LXSNSIZ (hshort e (by simp))
    by_cases heq : comp = e.d_name
    · subst heq
      simp [lookup_attr_scan, strncmp_eq_refl]
    · have : ¬ strncmp_eq comp e.d_name X.LXSNSIZ = true := fun h => heq (hiff.1 h)
      simp only [lookup_attr_scan, this, List.find?_cons, heq, decide_False]
      exact ih (fun d hd => hshort d (List.mem_cons_of_mem _ hd))

/-- C8: for every DEVICES_NET directory node with instance ≠ 0, a caller with
search access and every name other than the empty name, `.` and `..`: if the
node's endpoint is 0 and the name is that of an entry of the attribute table,
`lxsys_lookup` returns the node the factory hands out for (DEVICES_NET, same
instance, the entry's id), made a regular file (`VREG`) with mode 0444, so its
instance is the directory's and its endpoint the attribute id; if the name is
that of no attribute, or the node's endpoint is not 0, it fails with `ENOENT`. -/
theorem C8_lookup_attribute (X : Ext) (ns : Option (List phyint)) (lxsnp : lxsys_node)
    (cr : cred) (comp : String)
    (hlx : 12 < X.LXSNSIZ)
    (hfac : factory_ok X)
    (hvd : lxsnp.v_type = vtype.VDIR)
    (htype : lxsnp.lxsys_type = lxsys_nodetype.LXSYS_DEVICES_NET)
    (hinst : lxsnp.lxsys_instance ≠ 0)
    (hacc : lxsys_access X lxsnp X.VEXEC 0 cr = none)
    (hcomp : comp ≠ ".." ∧ comp ≠ "" ∧ comp ≠ ".") :
    (∀ d ∈ dirlist_devices_virtual_net, lxsnp.lxsys_endpoint = 0 → comp = d.d_name →
      ∃ vp, lxsys_lookup X ns lxsnp comp cr = some (.ok (vnode.lxs vp)) ∧
        vp = { X.lxsys_getnode lxsnp lxsys_nodetype.LXSYS_DEVICES_NET lxsnp.lxsys_instance
                 d.d_idnum with v_type := vtype.VREG, lxsys_mode := 0o444 } ∧
        vp.v_type = vtype.VREG ∧ vp.lxsys_mode = 0o444 ∧
        vp.lxsys_type = lxsys_nodetype.LXSYS_DEVICES_NET ∧
        vp.lxsys_instance = lxsnp.lxsys_instance ∧ vp.lxsys_endpoint = d.d_idnum) ∧
    ((lxsnp.lxsys_endpoint ≠ 0 ∨ ∀ d ∈ dirlist_devices_virtual_net, comp ≠ d.d_name) →
      lxsys_lookup X ns lxsnp comp cr = some (.error Errno.ENOENT)) := by
  obtain ⟨n1, n2, n3⟩ := hcomp
  have hscan := lookup_attr_scan_eq X lxsnp comp dirlist_devices_virtual_net
    (fun d hd => by have := attr_names_short d hd; omega)
  constructor
  · intro d hd hend hname
    obtain ⟨f1, f2, f3⟩ :=
      hfac lxsnp lxsys_nodetype.LXSYS_DEVICES_NET lxsnp.lxsys_instance d.d_idnum
    refine ⟨_, ?_, rfl, rfl, rfl, f1, f2, f3⟩
    have hfind := attr_names_find d hd
    rw [← hname] at hfind
    simp only [lxsys_lookup, hvd, htype, lxsys_lookup_function, hacc, n1, n2, n3,
      lxsys_lookup_devices_virtual_netdir, hinst, hend, hscan, hfind, ne_eq,
      not_true_eq_false, if_false, or_self, and_false, if_true, Option.map_some']
  · intro h
    rcases h with hend | hno
    · simp only [lxsys_lookup, hvd, htype, lxsys_lookup_function, hacc, n1, n2, n3,
        lxsys_lookup_devices_virtual_netdir, hinst, hend, ne_eq, not_true_eq_false, if_false,
        or_self, and_false]
    · have hfind : dirlist_devices_virtual_net.find? (fun e => decide (comp = e.d_name))
          = none := by
        rw [List.find?_eq_none]
        intro d hd
        simpa using hno d hd
      by_cases hend : lxsnp.lxsys_endpoint = 0
      · simp only [lxsys_lookup, hvd, htype, lxsys_lookup_function, hacc, n1, n2, n3,
          lxsys_lookup_devices_virtual_netdir, hinst, hend, hscan, hfind, ne_eq,
          not_true_eq_false, if_false, or_self, and_false, if_true, Option.map_none']
      · simp only [lxsys_lookup, hvd, htype, lxsys_lookup_function, hacc, n1, n2, n3,
          lxsys_lookup_devices_virtual_netdir, hinst, hend, ne_eq, not_true_eq_false,
          if_false, or_self, and_false]

/-- Instance of C8: the directory of the interface with index 2. -/
theorem C8_lookup_attribute_witness :
    (∀ d ∈ dirlist_devices_virtual_net, sys_net0_dir.lxsys_endpoint = 0 → "mtu" = d.d_name →
      ∃ vp, lxsys_lookup illumos (some three_ifaces) sys_net0_dir "mtu" kcred
          = some (.ok (vnode.lxs vp)) ∧
        vp = { illumos.lxsys_getnode sys_net0_dir lxsys_nodetype.LXSYS_DEVICES_NET
                 sys_net0_dir.lxsys_instance d.d_idnum with
               v_type := vtype.VREG, lxsys_mode := 0o444 } ∧
        vp.v_type = vtype.VREG ∧ vp.lxsys_mode = 0o444 ∧
        vp.lxsys_type = lxsys_nodetype.LXSYS_DEVICES_NET ∧
        vp.lxsys_instance = sys_net0_dir.lxsys_instance ∧ vp.lxsys_endpoint = d.d_idnum) ∧
    ((sys_net0_dir.lxsys_endpoint ≠ 0 ∨ ∀ d ∈ dirlist_devices_virtual_net, "mtu" ≠ d.d_name) →
      lxsys_lookup illumos (some three_ifaces) sys_net0_dir "mtu" kcred
        = some (.error Errno.ENOENT)) :=
  C8_lookup_attribute illumos (some three_ifaces) sys_net0_dir kcred "mtu" (by decide)
    (fun _ _ _ _ => ⟨rfl, rfl, rfl⟩) rfl rfl (by decide) rfl (by decide)

/-! ## C9: lookup without search access -/

/-- C9: for every directory node of a valid kind and every component name, the
empty name, `.` and `..` included, if the access check for `VEXEC` fails with
an error then `lxsys_lookup` returns that error and no node; the same holds
whatever the parent reference, the live collection and the node factory are. -/
theorem C9_lookup_access_denied (X : Ext) (ns : Option (List phyint)) (lxsnp : lxsys_node)
    (comp : String) (cr : cred) (error : Errno)
    (hvd : lxsnp.v_type = vtype.VDIR)
    (htype : lxsnp.lxsys_type ≠ lxsys_nodetype.LXSYS_NONE)
    (hacc : lxsys_access X lxsnp X.VEXEC 0 cr = some error) :
    lxsys_lookup X ns lxsnp comp cr = some (.error error) ∧
    ∀ (ns1 : Option (List phyint)) (parent : Nat)
      (getnode : lxsys_node → lxsys_nodetype → Nat → Nat → lxsys_node)
      (getnode_static : lxsys_node → Nat → lxsys_node),
      lxsys_lookup { X with lxsys_getnode := getnode, lxsys_getnode_static := getnode_static }
        ns1 { lxsnp with lxsys_parent := parent } comp cr = some (.error error) := by
  have key : ∀ (X1 : Ext) (n1 : lxsys_node) (ns1 : Option (List phyint)),
      n1.v_type = vtype.VDIR → n1.lxsys_type = lxsnp.lxsys_type →
      lxsys_access X1 n1 X1.VEXEC 0 cr = some error →
      lxsys_lookup X1 ns1 n1 comp cr = some (.error error) := by
    intro X1 n1 ns1 h1 h2 h3
    cases ht : lxsnp.lxsys_type with
    | LXSYS_NONE => exact absurd ht htype
    | LXSYS_STATIC => simp [lxsys_lookup, h1, h2, ht, lxsys_lookup_function, h3]
    | LXSYS_CLASS_NET => simp [lxsys_lookup, h1, h2, ht, lxsys_lookup_function, h3]
    | LXSYS_DEVICES_NET => simp [lxsys_lookup, h1, h2, ht, lxsys_lookup_function, h3]
  refine ⟨key X lxsnp ns hvd rfl hacc, ?_⟩
  intro ns1 parent getnode getnode_static
  exact key _ _ ns1 hvd rfl hacc

/-- Instance of C9: an unprivileged stranger looks up `..` in a `/sys` of mode 0700. -/
theorem C9_lookup_access_denied_witness :
    lxsys_lookup illumos none private_root ".." nobody = some (.error Errno.EACCES) ∧
    ∀ (ns1 : Option (List phyint)) (parent : Nat)
      (getnode : lxsys_node → lxsys_nodetype → Nat → Nat → lxsys_node)
      (getnode_static : lxsys_node → Nat → lxsys_node),
      lxsys_lookup
        { illumos with lxsys_getnode := getnode, lxsys_getnode_static := getnode_static }
        ns1 { private_root with lxsys_parent := parent } ".." nobody
        = some (.error Errno.EACCES) :=
  C9_lookup_access_denied illumos none private_root ".." nobody Errno.EACCES rfl (by decide)
    (by decide)

/-! ## C10: attributes of a passthrough node -/

/-- C10 (defect): for the passthrough node of mode 0777 over an underlying file
that reports mode 0644, `lxsys_getattr` with the flag `ATTR_REAL` succeeds and
the mode it reports is 0644, the underlying file's, not the node's own. -/
theorem C10_getattr_real_mode :
    (lxsys_getattr illumos passthrough_node vattr_zero illumos.ATTR_REAL kcred).1 = none ∧
    (lxsys_getattr illumos passthrough_node vattr_zero illumos.ATTR_REAL kcred).2.va_mode
      = 0o644 ∧
    passthrough_node.lxsys_mode = 0o777 := by
  decide

/-! ## C11: readlink on a directory -/

/-- C11 (as stated, refuted): `lxsys_readlink` on the directory `/sys` does not
fail with `EISDIR`; it fails with `EINVAL`. -/
theorem C11_readlink_dir_not_eisdir :
    (lxsys_readlink illumos none sys_root ⟨0, 100, false, []⟩).map (fun r => r.1)
      = some (some Errno.EINVAL) ∧
    (lxsys_readlink illumos none sys_root ⟨0, 100, false, []⟩).map (fun r => r.1)
      ≠ some (some Errno.EISDIR) := by
  decide

/-- C11 (amended): for every node of a valid kind whose file type is directory
(`VDIR`), `lxsys_readlink` fails with `EINVAL` and moves nothing to the caller. -/
theorem C11_readlink_dir_einval (X : Ext) (ns : Option (List phyint)) (lnp : lxsys_node)
    (uiop : uio Char)
    (htype : lnp.lxsys_type ≠ lxsys_nodetype.LXSYS_NONE)
    (hvd : lnp.v_type = vtype.VDIR) :
    lxsys_readlink X ns lnp uiop = some (some Errno.EINVAL, uiop) := by
  simp [lxsys_readlink, htype, hvd]

/-- Instance of C11 (amended): the root of `/sys/class/net`. -/
theorem C11_readlink_dir_einval_witness :
    lxsys_readlink illumos (some three_ifaces) sys_class_net ⟨0, 100, false, []⟩
      = some (some Errno.EINVAL, ⟨0, 100, false, []⟩) :=
  C11_readlink_dir_einval illumos (some three_ifaces) sys_class_net ⟨0, 100, false, []⟩
    (by decide) rfl

/-! ## C12: the three-tier access check -/

theorem testBit_ge_32 (x i : Nat) (hx : x < 4294967296) (hi : 32 ≤ i) : x.testBit i = false := by
  apply Nat.testBit_lt_two_pow
  calc x < 2 ^ 32 := by simpa using hx
    _ ≤ 2 ^ i := Nat.pow_le_pow_right (by decide) hi

theorem not32_testBit (y i : Nat) (hi : i < 32) : (not32 y).testBit i = !y.testBit i := by
  have h1 : (4294967295 : Nat) = 2 ^ 32 - 1 := by norm_num
  have h2 : (4294967296 : Nat) = 2 ^ 32 := by norm_num
  unfold not32
  rw [Nat.testBit_xor, h1, h2, Nat.testBit_two_pow_sub_one, Nat.testBit_mod_two_pow]
  simp [hi]

theorem and_not32_eq_zero (x y : Nat) (hx : x < 4294967296) :
    x &&& not32 y = 0 ↔ ∀ i, x.testBit i = true → y.testBit i = true := by
  constructor
  · intro h i hxi
    have hi : i < 32 := by
      by_contra hge
      rw [testBit_ge_32 x i hx (by omega)] at hxi
      exact Bool.noConfusion hxi
    have hb : (x &&& not32 y).testBit i = false := by rw [h]; exact Nat.zero_testBit i
    rw [Nat.testBit_and, hxi, not32_testBit y i hi] at hb
    simpa using hb
  · intro h
    apply Nat.eq_of_testBit_eq
    intro i
    rw [Nat.zero_testBit, Nat.testBit_and]
    cases hxi : x.testBit i
    · rfl
    · have hi : i < 32 := by
        by_contra hge
        rw [testBit_ge_32 x i hx (by omega)] at hxi
        exact Bool.noConfusion hxi
      rw [not32_testBit y i hi, h i hxi]
      rfl

theorem rwx_bits (i : Nat) (h : (448 : Nat).testBit i = true) : i = 6 ∨ i = 7 ∨ i = 8 := by
  by_cases hi : i < 9
  · interval_cases i <;> first | omega | exact absurd h (by decide)
  · have : (448 : Nat).testBit i = false := by
      apply Nat.testBit_lt_two_pow
      calc (448 : Nat) < 2 ^ 9 := by norm_num
        _ ≤ 2 ^ i := Nat.pow_le_pow_right (by decide) (by omega)
    rw [this] at h
    exact Bool.noConfusion h

theorem access_shift (lxsnp : lxsys_node) (cr : cred) :
    (if cr.cr_uid ≠ lxsnp.lxsys_uid then
      (if lxsnp.lxsys_gid ∉ cr.cr_groups then 6 else 3) else 0) = 3 * access_tier lxsnp cr := by
  unfold access_tier
  by_cases hu : cr.cr_uid = lxsnp.lxsys_uid
  · simp [hu]
  · by_cases hg : lxsnp.lxsys_gid ∈ cr.cr_groups
    · simp [hu, hg]
    · simp [hu, hg]

theorem access_tier_le (lxsnp : lxsys_node) (cr : cred) : access_tier lxsnp cr ≤ 2 := by
  unfold access_tier
  split
  · omega
  · split <;> omega

/-- C12: on a synthetic node (no underlying file), for a requested mode made
of the bits `VREAD` (0400), `VWRITE` (0200) and `VEXEC` (0100), `lxsys_access`
returns 0 for a privileged caller; for any other caller it looks at one tier of
the stored mode only (`access_tier`: 0 = owner when the uids are equal, else
1 = group when the caller is a member of the node's gid, else 2 = other),
returns 0 when each requested bit `6 + k` is set in that tier (bit
`6 + k - 3 * tier` of the stored mode), and `EACCES` when one is not. -/
theorem C12_access_three_tier (X : Ext) (lxsnp : lxsys_node) (mode flags : Nat) (cr : cred)
    (hV : X.VREAD = 256 ∧ X.VWRITE = 128 ∧ X.VEXEC = 64)
    (hsyn : lxsnp.lxsys_realvp = none)
    (hmode : mode &&& (X.VREAD ||| X.VWRITE ||| X.VEXEC) = mode) :
    (cr.cr_proc_access = true → lxsys_access X lxsnp mode flags cr = none) ∧
    (cr.cr_proc_access = false →
      ((∀ k, k < 3 → mode.testBit (6 + k) = true →
          lxsnp.lxsys_mode.testBit (6 + k - 3 * access_tier lxsnp cr) = true) →
        lxsys_access X lxsnp mode flags cr = none) ∧
      (¬ (∀ k, k < 3 → mode.testBit (6 + k) = true →
          lxsnp.lxsys_mode.testBit (6 + k - 3 * access_tier lxsnp cr) = true) →
        lxsys_access X lxsnp mode flags cr = some Errno.EACCES)) := by
  obtain ⟨hr, hw, hx⟩ := hV
  rw [hr, hw, hx] at hmode
  have h448 : mode &&& 448 = mode := hmode
  have hlt : mode < 4294967296 := by
    have : mode &&& 448 ≤ 448 := Nat.and_le_right
    omega
  have hbits : ∀ i, mode.testBit i = true → i = 6 ∨ i = 7 ∨ i = 8 := by
    intro i hi
    have h2 : (mode &&& 448).testBit i = true := by rw [h448]; exact hi
    rw [Nat.testBit_and, hi, Bool.true_and] at h2
    exact rwx_bits i h2
  have ht := access_tier_le lxsnp cr
  have hkey : mode &&& not32 (lxsnp.lxsys_mode <<< (3 * access_tier lxsnp cr)) = 0 ↔
      (∀ k, k < 3 → mode.testBit (6 + k) = true →
        lxsnp.lxsys_mode.testBit (6 + k - 3 * access_tier lxsnp cr) = true) := by
    rw [and_not32_eq_zero _ _ hlt]
    constructor
    · intro h k _ hk
      have := h (6 + k) hk
      rw [Nat.testBit_shiftLeft] at this
      simp at this
      exact this.2
    · intro h i hi
      rw [Nat.testBit_shiftLeft]
      have hi3 := hbits i hi
      have hge : i ≥ 3 * access_tier lxsnp cr := by omega
      have hk : ∃ k, k < 3 ∧ i = 6 + k := ⟨i - 6, by omega, by omega⟩
      obtain ⟨k, hk3, rfl⟩ := hk
      simp only [hge, decide_True, Bool.true_and]
      exact h k hk3 hi
  constructor
  · intro hp
    simp [lxsys_access, hsyn, hp]
  · intro hp
    have hacc : lxsys_access X lxsnp mode flags cr
        = if mode &&& not32 (lxsnp.lxsys_mode <<< (3 * access_tier lxsnp cr)) = 0 then none
          else some Errno.EACCES := by
      simp only [lxsys_access, hsyn, hp, access_shift]
      simp
    constructor
    · intro hall
      rw [hacc, if_pos (hkey.mpr hall)]
    · intro hnot
      rw [hacc, if_neg (fun h0 => hnot (hkey.mp h0))]

/-- Instance of C12: a member of group 10 asks to read and search a directory
of mode 0750 owned by uid 100, gid 10: the group tier grants both. -/
theorem C12_access_three_tier_witness :
    (illumos.VREAD = 256 ∧ illumos.VWRITE = 128 ∧ illumos.VEXEC = 64) ∧
    access_tier owned_root group_member = 1 ∧
    lxsys_access illumos owned_root 320 0 group_member = none ∧
    lxsys_access illumos owned_root 128 0 group_member = some Errno.EACCES := by
  have h := C12_access_three_tier illumos owned_root 320 0 group_member
    ⟨rfl, rfl, rfl⟩ rfl (by decide)
  have h2 := C12_access_three_tier illumos owned_root 128 0 group_member
    ⟨rfl, rfl, rfl⟩ rfl (by decide)
  refine ⟨⟨rfl, rfl, rfl⟩, by decide, ?_, ?_⟩
  · refine (h.2 rfl).1 ?_
    intro k hk
    interval_cases k <;> decide
  · refine (h2.2 rfl).2 ?_
    intro hall
    exact absurd (hall 1 (by decide) (by decide)) (by decide)

/-! ## C13: reading an attribute of an interface that is gone -/

/-- C13: for every attribute-file node (kind DEVICES_NET, instance ≠ 0,
endpoint ≠ 0, not a directory) and every live collection in which no interface
carries the node's instance as its index (or no netstack at all),
`lxsys_read_devices_virtual_net` fails with `EIO` and leaves the output buffer
as it was, and `lxsys_read` fails with `EIO` and moves nothing to the caller. -/
theorem C13_read_absent_interface (X : Ext) (ns : Option (List phyint)) (lnp : lxsys_node)
    (uiop : uio Char)
    (hfind : find_ill_ok X)
    (htype : lnp.lxsys_type = lxsys_nodetype.LXSYS_DEVICES_NET)
    (hinst : lnp.lxsys_instance ≠ 0)
    (hend : lnp.lxsys_endpoint ≠ 0)
    (hfile : lnp.v_type ≠ vtype.VDIR)
    (habs : ∀ phytree, ns = some phytree →
      ∀ p ∈ phytree, p.phyint_ifindex ≠ lnp.lxsys_instance) :
    (∀ luio, lxsys_read_devices_virtual_net X ns lnp luio = (some Errno.EIO, luio)) ∧
    lxsys_read X ns lnp uiop = some (some Errno.EIO, uiop) := by
  have h1 : ∀ luio, lxsys_read_devices_virtual_net X ns lnp luio = (some Errno.EIO, luio) := by
    intro luio
    cases hns : ns with
    | none => simp [lxsys_read_devices_virtual_net, hinst, hend]
    | some phytree =>
      have := hfind phytree lnp.lxsys_instance (habs phytree hns)
      simp [lxsys_read_devices_virtual_net, hinst, hend, this]
  refine ⟨h1, ?_⟩
  simp [lxsys_read, htype, hfile, lxsys_read_function, h1, lxsys_uiobuf_new]

/-- Instance of C13: the `mtu` file of interface 9 over three other interfaces. -/
theorem C13_read_absent_interface_witness :
    (∀ luio, lxsys_read_devices_virtual_net illumos (some three_ifaces) sys_gone_mtu luio
      = (some Errno.EIO, luio)) ∧
    lxsys_read illumos (some three_ifaces) sys_gone_mtu ⟨0, 100, false, []⟩
      = some (some Errno.EIO, ⟨0, 100, false, []⟩) :=
  C13_read_absent_interface illumos (some three_ifaces) sys_gone_mtu ⟨0, 100, false, []⟩
    (by
      intro phytree ifindex h
      have : phytree.find? (fun p => p.phyint_ifindex == ifindex) = none := by
        rw [List.find?_eq_none]
        intro p hp
        simpa using h p hp
      simp [illumos, this])
    rfl (by decide) (by decide) (by decide)
    (by
      intro phytree h p hp
      cases h
      revert p
      decide)

/-! ## C14: names that a static directory does not hold -/

theorem dirlookup_names_short :
    ∀ row ∈ lxsys_dirlookup, ∀ d ∈ row.dl_list, d.d_name.length ≤ 7 := by
  decide

theorem lookup_static_scan_none (X : Ext) (ldp : lxsys_node) (comp : String) :
    ∀ (l : List lxsys_dirent), (∀ d ∈ l, d.d_name.length < X.MAXPATHLEN) →
      (∀ d ∈ l, comp ≠ d.d_name) → lookup_static_scan X ldp comp l = none := by
  intro l
  induction l with
  | nil => intro _ _; rfl
  | cons e es ih =>
    intro hshort hno
    have hne : ¬ strncmp_eq comp e.d_name X.MAXPATHLEN = true := by
      intro h
      exact hno e (by simp) ((strncmp_eq_iff comp e.d_name X.MAXPATHLEN (hshort e (by simp))).1 h)
    simp only [lookup_static_scan, hne]
    exact ih (fun d hd => hshort d (List.mem_cons_of_mem _ hd))
      (fun d hd => hno d (List.mem_cons_of_mem _ hd))

theorem dirlookup_scan_mem (inst : Nat) :
    ∀ (l : List lxsys_dirlookup_t) (row : lxsys_dirlookup_t),
      dirlookup_scan inst l = some row → row ∈ l := by
  intro l
  induction l with
  | nil => intro row h; simp [dirlookup_scan] at h
  | cons r rs ih =>
    intro row h
    by_cases hi : inst = r.dl_instance
    · simp [dirlookup_scan, hi] at h
      simp [h]
    · simp only [dirlookup_scan, hi, if_false] at h
      exact List.mem_cons_of_mem _ (ih row h)

/-- C14: for every static directory node, a caller with search access and every
name that is not the empty name, `.` or `..` and is not the name of any entry of
the child table of the node's row in `lxsys_dirlookup`, `lxsys_lookup` fails
with `ENOENT`, and it does so whatever the node factory is. -/
theorem C14_lookup_static_absent (X : Ext) (ns : Option (List phyint)) (lxsnp : lxsys_node)
    (cr : cred) (comp : String)
    (hmax : 7 < X.MAXPATHLEN)
    (hvd : lxsnp.v_type = vtype.VDIR)
    (htype : lxsnp.lxsys_type = lxsys_nodetype.LXSYS_STATIC)
    (hacc : lxsys_access X lxsnp X.VEXEC 0 cr = none)
    (hcomp : comp ≠ ".." ∧ comp ≠ "" ∧ comp ≠ ".")
    (hno : ∀ row, dirlookup_scan lxsnp.lxsys_instance lxsys_dirlookup = some row →
      ∀ d ∈ row.dl_list, comp ≠ d.d_name) :
    lxsys_lookup X ns lxsnp comp cr = some (.error Errno.ENOENT) ∧
    ∀ (getnode : lxsys_node → lxsys_nodetype → Nat → Nat → lxsys_node)
      (getnode_static : lxsys_node → Nat → lxsys_node),
      lxsys_lookup { X with lxsys_getnode := getnode, lxsys_getnode_static := getnode_static }
        ns lxsnp comp cr = some (.error Errno.ENOENT) := by
  obtain ⟨n1, n2, n3⟩ := hcomp
  have key : ∀ (X1 : Ext), X1.MAXPATHLEN = X.MAXPATHLEN →
      lxsys_access X1 lxsnp X1.VEXEC 0 cr = none →
      lxsys_lookup X1 ns lxsnp comp cr = some (.error Errno.ENOENT) := by
    intro X1 hm ha
    cases hrow : dirlookup_scan lxsnp.lxsys_instance lxsys_dirlookup with
    | none =>
      simp only [lxsys_lookup, hvd, htype, lxsys_lookup_function, ha, n1, n2, n3,
        lxsys_lookup_static, hrow, ne_eq, not_true_eq_false, if_false, or_self, and_false]
    | some row =>
      have hmem := dirlookup_scan_mem _ _ _ hrow
      have hscan := lookup_static_scan_none X1 lxsnp comp row.dl_list
        (fun d hd => by have := dirlookup_names_short row hmem d hd; omega) (hno row hrow)
      simp only [lxsys_lookup, hvd, htype, lxsys_lookup_function, ha, n1, n2, n3,
        lxsys_lookup_static, hrow, hscan, ne_eq, not_true_eq_false, if_false, or_self,
        and_false]
  refine ⟨key X rfl hacc, ?_⟩
  intro getnode getnode_static
  exact key _ rfl hacc

/-- Instance of C14: `block` under `/sys`. -/
theorem C14_lookup_static_absent_witness :
    lxsys_lookup illumos none sys_root "block" kcred = some (.error Errno.ENOENT) ∧
    ∀ (getnode : lxsys_node → lxsys_nodetype → Nat → Nat → lxsys_node)
      (getnode_static : lxsys_node → Nat → lxsys_node),
      lxsys_lookup
        { illumos with lxsys_getnode := getnode, lxsys_getnode_static := getnode_static }
        none sys_root "block" kcred = some (.error Errno.ENOENT) :=
  C14_lookup_static_absent illumos none sys_root kcred "block" (by decide) rfl rfl rfl
    (by decide)
    (by
      intro row h
      have : row = ⟨LXSYS_INST_ROOT, dirlist_root⟩ := by
        have h2 : dirlookup_scan sys_root.lxsys_instance lxsys_dirlookup
            = some ⟨LXSYS_INST_ROOT, dirlist_root⟩ := by decide
        rw [h2] at h
        cases h
        rfl
      subst this
      decide)

/-! ## C15: the parent -/

/-- C15: for every directory node of every valid kind, instance and endpoint and
a caller with search access, `lxsys_lookup` of `..` succeeds and returns the
parent reference stored in the node; the same holds whatever the live
collection and the node factory are. -/
theorem C15_lookup_dotdot (X : Ext) (ns : Option (List phyint)) (lxsnp : lxsys_node)
    (cr : cred)
    (hvd : lxsnp.v_type = vtype.VDIR)
    (htype : lxsnp.lxsys_type ≠ lxsys_nodetype.LXSYS_NONE)
    (hacc : lxsys_access X lxsnp X.VEXEC 0 cr = none) :
    lxsys_lookup X ns lxsnp ".." cr = some (.ok (vnode.ref lxsnp.lxsys_parent)) ∧
    ∀ (ns1 : Option (List phyint))
      (getnode : lxsys_node → lxsys_nodetype → Nat → Nat → lxsys_node)
      (getnode_static : lxsys_node → Nat → lxsys_node),
      lxsys_lookup { X with lxsys_getnode := getnode, lxsys_getnode_static := getnode_static }
        ns1 lxsnp ".." cr = some (.ok (vnode.ref lxsnp.lxsys_parent)) := by
  have key : ∀ (X1 : Ext) (ns1 : Option (List phyint)),
      lxsys_access X1 lxsnp X1.VEXEC 0 cr = none →
      lxsys_lookup X1 ns1 lxsnp ".." cr = some (.ok (vnode.ref lxsnp.lxsys_parent)) := by
    intro X1 ns1 ha
    cases ht : lxsnp.lxsys_type with
    | LXSYS_NONE => exact absurd ht htype
    | LXSYS_STATIC => simp [lxsys_lookup, hvd, ht, lxsys_lookup_function, ha]
    | LXSYS_CLASS_NET => simp [lxsys_lookup, hvd, ht, lxsys_lookup_function, ha]
    | LXSYS_DEVICES_NET => simp [lxsys_lookup, hvd, ht, lxsys_lookup_function, ha]
  exact ⟨key X ns hacc, fun ns1 _ _ => key _ ns1 hacc⟩

/-- Instance of C15: `..` in the directory of the interface with index 2. -/
theorem C15_lookup_dotdot_witness :
    lxsys_lookup illumos none sys_net0_dir ".." kcred
      = some (.ok (vnode.ref sys_net0_dir.lxsys_parent)) ∧
    ∀ (ns1 : Option (List phyint))
      (getnode : lxsys_node → lxsys_nodetype → Nat → Nat → lxsys_node)
      (getnode_static : lxsys_node → Nat → lxsys_node),
      lxsys_lookup
        { illumos with lxsys_getnode := getnode, lxsys_getnode_static := getnode_static }
        ns1 sys_net0_dir ".." kcred = some (.ok (vnode.ref sys_net0_dir.lxsys_parent)) :=
  C15_lookup_dotdot illumos none sys_net0_dir kcred rfl (by decide) rfl

/-! ## C16: reading a directory of the interface tree -/

/-- C16: for every DEVICES_NET node whose identity is directory-only (instance 0
or endpoint 0), whatever the live collection and the interface resolver are,
`lxsys_read_devices_virtual_net` fails with `EISDIR` and leaves the output
buffer as it was, and `lxsys_read` fails with `EISDIR` and moves nothing. -/
theorem C16_read_directory_identity (X : Ext) (ns : Option (List phyint)) (lnp : lxsys_node)
    (uiop : uio Char)
    (htype : lnp.lxsys_type = lxsys_nodetype.LXSYS_DEVICES_NET)
    (hdir : lnp.lxsys_instance = 0 ∨ lnp.lxsys_endpoint = 0) :
    (∀ luio, lxsys_read_devices_virtual_net X ns lnp luio = (some Errno.EISDIR, luio)) ∧
    lxsys_read X ns lnp uiop = some (some Errno.EISDIR, uiop) := by
  have h1 : ∀ luio, lxsys_read_devices_virtual_net X ns lnp luio
      = (some Errno.EISDIR, luio) := by
    intro luio
    simp [lxsys_read_devices_virtual_net, hdir]
  refine ⟨h1, ?_⟩
  by_cases hvd : lnp.v_type = vtype.VDIR
  · simp [lxsys_read, htype, hvd]
  · simp [lxsys_read, htype, hvd, lxsys_read_function, h1, lxsys_uiobuf_new]

/-- Instance of C16: the directory of the interface with index 2. -/
theorem C16_read_directory_identity_witness :
    (∀ luio, lxsys_read_devices_virtual_net illumos (some three_ifaces) sys_net0_dir luio
      = (some Errno.EISDIR, luio)) ∧
    lxsys_read illumos (some three_ifaces) sys_net0_dir ⟨0, 100, false, []⟩
      = some (some Errno.EISDIR, ⟨0, 100, false, []⟩) :=
  C16_read_directory_identity illumos (some three_ifaces) sys_net0_dir ⟨0, 100, false, []⟩
    rfl (Or.inr rfl)

/-! ## C17: listing what is not a directory -/

/-- C17: with read access, an aligned non-negative offset and a positive byte
budget, `lxsys_readdir` fails with `ENOTDIR`, emits nothing and leaves offset,
budget and end-of-listing word as they were, for every CLASS_NET node with
instance ≠ 0 and for every DEVICES_NET node with instance ≠ 0 and endpoint ≠ 0. -/
theorem C17_readdir_not_a_directory (X : Ext) (ns : Option (List phyint)) (lxsnp : lxsys_node)
    (uiop : uio dirent64) (cr : cred) (eof : Int)
    (hnode : (lxsnp.lxsys_type = lxsys_nodetype.LXSYS_CLASS_NET ∧ lxsnp.lxsys_instance ≠ 0) ∨
      (lxsnp.lxsys_type = lxsys_nodetype.LXSYS_DEVICES_NET ∧ lxsnp.lxsys_instance ≠ 0 ∧
        lxsnp.lxsys_endpoint ≠ 0))
    (hacc : lxsys_access X lxsnp X.VREAD 0 cr = none)
    (hoff : 0 ≤ uiop.uio_offset)
    (hal : X.LXSYS_SDSIZE ∣ uiop.uio_offset)
    (hres : 0 < uiop.uio_resid) :
    lxsys_readdir X ns lxsnp uiop cr eof
      = some { error := some Errno.ENOTDIR, uiop := uiop, eof := eof } := by
  have h1 : ¬ (uiop.uio_offset < 0 ∨ uiop.uio_resid ≤ 0) := by omega
  have h2 : uiop.uio_offset.tmod X.LXSYS_SDSIZE = 0 := Int.tmod_eq_zero_of_dvd hal
  rcases hnode with ⟨ht, hi⟩ | ⟨ht, hi, he⟩
  · simp [lxsys_readdir, ht, lxsys_readdir_function, hacc, h1, h2,
      lxsys_readdir_class_netdir, hi]
  · simp [lxsys_readdir, ht, lxsys_readdir_function, hacc, h1, h2,
      lxsys_readdir_devices_virtual_netdir, hi, he]

/-- Instance of C17: the symlink of the interface with index 2. -/
theorem C17_readdir_not_a_directory_witness :
    lxsys_readdir illumos (some three_ifaces) sys_class_net0 ⟨32, 100, false, []⟩ kcred 0
      = some { error := some Errno.ENOTDIR, uiop := ⟨32, 100, false, []⟩, eof := 0 } :=
  C17_readdir_not_a_directory illumos (some three_ifaces) sys_class_net0
    ⟨32, 100, false, []⟩ kcred 0 (Or.inl ⟨rfl, by decide⟩) rfl (by decide) (by decide)
    (by decide)

/-! ## C18: opening for writing -/

/-- C18: for every node, synthetic or passthrough, and every open flag word in
which `FWRITE` is set, `lxsys_open` fails with `EROFS` and leaves the caller's
vnode as it was; the same holds whatever the open operation of the underlying
file is. -/
theorem C18_open_for_writing (X : Ext) (lxsnp : lxsys_node) (flag : Nat) (cr : cred)
    (hw : flag &&& X.FWRITE ≠ 0) :
    lxsys_open X lxsnp flag cr = (some Errno.EROFS, vnode.lxs lxsnp) ∧
    ∀ (vop_open : Nat → Nat → cred → Except Errno Nat),
      lxsys_open { X with VOP_OPEN := vop_open } lxsnp flag cr
        = (some Errno.EROFS, vnode.lxs lxsnp) := by
  constructor
  · simp [lxsys_open, hw]
  · intro vop_open
    simp [lxsys_open, hw]

/-- Instance of C18: the passthrough node opened with `FREAD | FWRITE`. -/
theorem C18_open_for_writing_witness :
    lxsys_open illumos passthrough_node 3 kcred
      = (some Errno.EROFS, vnode.lxs passthrough_node) ∧
    ∀ (vop_open : Nat → Nat → cred → Except Errno Nat),
      lxsys_open { illumos with VOP_OPEN := vop_open } passthrough_node 3 kcred
        = (some Errno.EROFS, vnode.lxs passthrough_node) :=
  C18_open_for_writing illumos passthrough_node 3 kcred (by decide)

/-! ## C19: the address of an interface without physical address -/

theorem uiobuf_flush_fresh (text : String) (uiop : uio Char)
    (hoff : uiop.uio_offset = 0) (hres : (text.length : Int) ≤ uiop.uio_resid)
    (hpos : 0 < text.length) (hfault : uiop.uio_fault = false) :
    lxsys_uiobuf_flush (lxsys_uiobuf_printf (lxsys_uiobuf_new uiop) text)
      = (none, { uiop with uio_offset := (text.length : Nat),
                           uio_resid := uiop.uio_resid - (text.length : Nat),
                           uio_data := uiop.uio_data ++ text.data }) := by
  have hbuf : ("" ++ text) = text := by
    apply String.ext
    simp
  have hne : uiop.uio_resid ≠ 0 := by omega
  have hcnt : min text.length uiop.uio_resid.toNat = text.length := by omega
  have htake : List.take text.length text.data = text.data :=
    List.take_of_length_le (le_refl _)
  simp only [lxsys_uiobuf_flush, lxsys_uiobuf_printf, lxsys_uiobuf_new, hbuf, hoff, hne,
    uiomove_text, hfault, Int.toNat_zero, List.drop_zero, Nat.sub_zero, hcnt, htake]
  simp
  omega

/-- C19 (as stated, refuted): reading the `address` file of the loopback
interface `lo0`, whose physical address length is 0, succeeds, but the content
is not the bare string `00:00:00:00:00:00`: a newline follows it. -/
theorem C19_address_not_bare_string :
    (lxsys_read illumos (some three_ifaces) sys_lo0_address ⟨0, 100, false, []⟩).map
        (fun r => (r.1, String.mk r.2.uio_data))
      = some (none, "00:00:00:00:00:00\n") ∧
    (lxsys_read illumos (some three_ifaces) sys_lo0_address ⟨0, 100, false, []⟩).map
        (fun r => (r.1, String.mk r.2.uio_data))
      ≠ some (none, "00:00:00:00:00:00") := by
  decide

/-- C19 (amended): for every interface that the resolver finds in the live
collection and whose physical address length is not `ETHERADDRL`, whatever
bytes are stored as its physical address, reading the `address` attribute
succeeds and the content formatted is exactly the line `00:00:00:00:00:00`
ended by a newline; a read at offset 0 with room for the 18 characters hands
exactly that text to the caller. -/
theorem C19_address_zero_line (X : Ext) (l : List phyint) (lnp : lxsys_node) (ill : ill_t)
    (uiop : uio Char)
    (htype : lnp.lxsys_type = lxsys_nodetype.LXSYS_DEVICES_NET)
    (hfile : lnp.v_type ≠ vtype.VDIR)
    (hinst : lnp.lxsys_instance ≠ 0)
    (hend : lnp.lxsys_endpoint = LXSYS_ENDP_NET_ADDRESS)
    (hfind : X.lxsys_find_ill l lnp.lxsys_instance = some ill)
    (hlen : ill.ill_phys_addr_length ≠ X.ETHERADDRL)
    (hoff : uiop.uio_offset = 0) (hres : 18 ≤ uiop.uio_resid)
    (hfault : uiop.uio_fault = false) :
    (∀ luio, lxsys_read_devices_virtual_net X (some l) lnp luio
      = (none, lxsys_uiobuf_printf luio "00:00:00:00:00:00\n")) ∧
    lxsys_read X (some l) lnp uiop
      = some (none, { uiop with uio_offset := 18, uio_resid := uiop.uio_resid - 18,
                                uio_data := uiop.uio_data ++ "00:00:00:00:00:00\n".data }) := by
  have he0 : LXSYS_ENDP_NET_ADDRESS ≠ 0 := by decide
  have h1 : ∀ luio, lxsys_read_devices_virtual_net X (some l) lnp luio
      = (none, lxsys_uiobuf_printf luio "00:00:00:00:00:00\n") := by
    intro luio
    simp [lxsys_read_devices_virtual_net, hinst, hend, he0, hfind, hlen]
  refine ⟨h1, ?_⟩
  have hfl := uiobuf_flush_fresh "00:00:00:00:00:00\n" uiop hoff (by simpa using hres)
    (by decide) hfault
  simp only [lxsys_read, htype, hfile, lxsys_read_function, h1, hfl]
  simp
  rfl

/-- Instance of C19 (amended): the `address` file of `lo0`. -/
theorem C19_address_zero_line_witness :
    (∀ luio, lxsys_read_devices_virtual_net illumos (some three_ifaces) sys_lo0_address luio
      = (none, lxsys_uiobuf_printf luio "00:00:00:00:00:00\n")) ∧
    lxsys_read illumos (some three_ifaces) sys_lo0_address ⟨0, 100, false, []⟩
      = some (none, { (⟨0, 100, false, []⟩ : uio Char) with
                      uio_offset := 18, uio_resid := (100 : Int) - 18,
                      uio_data := [] ++ "00:00:00:00:00:00\n".data }) :=
  C19_address_zero_line illumos three_ifaces sys_lo0_address ⟨0, [], 8, 0, 8, 8232, 0⟩
    ⟨0, 100, false, []⟩ rfl (by decide) (by decide) rfl (by decide) (by decide) rfl
    (by decide) rfl

/-! ## C20: the transmit queue length -/

/-- C20: for every interface that the resolver finds in the live collection,
reading the `tx_queue_len` attribute succeeds and the content formatted is the
line `0` when the interface is loopback and the line `1` when it is not; a read
at offset 0 with room for the two characters hands that line to the caller; and
a second interface with the same loopback-ness, whatever its other state and
its index, gets the same content. -/
theorem C20_tx_queue_len (X : Ext) (l : List phyint) (lnp : lxsys_node) (ill : ill_t)
    (uiop : uio Char)
    (htype : lnp.lxsys_type = lxsys_nodetype.LXSYS_DEVICES_NET)
    (hfile : lnp.v_type ≠ vtype.VDIR)
    (hinst : lnp.lxsys_instance ≠ 0)
    (hend : lnp.lxsys_endpoint = LXSYS_ENDP_NET_TXQLEN)
    (hfind : X.lxsys_find_ill l lnp.lxsys_instance = some ill)
    (hoff : uiop.uio_offset = 0) (hres : 2 ≤ uiop.uio_resid)
    (hfault : uiop.uio_fault = false) :
    (∀ luio, lxsys_read_devices_virtual_net X (some l) lnp luio
      = (none, lxsys_uiobuf_printf luio (if IS_LOOPBACK X ill then "0\n" else "1\n"))) ∧
    lxsys_read X (some l) lnp uiop
      = some (none, { uiop with
          uio_offset := 2, uio_resid := uiop.uio_resid - 2,
          uio_data := uiop.uio_data ++ (if IS_LOOPBACK X ill then "0\n" else "1\n").data }) ∧
    (∀ (l2 : List phyint) (lnp2 : lxsys_node) (ill2 : ill_t),
      lnp2.lxsys_instance ≠ 0 → lnp2.lxsys_endpoint = LXSYS_ENDP_NET_TXQLEN →
      X.lxsys_find_ill l2 lnp2.lxsys_instance = some ill2 →
      IS_LOOPBACK X ill2 = IS_LOOPBACK X ill →
      ∀ luio, lxsys_read_devices_virtual_net X (some l2) lnp2 luio
        = lxsys_read_devices_virtual_net X (some l) lnp luio) := by
  have he : ∀ (l1 : List phyint) (n1 : lxsys_node) (i1 : ill_t),
      n1.lxsys_instance ≠ 0 → n1.lxsys_endpoint = LXSYS_ENDP_NET_TXQLEN →
      X.lxsys_find_ill l1 n1.lxsys_instance = some i1 →
      ∀ luio, lxsys_read_devices_virtual_net X (some l1) n1 luio
        = (none, lxsys_uiobuf_printf luio (if IS_LOOPBACK X i1 then "0\n" else "1\n")) := by
    intro l1 n1 i1 hi hen hf luio
    have c0 : LXSYS_ENDP_NET_TXQLEN ≠ 0 := by decide
    have c1 : LXSYS_ENDP_NET_TXQLEN ≠ LXSYS_ENDP_NET_ADDRESS := by decide
    have c2 : LXSYS_ENDP_NET_TXQLEN ≠ LXSYS_ENDP_NET_ADDRLEN := by decide
    have c3 : LXSYS_ENDP_NET_TXQLEN ≠ LXSYS_ENDP_NET_FLAGS := by decide
    have c4 : LXSYS_ENDP_NET_TXQLEN ≠ LXSYS_ENDP_NET_IFINDEX := by decide
    have c5 : LXSYS_ENDP_NET_TXQLEN ≠ LXSYS_ENDP_NET_MTU := by decide
    by_cases hlo : IS_LOOPBACK X i1 = true
    · simp [lxsys_read_devices_virtual_net, hi, hen, hf, c0, c1, c2, c3, c4, c5, hlo]
    · simp [lxsys_read_devices_virtual_net, hi, hen, hf, c0, c1, c2, c3, c4, c5, hlo]
  have h1 := he l lnp ill hinst hend hfind
  refine ⟨h1, ?_, ?_⟩
  · have hl : (if IS_LOOPBACK X ill then "0\n" else "1\n").length = 2 := by
      split <;> decide
    have hfl := uiobuf_flush_fresh (if IS_LOOPBACK X ill then "0\n" else "1\n") uiop hoff
      (by rw [hl]; simpa using hres) (by rw [hl]; decide) hfault
    rw [hl] at hfl
    simp only [lxsys_read, htype, hfile, lxsys_read_function, h1, hfl]
    simp
  · intro l2 lnp2 ill2 hi2 he2 hf2 hsame luio
    rw [he l2 lnp2 ill2 hi2 he2 hf2 luio, h1 luio, hsame]

/-- Instance of C20: the `tx_queue_len` file of the Ethernet interface `net0`. -/
theorem C20_tx_queue_len_witness :
    (∀ luio, lxsys_read_devices_virtual_net illumos (some three_ifaces) sys_net0_txqlen luio
      = (none, lxsys_uiobuf_printf luio
          (if IS_LOOPBACK illumos ⟨6, [2, 8, 32, 171, 205, 18], 0, 0, 0, 1500, 4⟩ then "0\n"
           else "1\n"))) ∧
    lxsys_read illumos (some three_ifaces) sys_net0_txqlen ⟨0, 100, false, []⟩
      = some (none, { (⟨0, 100, false, []⟩ : uio Char) with
          uio_offset := 2, uio_resid := (100 : Int) - 2,
          uio_data := [] ++
            (if IS_LOOPBACK illumos ⟨6, [2, 8, 32, 171, 205, 18], 0, 0, 0, 1500, 4⟩ then "0\n"
             else "1\n").data }) ∧
    (∀ (l2 : List phyint) (lnp2 : lxsys_node) (ill2 : ill_t),
      lnp2.lxsys_instance ≠ 0 → lnp2.lxsys_endpoint = LXSYS_ENDP_NET_TXQLEN →
      illumos.lxsys_find_ill l2 lnp2.lxsys_instance = some ill2 →
      IS_LOOPBACK illumos ill2
        = IS_LOOPBACK illumos ⟨6, [2, 8, 32, 171, 205, 18], 0, 0, 0, 1500, 4⟩ →
      ∀ luio, lxsys_read_devices_virtual_net illumos (some l2) lnp2 luio
        = lxsys_read_devices_virtual_net illumos (some three_ifaces) sys_net0_txqlen luio) :=
  C20_tx_queue_len illumos three_ifaces sys_net0_txqlen
    ⟨6, [2, 8, 32, 171, 205, 18], 0, 0, 0, 1500, 4⟩ ⟨0, 100, false, []⟩ rfl (by decide)
    (by decide) rfl (by decide) rfl (by decide) rfl

/-! ## C21: the inode layout -/

/-- C21: for the layout `0000AABBBBCC` (TYPE in AA, INSTANCE in BBBB, ENDPOINT
in CC), every node kind, every instance below 2^16 and every endpoint below 2^8,
decoding the encoded identity gives back the kind, the instance and the
endpoint; hence two triples within those widths that encode to the same
identity are the same triple. -/
theorem C21_inode_round_trip (type : lxsys_nodetype) (inst endpoint : Nat)
    (hi : inst < 65536) (he : endpoint < 256) :
    lxsys_inode_decode (lxsys_inode_encode type inst endpoint) = (type, inst, endpoint) ∧
    ∀ (type2 : lxsys_nodetype) (inst2 endpoint2 : Nat), inst2 < 65536 → endpoint2 < 256 →
      lxsys_inode_encode type2 inst2 endpoint2 = lxsys_inode_encode type inst endpoint →
      type2 = type ∧ inst2 = inst ∧ endpoint2 = endpoint := by
  have key : ∀ (t : lxsys_nodetype) (i e : Nat), i < 65536 → e < 256 →
      lxsys_inode_decode (lxsys_inode_encode t i e) = (t, i, e) := by
    intro t i e hi he
    have ht : nodetype_index t < 4 := by cases t <;> decide
    have hback : nodetype_of_index (nodetype_index t) = t := by cases t <;> rfl
    unfold lxsys_inode_decode lxsys_inode_encode
    have h1 : ((nodetype_index t % 256) * 16777216 + (i % 65536) * 256 + e % 256)
        / 16777216 % 256 = nodetype_index t := by omega
    have h2 : ((nodetype_index t % 256) * 16777216 + (i % 65536) * 256 + e % 256)
        / 256 % 65536 = i := by omega
    have h3 : ((nodetype_index t % 256) * 16777216 + (i % 65536) * 256 + e % 256)
        % 256 = e := by omega
    rw [h1, h2, h3, hback]
  refine ⟨key type inst endpoint hi he, ?_⟩
  intro type2 inst2 endpoint2 hi2 he2 heq
  have h := key type2 inst2 endpoint2 hi2 he2
  rw [heq, key type inst endpoint hi he] at h
  simp only [Prod.mk.injEq] at h
  exact ⟨h.1.symm, h.2.1.symm, h.2.2.symm⟩

/-- Instance of C21: the identity of the file `tx_queue_len` of interface 2. -/
theorem C21_inode_round_trip_witness :
    lxsys_inode_decode (lxsys_inode_encode lxsys_nodetype.LXSYS_DEVICES_NET 2 6)
      = (lxsys_nodetype.LXSYS_DEVICES_NET, 2, 6) ∧
    ∀ (type2 : lxsys_nodetype) (inst2 endpoint2 : Nat), inst2 < 65536 → endpoint2 < 256 →
      lxsys_inode_encode type2 inst2 endpoint2
        = lxsys_inode_encode lxsys_nodetype.LXSYS_DEVICES_NET 2 6 →
      type2 = lxsys_nodetype.LXSYS_DEVICES_NET ∧ inst2 = 2 ∧ endpoint2 = 6 :=
  C21_inode_round_trip lxsys_nodetype.LXSYS_DEVICES_NET 2 6 (by decide) (by decide)

/-! ## C22: an interface listing started in the middle -/

/-- The run of `lxsys_readdir_ifaces` from the slot of the interface at
position `k`, when the record of that interface fits in the budget. -/
theorem readdir_ifaces_from_slot (X : Ext) (ldp : lxsys_node) (type : lxsys_nodetype)
    (l : List phyint) (k : Nat) (u : uio dirent64) (eof : Int) (p : phyint)
    (hsd : 0 < X.LXSYS_SDSIZE)
    (hlen : l.length < 2147483648)
    (hrec : ∀ q ∈ l, 0 < X.DIRENT64_RECLEN (iface_entry X type q).2.length ∧
      X.DIRENT64_RECLEN (iface_entry X type q).2.length < 65536)
    (hoff : u.uio_offset = ((k + 2 : Nat) : Int) * X.LXSYS_SDSIZE)
    (hfault : u.uio_fault = false)
    (hp : l[k]? = some p)
    (hfit : (X.DIRENT64_RECLEN (iface_entry X type p).2.length : Int) ≤ u.uio_resid) :
    ∃ (m : Nat) (r : readdir_ret), 1 ≤ m ∧ k + m ≤ l.length ∧
      lxsys_readdir_ifaces X (some l) ldp u eof type = r ∧
      r.error = none ∧
      r.uiop.uio_data = u.uio_data ++ canon_records X (k + 2)
        (((l.drop k).take m).map (iface_entry X type)) ∧
      r.uiop.uio_offset = ((k + m + 2 : Nat) : Int) * X.LXSYS_SDSIZE := by
  have hk : k < l.length := (List.getElem?_eq_some.1 hp).1
  have hres : 0 < u.uio_resid := by
    have := (hrec p (List.getElem?_mem hp)).1
    omega
  have hent : readdir_entry X ldp
      (fun e => X.lxsys_inode lxsys_nodetype.LXSYS_STATIC e.d_idnum 0) [] u.uio_offset
      = none := by
    rw [hoff, readdir_entry_at X ldp _ [] hsd (k + 2) (by push_cast; omega)]
    simp [canon_entries]
  have hcommon : lxsys_readdir_common X ldp u eof [] = ⟨none, u, 1⟩ := by
    rw [lxsys_readdir_common]
    exact readdir_loop_end X ldp _ [] u.uio_resid 2 u eof hres hent
  have htail := lxsys_readdir_ifaces_tail X l ldp u eof type _ hcommon rfl rfl
  have hi : (int32 (u.uio_offset.tdiv X.LXSYS_SDSIZE - 2)).toNat = k := by
    rw [hoff, slot_tdiv X hsd, int32_id] <;> push_cast <;> omega
  simp only [hi] at htail
  rw [ifaces_skip_lt k l 1 hk] at htail
  obtain ⟨m, r, hrun, hm, h1, _, h3, _, _, h0, h6⟩ :=
    ifaces_loop_spec X type u.uio_resid (l.drop k) k u 1 hoff hfault (le_refl _)
      (fun q hq => hrec q (List.mem_of_mem_drop hq))
  rw [hrun] at htail
  have hpk : (l.drop k)[0]? = some p := by rw [List.getElem?_drop]; simpa using hp
  have hdl : (l.drop k).length = l.length - k := List.length_drop k l
  rcases h6 with ⟨e1, e2, _, _⟩ | ⟨_, _, _, _, _, q, hq, hlt⟩
  · refine ⟨m, r, ?_, ?_, htail, e1, ?_, ?_⟩
    · by_contra hm0
      have hm0 : m = 0 := by omega
      have hu := h0 hm0
      subst hm0
      have hpos0 : 0 < (l.drop k).length := by rw [hdl]; exact Nat.sub_pos_of_lt hk
      have := (e2 hpos0).2
      rcases this with hle | ⟨q, hq, hq2, hne⟩
      · rw [hu] at hle
        exact absurd hle (not_le.2 hres)
      · rw [hu] at hne; exact hne rfl
    · rw [hdl] at hm
      have : m ≤ l.length - k := hm
      clear e2 htail hrun h0 h1 h3 hent hcommon hi
      omega
    · rw [h3, List.map_take]
    · rw [h1]
      have : k + 2 + m = k + m + 2 := by omega
      rw [this]
  · exfalso
    rw [hpk] at hq
    cases hq
    omega

/-- C22: for a live collection `l` that does not change during the call, a
position `k` with an interface `l[k]`, and a budget that holds the record of
that interface, the listing of an interface-listing root (`/sys/class/net` or
`/sys/devices/virtual/net`) by `lxsys_readdir`, that is `lxsys_readdir_ifaces`
with the kind of the directory, started at offset (k + 2) × `LXSYS_SDSIZE`,
succeeds and emits, after what the caller already holds, the records of the
interfaces at positions k, ..., k + m - 1 for some m ≥ 1, in index order, each
with the inode `lxsys_inode(kind of the directory, index of the interface, 0)`
(the first component of `iface_entry`), and leaves the offset at
(k + m + 2) × `LXSYS_SDSIZE`. -/
theorem C22_ifaces_listing_from_slot (X : Ext) (l : List phyint) (lxsnp : lxsys_node)
    (cr : cred) (u : uio dirent64) (eof : Int) (k : Nat) (p : phyint)
    (hsd : 0 < X.LXSYS_SDSIZE)
    (hlen : l.length < 2147483648)
    (hkind : lxsnp.lxsys_type = lxsys_nodetype.LXSYS_CLASS_NET ∨
      lxsnp.lxsys_type = lxsys_nodetype.LXSYS_DEVICES_NET)
    (hinst : lxsnp.lxsys_instance = 0)
    (hacc : lxsys_access X lxsnp X.VREAD 0 cr = none)
    (hrec : ∀ q ∈ l, 0 < X.DIRENT64_RECLEN (iface_entry X lxsnp.lxsys_type q).2.length ∧
      X.DIRENT64_RECLEN (iface_entry X lxsnp.lxsys_type q).2.length < 65536)
    (hoff : u.uio_offset = ((k + 2 : Nat) : Int) * X.LXSYS_SDSIZE)
    (hfault : u.uio_fault = false)
    (hp : l[k]? = some p)
    (hfit : (X.DIRENT64_RECLEN (iface_entry X lxsnp.lxsys_type p).2.length : Int)
      ≤ u.uio_resid) :
    ∃ (m : Nat) (r : readdir_ret), 1 ≤ m ∧ k + m ≤ l.length ∧
      lxsys_readdir X (some l) lxsnp u cr eof = some r ∧
      lxsys_readdir_ifaces X (some l) lxsnp u eof lxsnp.lxsys_type = r ∧
      r.error = none ∧
      r.uiop.uio_data = u.uio_data ++ canon_records X (k + 2)
        (((l.drop k).take m).map (iface_entry X lxsnp.lxsys_type)) ∧
      (∀ q, (iface_entry X lxsnp.lxsys_type q).1
        = X.lxsys_inode lxsnp.lxsys_type q.phyint_ifindex 0) ∧
      r.uiop.uio_offset = ((k + m + 2 : Nat) : Int) * X.LXSYS_SDSIZE := by
  obtain ⟨m, r, hm1, hm2, hrun, herr, hdata, hfin⟩ :=
    readdir_ifaces_from_slot X lxsnp lxsnp.lxsys_type l k u eof p hsd hlen hrec hoff hfault
      hp hfit
  have hres : 0 < u.uio_resid := by
    have := (hrec p (List.getElem?_mem hp)).1
    omega
  have hd := lxsys_readdir_dispatch X (some l) lxsnp cr u eof (k + 2) hacc hsd hoff hres
  refine ⟨m, r, hm1, hm2, ?_, hrun, herr, hdata, fun _ => rfl, hfin⟩
  rw [hd, ← hrun]
  rcases hkind with ht | ht
  · simp [ht, lxsys_readdir_function, lxsys_readdir_class_netdir, hinst]
  · simp [ht, lxsys_readdir_function, lxsys_readdir_devices_virtual_netdir, hinst]

/-- Instance of C22: `/sys/class/net` over three interfaces, listed from the
slot of the second one. -/
theorem C22_ifaces_listing_from_slot_witness :
    ∃ (m : Nat) (r : readdir_ret), 1 ≤ m ∧ 1 + m ≤ three_ifaces.length ∧
      lxsys_readdir illumos (some three_ifaces) sys_class_net ⟨48, 100, false, []⟩ kcred 0
        = some r ∧
      lxsys_readdir_ifaces illumos (some three_ifaces) sys_class_net ⟨48, 100, false, []⟩ 0
        sys_class_net.lxsys_type = r ∧
      r.error = none ∧
      r.uiop.uio_data = [] ++ canon_records illumos (1 + 2)
        (((three_ifaces.drop 1).take m).map (iface_entry illumos sys_class_net.lxsys_type)) ∧
      (∀ q, (iface_entry illumos sys_class_net.lxsys_type q).1
        = illumos.lxsys_inode sys_class_net.lxsys_type q.phyint_ifindex 0) ∧
      r.uiop.uio_offset = ((1 + m + 2 : Nat) : Int) * illumos.LXSYS_SDSIZE :=
  C22_ifaces_listing_from_slot illumos three_ifaces sys_class_net kcred ⟨48, 100, false, []⟩ 0
    1 ⟨"net0", 2⟩ (by decide) (by decide) (Or.inl rfl) rfl rfl
    (by
      intro q hq
      simp only [three_ifaces, List.mem_cons, List.mem_singleton, List.not_mem_nil,
        or_false] at hq
      rcases hq with h | h | h <;> subst h <;> exact ⟨by decide, by decide⟩)
    (by decide) rfl rfl (by decide)

/-! ## C23: the end-of-listing word of a table listing -/

/-- What the loop of `lxsys_readdir_common` / `lxsys_readdir_subdir` leaves when
it returns 0 from an aligned offset: the end-of-listing word says whether the
final offset has reached the slot after the last entry, and the final offset is
an aligned offset that has not gone past that slot unless the start had. -/
theorem readdir_loop_eof (X : Ext) (lxsnp : lxsys_node) (child_ino : lxsys_dirent → Nat)
    (dirtab : List lxsys_dirent) (oresid : Int)
    (hsd : 0 < X.LXSYS_SDSIZE) (hL : dirtab.length < 2147483648) :
    ∀ (fuel k : Nat) (u : uio dirent64) (eof : Int),
      u.uio_offset = (k : Int) * X.LXSYS_SDSIZE →
      (readdir_loop X lxsnp child_ino dirtab oresid fuel u eof).error = none →
      (readdir_loop X lxsnp child_ino dirtab oresid fuel u eof).eof
        = (if (readdir_loop X lxsnp child_ino dirtab oresid fuel u eof).uiop.uio_offset
              ≥ ((dirtab.length : Int) + 2) * X.LXSYS_SDSIZE then 1 else 0) ∧
      ∃ k1 : Nat, (readdir_loop X lxsnp child_ino dirtab oresid fuel u eof).uiop.uio_offset
          = (k1 : Int) * X.LXSYS_SDSIZE ∧ k ≤ k1 ∧
          (k ≤ dirtab.length + 2 → k1 ≤ dirtab.length + 2) := by
  intro fuel
  induction fuel with
  | zero =>
    intro k u eof hoff _
    exact ⟨rfl, k, hoff, le_refl _, fun h => h⟩
  | succ f ih =>
    intro k u eof hoff herr
    have htail : (readdir_tail X dirtab.length u).eof
        = (if (readdir_tail X dirtab.length u).uiop.uio_offset
              ≥ ((dirtab.length : Int) + 2) * X.LXSYS_SDSIZE then 1 else 0) ∧
        ∃ k1 : Nat, (readdir_tail X dirtab.length u).uiop.uio_offset
          = (k1 : Int) * X.LXSYS_SDSIZE ∧ k ≤ k1 ∧
          (k ≤ dirtab.length + 2 → k1 ≤ dirtab.length + 2) :=
      ⟨rfl, k, hoff, le_refl _, fun h => h⟩
    by_cases hpos : u.uio_resid > 0
    · cases hent : readdir_entry X lxsnp child_ino dirtab u.uio_offset with
      | none =>
        rw [readdir_loop_end X lxsnp child_ino dirtab oresid f u eof hpos hent]
        have hk : dirtab.length + 2 ≤ k := by
          by_contra hlt
          have h := readdir_entry_at X lxsnp child_ino dirtab hsd k (by omega)
          rw [← hoff, hent] at h
          have hlen := canon_entries_length X lxsnp child_ino dirtab
          have : k < (canon_entries X lxsnp child_ino dirtab).length := by omega
          rw [List.getElem?_eq_getElem this] at h
          cases h
        have hge : ((dirtab.length : Int) + 2) * X.LXSYS_SDSIZE ≤ u.uio_offset := by
          rw [hoff]
          exact (slot_le_iff X hsd _ _).2 (by omega)
        refine ⟨?_, k, hoff, le_refl _, fun h => h⟩
        simp only [ge_iff_le, hge, if_true]
      | some p =>
        obtain ⟨ino, name⟩ := p
        by_cases hbig : (X.DIRENT64_RECLEN name.length : Int) > u.uio_resid
        · by_cases heq : u.uio_resid = oresid
          · rw [readdir_loop_einval X lxsnp child_ino dirtab oresid f u eof ino name hpos hent
              hbig heq] at herr
            cases herr
          · rw [readdir_loop_break X lxsnp child_ino dirtab oresid f u eof ino name hpos hent
              hbig heq]
            exact htail
        · cases hf : u.uio_fault with
          | true =>
            have hfail : readdir_loop X lxsnp child_ino dirtab oresid (f + 1) u eof
                = { error := some Errno.EFAULT, uiop := u, eof := eof } := by
              simp [readdir_loop, hpos, hent, hbig, lxsys_dirent_out, uiomove_dirent, hf]
            rw [hfail] at herr
            cases herr
          | false =>
            have hemit := readdir_loop_emit X lxsnp child_ino dirtab oresid f u eof ino name
              hpos hent hbig hf
            rw [hemit] at herr ⊢
            have hoff1 : u.uio_offset + X.LXSYS_SDSIZE
                = ((k + 1 : Nat) : Int) * X.LXSYS_SDSIZE := by
              rw [hoff]; push_cast; ring
            obtain ⟨h1, k1, hk1, hle, hbound⟩ := ih (k + 1) _ eof hoff1 herr
            refine ⟨h1, k1, hk1, by omega, ?_⟩
            intro hk
            apply hbound
            by_contra hlt
            have hkeq : k = dirtab.length + 2 := by omega
            have h := readdir_entry_at X lxsnp child_ino dirtab hsd k (by omega)
            rw [← hoff, hent] at h
            have hlen := canon_entries_length X lxsnp child_ino dirtab
            rw [List.getElem?_eq_none (by omega)] at h
            cases h
    · rw [readdir_loop_stop X lxsnp child_ino dirtab oresid (f + 1) u eof hpos]
      exact htail

/-- C23 (as stated, refuted): a listing of `/sys` (three children, so the
listing ends at offset 5 × 16 = 80) started at the aligned offset 96 succeeds and
reports end of listing, and the offset it leaves is 96, not 80. -/
theorem C23_eof_past_the_end :
    lxsys_readdir illumos none sys_root ⟨96, 100, false, []⟩ kcred 0
      = some { error := none, uiop := ⟨96, 100, false, []⟩, eof := 1 } ∧
    lxsys_readdir_common illumos sys_root ⟨96, 100, false, []⟩ 0 dirlist_root
      = { error := none, uiop := ⟨96, 100, false, []⟩, eof := 1 } ∧
    (96 : Int) ≠ ((dirlist_root.length : Int) + 2) * illumos.LXSYS_SDSIZE := by
  decide

/-- C23 (amended): for a listing by `lxsys_readdir_common` or
`lxsys_readdir_subdir` over a table of length L, from an aligned non-negative
start offset, a call that returns 0 sets the end-of-listing word to 1 when the
offset it leaves is at least (L + 2) × `LXSYS_SDSIZE` and to 0 when it is not;
when the start offset is at most (L + 2) × `LXSYS_SDSIZE`, the word is 1 exactly
when the final offset equals (L + 2) × `LXSYS_SDSIZE`. -/
theorem C23_eof_rule (X : Ext) (lxsnp : lxsys_node) (uiop : uio dirent64) (eof : Int)
    (dirtab : List lxsys_dirent) (r : readdir_ret)
    (hsd : 0 < X.LXSYS_SDSIZE) (hL : dirtab.length < 2147483648)
    (hoff : 0 ≤ uiop.uio_offset) (hal : X.LXSYS_SDSIZE ∣ uiop.uio_offset)
    (hr : r = lxsys_readdir_common X lxsnp uiop eof dirtab ∨
      r = lxsys_readdir_subdir X lxsnp uiop eof dirtab)
    (herr : r.error = none) :
    r.eof = (if r.uiop.uio_offset ≥ ((dirtab.length : Int) + 2) * X.LXSYS_SDSIZE
      then 1 else 0) ∧
    (uiop.uio_offset ≤ ((dirtab.length : Int) + 2) * X.LXSYS_SDSIZE →
      (r.eof = 1 ↔ r.uiop.uio_offset = ((dirtab.length : Int) + 2) * X.LXSYS_SDSIZE)) := by
  obtain ⟨c, hc⟩ := hal
  have hc0 : 0 ≤ c := by
    by_contra hneg
    have : X.LXSYS_SDSIZE * c < 0 := Int.mul_neg_of_pos_of_neg hsd (by omega)
    omega
  have hk : uiop.uio_offset = ((c.toNat : Nat) : Int) * X.LXSYS_SDSIZE := by
    rw [hc, Int.toNat_of_nonneg hc0, Int.mul_comm]
  have key : ∀ child_ino,
      r = readdir_loop X lxsnp child_ino dirtab uiop.uio_resid (dirtab.length + 3) uiop eof →
      r.eof = (if r.uiop.uio_offset ≥ ((dirtab.length : Int) + 2) * X.LXSYS_SDSIZE
        then 1 else 0) ∧
      (uiop.uio_offset ≤ ((dirtab.length : Int) + 2) * X.LXSYS_SDSIZE →
        (r.eof = 1 ↔ r.uiop.uio_offset = ((dirtab.length : Int) + 2) * X.LXSYS_SDSIZE)) := by
    intro child_ino hrr
    subst hrr
    obtain ⟨h1, k1, hk1, _, hbound⟩ := readdir_loop_eof X lxsnp child_ino dirtab uiop.uio_resid
      hsd hL (dirtab.length + 3) c.toNat uiop eof hk herr
    refine ⟨h1, ?_⟩
    intro hstart
    have hstart1 : c.toNat ≤ dirtab.length + 2 := by
      rw [hk] at hstart
      have := (slot_le_iff X hsd _ _).1 hstart
      omega
    have hk1le := hbound hstart1
    have hle : (k1 : Int) * X.LXSYS_SDSIZE ≤ ((dirtab.length : Int) + 2) * X.LXSYS_SDSIZE :=
      (slot_le_iff X hsd _ _).2 (by omega)
    rw [h1, hk1]
    constructor
    · intro h
      by_cases hge : (k1 : Int) * X.LXSYS_SDSIZE ≥ ((dirtab.length : Int) + 2) * X.LXSYS_SDSIZE
      · omega
      · rw [if_neg hge] at h
        exact absurd h (by decide)
    · intro h
      rw [h]
      simp
  rcases hr with h | h
  · exact key _ h
  · exact key _ h

/-- Instance of C23 (amended): `/sys` listed from the slot of its first child. -/
theorem C23_eof_rule_witness :
    (lxsys_readdir_common illumos sys_root ⟨32, 100, false, []⟩ 0 dirlist_root).eof
      = (if (lxsys_readdir_common illumos sys_root ⟨32, 100, false, []⟩ 0
              dirlist_root).uiop.uio_offset
            ≥ ((dirlist_root.length : Int) + 2) * illumos.LXSYS_SDSIZE then 1 else 0) ∧
    ((⟨32, 100, false, []⟩ : uio dirent64).uio_offset
        ≤ ((dirlist_root.length : Int) + 2) * illumos.LXSYS_SDSIZE →
      ((lxsys_readdir_common illumos sys_root ⟨32, 100, false, []⟩ 0 dirlist_root).eof = 1 ↔
        (lxsys_readdir_common illumos sys_root ⟨32, 100, false, []⟩ 0
            dirlist_root).uiop.uio_offset
          = ((dirlist_root.length : Int) + 2) * illumos.LXSYS_SDSIZE)) :=
  C23_eof_rule illumos sys_root ⟨32, 100, false, []⟩ 0 dirlist_root
    (lxsys_readdir_common illumos sys_root ⟨32, 100, false, []⟩ 0 dirlist_root)
    (by decide) (by decide) (by decide) (by decide) (Or.inl rfl) (by decide)

/-! ## C24: the inode of a listed entry and the node that lookup returns -/

/-- C24 (refuted): in `/sys/class` the listing computes the inode of the entry
`net` from the triple (STATIC, `LXSYS_INST_CLASS_NETDIR`, 0), whatever the inode
function is, while `lxsys_lookup` of `net` in the same directory returns the
node that the factory makes for the triple (CLASS_NET, 0, 0), whatever the
factory is; likewise in `/sys/devices/virtual` the listing uses (STATIC,
`LXSYS_INST_DEVICES_VIRTUAL_NETDIR`, 0) and lookup (DEVICES_NET, 0, 0).  With
the inode layout of the file the listed inode is 0x01000400 and the inode of the
looked-up node 0x02000000. -/
theorem C24_net_entry_inode_mismatch :
    (∀ ino : lxsys_nodetype → Nat → Nat → Nat,
      (lxsys_readdir { illumos with lxsys_inode := ino } none sys_class
          ⟨32, 100, false, []⟩ kcred 0).map
        (fun r => (r.error, r.uiop.uio_data.map (fun d => (d.d_name, d.d_ino))))
      = some (none, [("net", ino lxsys_nodetype.LXSYS_STATIC LXSYS_INST_CLASS_NETDIR 0)])) ∧
    (∀ getnode : lxsys_node → lxsys_nodetype → Nat → Nat → lxsys_node,
      lxsys_lookup { illumos with lxsys_getnode := getnode } none sys_class "net" kcred
        = some (.ok (vnode.lxs (getnode sys_class lxsys_nodetype.LXSYS_CLASS_NET 0 0)))) ∧
    (∀ ino : lxsys_nodetype → Nat → Nat → Nat,
      (lxsys_readdir { illumos with lxsys_inode := ino } none sys_devices_virtual
          ⟨32, 100, false, []⟩ kcred 0).map
        (fun r => (r.error, r.uiop.uio_data.map (fun d => (d.d_name, d.d_ino))))
      = some (none,
          [("net", ino lxsys_nodetype.LXSYS_STATIC LXSYS_INST_DEVICES_VIRTUAL_NETDIR 0)])) ∧
    (∀ getnode : lxsys_node → lxsys_nodetype → Nat → Nat → lxsys_node,
      lxsys_lookup { illumos with lxsys_getnode := getnode } none sys_devices_virtual "net"
          kcred
        = some (.ok (vnode.lxs
            (getnode sys_devices_virtual lxsys_nodetype.LXSYS_DEVICES_NET 0 0)))) ∧
    (lxsys_readdir illumos none sys_class ⟨32, 100, false, []⟩ kcred 0).map
        (fun r => r.uiop.uio_data.map (fun d => (d.d_name, d.d_ino)))
      = some [("net", 16778240)] ∧
    lxsys_lookup illumos none sys_class "net" kcred = some (.ok (vnode.lxs sys_class_net)) ∧
    sys_class_net.lxsys_ino = 33554432 ∧
    (lxsys_nodetype.LXSYS_STATIC, LXSYS_INST_CLASS_NETDIR, 0)
      ≠ (sys_class_net.lxsys_type, sys_class_net.lxsys_instance, sys_class_net.lxsys_endpoint) := by
  refine ⟨?_, ?_, ?_, ?_, by decide, rfl, by decide, by decide⟩
  · intro ino; rfl
  · intro getnode; rfl
  · intro ino; rfl
  · intro getnode; rfl

/-! ## C25: lookup and listing of a static directory agree on the names -/

/-- C25: for every static directory node whose instance owns the row `row` of
`lxsys_dirlookup`, a caller with read and search access, and every component
name: paging through the directory with `lxsys_readdir` collects the complete
listing, whose names are `.`, `..` and the children of the table; `lxsys_lookup`
of the name succeeds exactly when the name is empty or is one of the names of
that listing; and for every other name it fails with `ENOENT`.  (A parent
reference is a handle here, so the node always has one.) -/
theorem C25_lookup_iff_listed (X : Ext) (ns : Option (List phyint)) (lxsnp : lxsys_node)
    (cr : cred) (comp : String) (row : lxsys_dirlookup_t) (budget : Nat → Int) (calls : Nat)
    (hsd : 0 < X.LXSYS_SDSIZE)
    (hmax : 7 < X.MAXPATHLEN)
    (hrow : row ∈ lxsys_dirlookup)
    (hvd : lxsnp.v_type = vtype.VDIR)
    (htype : lxsnp.lxsys_type = lxsys_nodetype.LXSYS_STATIC)
    (hinst : lxsnp.lxsys_instance = row.dl_instance)
    (hread : lxsys_access X lxsnp X.VREAD 0 cr = none)
    (hexec : lxsys_access X lxsnp X.VEXEC 0 cr = none)
    (hrec : ∀ p ∈ canon_entries X lxsnp
        (fun e => X.lxsys_inode lxsys_nodetype.LXSYS_STATIC e.d_idnum 0) row.dl_list,
      0 < X.DIRENT64_RECLEN p.2.length ∧ X.DIRENT64_RECLEN p.2.length < 65536 ∧
      ∀ i, (X.DIRENT64_RECLEN p.2.length : Int) ≤ budget i)
    (hcalls : row.dl_list.length + 2 ≤ calls) :
    readdir_pages X ns lxsnp cr budget calls 0 0 []
      = some (listing X lxsnp
          (fun e => X.lxsys_inode lxsys_nodetype.LXSYS_STATIC e.d_idnum 0) row.dl_list) ∧
    (listing X lxsnp (fun e => X.lxsys_inode lxsys_nodetype.LXSYS_STATIC e.d_idnum 0)
        row.dl_list).map (fun d => d.d_name)
      = "." :: ".." :: row.dl_list.map (fun e => e.d_name) ∧
    ((∃ vp, lxsys_lookup X ns lxsnp comp cr = some (.ok vp)) ↔
      (comp = "" ∨ comp ∈ (listing X lxsnp
        (fun e => X.lxsys_inode lxsys_nodetype.LXSYS_STATIC e.d_idnum 0)
        row.dl_list).map (fun d => d.d_name))) ∧
    (¬ (comp = "" ∨ comp ∈ (listing X lxsnp
        (fun e => X.lxsys_inode lxsys_nodetype.LXSYS_STATIC e.d_idnum 0)
        row.dl_list).map (fun d => d.d_name)) →
      lxsys_lookup X ns lxsnp comp cr = some (.error Errno.ENOENT)) := by
  have hpages := readdir_pages_from X ns lxsnp cr row budget hsd hrow htype hinst hread hrec
    calls 0 0 (by omega) (by omega)
  have hnames : (listing X lxsnp
      (fun e => X.lxsys_inode lxsys_nodetype.LXSYS_STATIC e.d_idnum 0)
      row.dl_list).map (fun d => d.d_name)
      = "." :: ".." :: row.dl_list.map (fun e => e.d_name) := by
    simp [listing, canon_records_names, canon_entries]
  have hscanrow : dirlookup_scan lxsnp.lxsys_instance lxsys_dirlookup = some row := by
    rw [hinst]; exact dirlookup_scan_row row hrow
  have hshort : ∀ d ∈ row.dl_list, d.d_name.length < X.MAXPATHLEN := by
    intro d hd
    have := dirlookup_names_short row hrow d hd
    omega
  -- the three outcomes of `lxsys_lookup`
  have hdd : comp = ".." →
      lxsys_lookup X ns lxsnp comp cr = some (.ok (vnode.ref lxsnp.lxsys_parent)) := by
    intro h
    simp [lxsys_lookup, hvd, htype, lxsys_lookup_function, hexec, h]
  have hself : comp ≠ ".." → (comp = "" ∨ comp = ".") →
      lxsys_lookup X ns lxsnp comp cr = some (.ok (vnode.lxs lxsnp)) := by
    intro h1 h2
    simp [lxsys_lookup, hvd, htype, lxsys_lookup_function, hexec, h1, h2]
  have hscan : comp ≠ ".." → comp ≠ "" → comp ≠ "." →
      lxsys_lookup X ns lxsnp comp cr
        = match lookup_static_scan X lxsnp comp row.dl_list with
          | none => some (.error Errno.ENOENT)
          | some vp => some (.ok (vnode.lxs vp)) := by
    intro h1 h2 h3
    simp only [lxsys_lookup, hvd, htype, lxsys_lookup_function, hexec, h1, h2, h3,
      lxsys_lookup_static, hscanrow, ne_eq, not_true_eq_false, if_false, or_self, and_false]
  have hfail : ¬ (comp = "" ∨ comp ∈ "." :: ".." :: row.dl_list.map (fun e => e.d_name)) →
      lxsys_lookup X ns lxsnp comp cr = some (.error Errno.ENOENT) := by
    intro hn
    have h2 : comp ≠ "" := fun h => hn (Or.inl h)
    have h3 : comp ≠ "." := fun h => hn (Or.inr (by simp [h]))
    have h1 : comp ≠ ".." := fun h => hn (Or.inr (by simp [h]))
    have hno : ∀ d ∈ row.dl_list, comp ≠ d.d_name := by
      intro d hd h
      apply hn
      right
      simp only [List.mem_cons, List.mem_map]
      exact Or.inr (Or.inr ⟨d, hd, h.symm⟩)
    rw [hscan h1 h2 h3, lookup_static_scan_none X lxsnp comp row.dl_list hshort hno]
  refine ⟨by simpa using hpages, hnames, ?_, ?_⟩
  · rw [hnames]
    constructor
    · rintro ⟨vp, hvp⟩
      by_contra hn
      rw [hfail hn] at hvp
      cases hvp
    · intro h
      by_cases h1 : comp = ".."
      · exact ⟨_, hdd h1⟩
      · by_cases h2 : comp = "" ∨ comp = "."
        · exact ⟨_, hself h1 h2⟩
        · have h2a : comp ≠ "" := fun h => h2 (Or.inl h)
          have h2b : comp ≠ "." := fun h => h2 (Or.inr h)
          have hmem : ∃ d ∈ row.dl_list, d.d_name = comp := by
            rcases h with h | h
            · exact absurd h h2a
            · simp only [List.mem_cons, List.mem_map] at h
              rcases h with h | h | h
              · exact absurd h h2b
              · exact absurd h h1
              · exact h
          obtain ⟨d, hd, hdn⟩ := hmem
          have hfound := lookup_static_scan_mem X lxsnp d (by omega) row.dl_list hd
            (fun e he hh => dirlookup_names_distinct row hrow e he d hd hh)
          rw [hdn] at hfound
          refine ⟨vnode.lxs (lookup_static_node X lxsnp d), ?_⟩
          rw [hscan h1 h2a h2b, hfound]
  · rw [hnames]
    exact hfail

/-- Instance of C25: the name `devices` in `/sys`, paged with 32 bytes per call. -/
theorem C25_lookup_iff_listed_witness :
    readdir_pages illumos none sys_root kcred (fun _ => 32) 5 0 0 []
      = some (listing illumos sys_root
          (fun e => illumos.lxsys_inode lxsys_nodetype.LXSYS_STATIC e.d_idnum 0) dirlist_root) ∧
    (listing illumos sys_root
        (fun e => illumos.lxsys_inode lxsys_nodetype.LXSYS_STATIC e.d_idnum 0)
        dirlist_root).map (fun d => d.d_name)
      = [".", "..", "class", "devices", "fs"] ∧
    ((∃ vp, lxsys_lookup illumos none sys_root "devices" kcred = some (.ok vp)) ↔
      ("devices" = "" ∨ "devices" ∈ (listing illumos sys_root
        (fun e => illumos.lxsys_inode lxsys_nodetype.LXSYS_STATIC e.d_idnum 0)
        dirlist_root).map (fun d => d.d_name))) ∧
    (¬ ("devices" = "" ∨ "devices" ∈ (listing illumos sys_root
        (fun e => illumos.lxsys_inode lxsys_nodetype.LXSYS_STATIC e.d_idnum 0)
        dirlist_root).map (fun d => d.d_name)) →
      lxsys_lookup illumos none sys_root "devices" kcred = some (.error Errno.ENOENT)) :=
  C25_lookup_iff_listed illumos none sys_root kcred "devices" ⟨LXSYS_INST_ROOT, dirlist_root⟩
    (fun _ => 32) 5 (by decide) (by decide) (by decide) rfl rfl rfl rfl rfl
    (by
      intro p hp
      simp only [canon_entries, dirlist_root, List.map, List.mem_cons, List.mem_singleton,
        List.not_mem_nil, or_false] at hp
      rcases hp with h | h | h | h | h <;> subst h <;>
        exact ⟨by decide, by decide, fun _ => by dsimp only; decide⟩)
    (by decide)

/-! ## C26: the static nodes reachable from the root -/

/-- Every child id of the static tables is one of the two ids that leave the
static kind or owns a row of `lxsys_dirlookup`. -/
theorem dirlookup_children_rows :
    ∀ row ∈ lxsys_dirlookup, ∀ d ∈ row.dl_list,
      d.d_idnum = LXSYS_INST_CLASS_NETDIR ∨ d.d_idnum = LXSYS_INST_DEVICES_VIRTUAL_NETDIR ∨
      (dirlookup_scan d.d_idnum lxsys_dirlookup).isSome = true := by
  decide

/-- A successful scan of `lxsys_lookup_static` returns the node made for one of
the entries of the table. -/
theorem lookup_static_scan_some (X : Ext) (ldp : lxsys_node) (comp : String) :
    ∀ (l : List lxsys_dirent) (n : lxsys_node), lookup_static_scan X ldp comp l = some n →
      ∃ d ∈ l, n = lookup_static_node X ldp d := by
  intro l
  induction l with
  | nil => intro n h; simp [lookup_static_scan] at h
  | cons e es ih =>
    intro n h
    by_cases hcmp : strncmp_eq comp e.d_name X.MAXPATHLEN = true
    · simp only [lookup_static_scan, hcmp, if_true, Option.some.injEq] at h
      exact ⟨e, by simp, h.symm⟩
    · simp only [lookup_static_scan, hcmp] at h
      obtain ⟨d, hd, hn⟩ := ih n h
      exact ⟨d, List.mem_cons_of_mem _ hd, hn⟩

/-- One `lxsys_lookup_static` step from a static node that owns a row leads to a
static node that owns a row, or to the root of one of the two interface trees. -/
theorem lookup_static_step (X : Ext) (ns : Option (List phyint)) (ldp n : lxsys_node)
    (comp : String) (hf : factory_ok X) (hfs : factory_static_ok X)
    (htype : ldp.lxsys_type = lxsys_nodetype.LXSYS_STATIC)
    (hstep : lxsys_lookup_static X ns ldp comp = some n) :
    (n.lxsys_type = lxsys_nodetype.LXSYS_STATIC ∧
      (dirlookup_scan n.lxsys_instance lxsys_dirlookup).isSome = true) ∨
    ((n.lxsys_type = lxsys_nodetype.LXSYS_CLASS_NET ∨
        n.lxsys_type = lxsys_nodetype.LXSYS_DEVICES_NET) ∧
      n.lxsys_instance = 0 ∧ n.lxsys_endpoint = 0) := by
  unfold lxsys_lookup_static at hstep
  cases hrow : dirlookup_scan ldp.lxsys_instance lxsys_dirlookup with
  | none => rw [hrow] at hstep; cases hstep
  | some row =>
    rw [hrow] at hstep
    have hmem := dirlookup_scan_mem _ _ _ hrow
    obtain ⟨d, hd, hn⟩ := lookup_static_scan_some X ldp comp row.dl_list n hstep
    subst hn
    by_cases h4 : d.d_idnum = LXSYS_INST_CLASS_NETDIR
    · right
      have hnode : lookup_static_node X ldp d
          = X.lxsys_getnode ldp lxsys_nodetype.LXSYS_CLASS_NET 0 0 := by
        simp [lookup_static_node, h4]
      rw [hnode]
      obtain ⟨a, b, c⟩ := hf ldp lxsys_nodetype.LXSYS_CLASS_NET 0 0
      exact ⟨Or.inl a, b, c⟩
    · by_cases h8 : d.d_idnum = LXSYS_INST_DEVICES_VIRTUAL_NETDIR
      · right
        have hnode : lookup_static_node X ldp d
            = X.lxsys_getnode ldp lxsys_nodetype.LXSYS_DEVICES_NET 0 0 := by
          have hne : LXSYS_INST_DEVICES_VIRTUAL_NETDIR ≠ LXSYS_INST_CLASS_NETDIR := by decide
          simp [lookup_static_node, h8, hne]
        rw [hnode]
        obtain ⟨a, b, c⟩ := hf ldp lxsys_nodetype.LXSYS_DEVICES_NET 0 0
        exact ⟨Or.inr a, b, c⟩
      · left
        have hnode : lookup_static_node X ldp d = X.lxsys_getnode_static ldp d.d_idnum := by
          simp [lookup_static_node, h4, h8, htype]
        rw [hnode]
        obtain ⟨a, b, _⟩ := hfs ldp d.d_idnum
        refine ⟨a, ?_⟩
        rw [b]
        rcases dirlookup_children_rows row hmem d hd with h | h | h
        · exact absurd h h4
        · exact absurd h h8
        · exact h

/-- C26: every node reached from the root of `/sys` (kind STATIC, instance
`LXSYS_INST_ROOT`) by a finite sequence of successful `lxsys_lookup_static`
steps is either a static node whose instance owns a row of `lxsys_dirlookup`,
on which `lxsys_readdir_static` is the listing of that row (not `ENOTDIR`) and
`lxsys_lookup_static` is the scan of that row (not the NULL of a missing row),
or a node of identity (CLASS_NET, 0, 0) or (DEVICES_NET, 0, 0). -/
theorem C26_static_reachable (X : Ext) (ns : Option (List phyint)) (root n : lxsys_node)
    (path : List String)
    (hf : factory_ok X) (hfs : factory_static_ok X)
    (htype : root.lxsys_type = lxsys_nodetype.LXSYS_STATIC)
    (hinst : root.lxsys_instance = LXSYS_INST_ROOT)
    (hpath : lookup_static_path X ns root path = some n) :
    (n.lxsys_type = lxsys_nodetype.LXSYS_STATIC →
      ∃ row, dirlookup_scan n.lxsys_instance lxsys_dirlookup = some row ∧
        (∀ uiop eof, lxsys_readdir_static X ns n uiop eof
          = lxsys_readdir_common X n uiop eof row.dl_list) ∧
        (∀ comp, lxsys_lookup_static X ns n comp
          = lookup_static_scan X n comp row.dl_list)) ∧
    (n.lxsys_type ≠ lxsys_nodetype.LXSYS_STATIC →
      (n.lxsys_type, n.lxsys_instance, n.lxsys_endpoint)
          = (lxsys_nodetype.LXSYS_CLASS_NET, 0, 0) ∨
      (n.lxsys_type, n.lxsys_instance, n.lxsys_endpoint)
          = (lxsys_nodetype.LXSYS_DEVICES_NET, 0, 0)) := by
  have inv : ∀ (path : List String) (a : lxsys_node),
      ((a.lxsys_type = lxsys_nodetype.LXSYS_STATIC ∧
          (dirlookup_scan a.lxsys_instance lxsys_dirlookup).isSome = true) ∨
        ((a.lxsys_type = lxsys_nodetype.LXSYS_CLASS_NET ∨
            a.lxsys_type = lxsys_nodetype.LXSYS_DEVICES_NET) ∧
          a.lxsys_instance = 0 ∧ a.lxsys_endpoint = 0)) →
      lookup_static_path X ns a path = some n →
      ((n.lxsys_type = lxsys_nodetype.LXSYS_STATIC ∧
          (dirlookup_scan n.lxsys_instance lxsys_dirlookup).isSome = true) ∨
        ((n.lxsys_type = lxsys_nodetype.LXSYS_CLASS_NET ∨
            n.lxsys_type = lxsys_nodetype.LXSYS_DEVICES_NET) ∧
          n.lxsys_instance = 0 ∧ n.lxsys_endpoint = 0)) := by
    intro path
    induction path with
    | nil =>
      intro a ha h
      simp only [lookup_static_path, Option.some.injEq] at h
      rw [← h]
      exact ha
    | cons comp rest ih =>
      intro a _ h
      by_cases hta : a.lxsys_type = lxsys_nodetype.LXSYS_STATIC
      · simp only [lookup_static_path, hta, if_true] at h
        cases hstep : lxsys_lookup_static X ns a comp with
        | none => rw [hstep] at h; cases h
        | some n1 =>
          rw [hstep] at h
          exact ih n1 (lookup_static_step X ns a n1 comp hf hfs hta hstep) h
      · simp only [lookup_static_path, hta, if_false] at h
        cases h
  have hroot : (dirlookup_scan root.lxsys_instance lxsys_dirlookup).isSome = true := by
    rw [hinst]; decide
  have hn := inv path root (Or.inl ⟨htype, hroot⟩) hpath
  constructor
  · intro hs
    rcases hn with ⟨_, hsome⟩ | ⟨hk, _, _⟩
    · cases hrow : dirlookup_scan n.lxsys_instance lxsys_dirlookup with
      | none => rw [hrow] at hsome; cases hsome
      | some row =>
        refine ⟨row, rfl, ?_, ?_⟩
        · intro uiop eof
          simp only [lxsys_readdir_static, hrow]
        · intro comp
          simp only [lxsys_lookup_static, hrow]
    · rcases hk with hk | hk <;> rw [hk] at hs <;> cases hs
  · intro hs
    rcases hn with ⟨ht, _⟩ | ⟨hk, hi, he⟩
    · exact absurd ht hs
    · rcases hk with hk | hk
      · left; rw [hk, hi, he]
      · right; rw [hk, hi, he]

/-- Instance of C26: the walk `devices`, `virtual` from `/sys`, and one step
further to `net`. -/
theorem C26_static_reachable_witness :
    (sys_devices_virtual.lxsys_type = lxsys_nodetype.LXSYS_STATIC →
      ∃ row, dirlookup_scan sys_devices_virtual.lxsys_instance lxsys_dirlookup = some row ∧
        (∀ uiop eof, lxsys_readdir_static illumos none sys_devices_virtual uiop eof
          = lxsys_readdir_common illumos sys_devices_virtual uiop eof row.dl_list) ∧
        (∀ comp, lxsys_lookup_static illumos none sys_devices_virtual comp
          = lookup_static_scan illumos sys_devices_virtual comp row.dl_list)) ∧
    (sys_devices_virtual.lxsys_type ≠ lxsys_nodetype.LXSYS_STATIC →
      (sys_devices_virtual.lxsys_type, sys_devices_virtual.lxsys_instance,
          sys_devices_virtual.lxsys_endpoint) = (lxsys_nodetype.LXSYS_CLASS_NET, 0, 0) ∨
      (sys_devices_virtual.lxsys_type, sys_devices_virtual.lxsys_instance,
          sys_devices_virtual.lxsys_endpoint) = (lxsys_nodetype.LXSYS_DEVICES_NET, 0, 0)) :=
  C26_static_reachable illumos none sys_root sys_devices_virtual ["devices", "virtual"]
    (fun _ _ _ _ => ⟨rfl, rfl, rfl⟩) (fun _ _ => ⟨rfl, rfl, rfl⟩) rfl rfl (by decide)

end LxSysfs
